import Mathlib

/-!
TopoBlender: best partial correspondence and link reconciliation.

A shallow embedding of `src/topo-blend/topo/TopoBlender.cpp`.

* C++ `double` values are exact rationals; the result of a division, which is `+inf`
  for a zero divisor, and the result of `Vec4d::norm()`, which is `+inf` when it
  overflows, live in `WithTop ℚ`.  Rounding and NaN are not represented.
* A `Link*` is the link it points to; a map keyed by `Link*` is a list in the order of
  `Graph.edges` (a `QVector<Link>`, so addresses grow with the index).
* A `Node*` is the node's `id`.
* A C++ operation with undefined behaviour (`first()` / `takeLast()` on an empty list,
  dereferencing `NULL`, subscript `-1`) is the result `Stop.abort`.
* The Euclidean norms of the vector library and the geodesic distance field are
  parameters, collected in `Geometry`.
-/

namespace TopoBlend

/-! ## Scalars and vectors -/

abbrev Scalar := ℚ

abbrev Vector3 := ℚ × ℚ × ℚ

abbrev Vec4d := ℚ × ℚ × ℚ × ℚ

/-- The largest finite `double`, `(2 - 2^-52) * 2^1023`. -/
def DBL_MAX : Scalar := ((2 ^ 1024 - 2 ^ 971 : ℕ) : ℚ)

/-- The external numerical collaborators called by the blender. -/
structure Geometry where
  /-- Euclidean norm of a 3-vector, `Vector3::norm()`. -/
  norm3 : Vector3 → Scalar
  /-- The value of `Vec4d::norm()`: the Euclidean norm of a 4-vector as the code
  computes it, `+inf` (here `⊤`) when the computation overflows. -/
  norm4 : Vec4d → WithTop ℚ
  /-- The call `getNode(id)->position(coordinate)` on the source shape. -/
  position : String → Vec4d → Vector3
  /-- The calls `gd.computeDistances(seed, 0.25)` then `gd.distanceTo(p)`. -/
  distanceTo : Vector3 → Vector3 → Scalar

/-- How a run of the code ends when it does not return. -/
inductive Stop where
  | abort
  | fuel
  deriving DecidableEq, Repr

/-! ## Structure::Graph (`StructureGraph.h`) -/

/-- A part of a shape: `Structure::Node` with the queries the blender calls. -/
structure Node where
  id : String
  type : String
  area : Scalar
  center : Vector3
  minCoord : Vec4d
  maxCoord : Vec4d
  deriving DecidableEq

/-- An inter-part link: `Structure::Link`, endpoints `n1`, `n2` and the coordinate at each. -/
structure Link where
  n1 : String
  n2 : String
  coord1 : Vec4d
  coord2 : Vec4d
  deriving DecidableEq

/-- Modelled from the spec: `Link::otherNode` is not in src; a link "exposes the
other part given one endpoint". -/
def Link.otherNode (l : Link) (id : String) : String :=
  if l.n1 = id then l.n2 else l.n1

/-- Modelled from the spec: `Link::getCoord` is not in src; the coordinate where the
link attaches at the endpoint `id`. -/
def Link.getCoord (l : Link) (id : String) : Vec4d :=
  if l.n1 = id then l.coord1 else l.coord2

/-- The fields `nodes` and `edges` of `Structure::Graph`. -/
structure Graph where
  nodes : List Node
  edges : List Link

/-- Modelled from the spec: `Graph::linksCoords` is declared in `StructureGraph.h`
only; "mapping from incident Link to its coordinate at that endpoint". -/
def Graph.linksCoords (g : Graph) (nodeID : String) : List (Link × Vec4d) :=
  (g.edges.filter (fun l => l.n1 = nodeID ∨ l.n2 = nodeID)).map
    (fun l => (l, l.getCoord nodeID))

/-! ## DynamicGraph, the attributed working graph -/

/-- The traversal status of a working-graph node. -/
inductive State where
  | SLEEP
  | ACTIVE
  | DONE
  | DISCONNECTED
  deriving DecidableEq, Repr

/-- Modelled from the spec: `SimpleNode` is not in src; a node record with the
attributes `state`, `original` and `correspond`.  The attributes `state` and
`correspond` live in the attribute map of the node and are absent (`none`) until the
code sets them.  The `idx` of the node is its position in `DynamicGraph.nodes`. -/
structure SimpleNode where
  state : Option State
  original : String
  correspond : Option String
  deriving DecidableEq

/-- Modelled from the spec: `SimpleEdge` is not in src; an edge descriptor over two
node indices. -/
structure SimpleEdge where
  n0 : Nat
  n1 : Nat
  deriving DecidableEq

/-- Modelled from the spec: the edge descriptor exposes `otherNode(thisNode)`. -/
def SimpleEdge.otherNode (e : SimpleEdge) (i : Nat) : Nat :=
  if e.n0 = i then e.n1 else e.n0

/-- True when the edge joins the nodes `i` and `j`, in either direction. -/
def SimpleEdge.joins (e : SimpleEdge) (i j : Nat) : Bool :=
  (e.n0 == i && e.n1 == j) || (e.n0 == j && e.n1 == i)

/-- True when the edge has `i` as an endpoint. -/
def SimpleEdge.touches (e : SimpleEdge) (i : Nat) : Bool :=
  e.n0 == i || e.n1 == i

/-- Modelled from the spec: `DynamicGraph` is not in src; the Attributed Graph of
spec section 4.3, a node store and an edge store. -/
structure DynamicGraph where
  nodes : List SimpleNode
  edges : List SimpleEdge
  deriving DecidableEq

namespace DynamicGraph

/-- Modelled from the spec: `nodeIndex(attrName, value)`, "first node index whose
attribute equals value, or -1"; the result `-1` is `none`. -/
def nodeIndex (g : DynamicGraph) (p : SimpleNode → Bool) : Option Nat :=
  g.nodes.findIdx? p

/-- Modelled from the spec: the constructor `DynamicGraph(Graph*)`, "a mutable copy
of the source Shape Graph's topology"; `original` is the id of the mirrored part, and
the attributes `state` and `correspond` are not set yet. -/
def ofGraph (g : Graph) : DynamicGraph where
  nodes := g.nodes.map (fun n => ⟨none, n.id, none⟩)
  edges := g.edges.filterMap (fun l =>
    match g.nodes.findIdx? (fun n => n.id = l.n1), g.nodes.findIdx? (fun n => n.id = l.n2) with
    | some a, some b => some ⟨a, b⟩
    | _, _ => none)

/-- Modelled from the spec: `flagNodes("state", v)` sets the attribute on every node. -/
def flagNodes (g : DynamicGraph) (s : State) : DynamicGraph :=
  { g with nodes := g.nodes.map (fun n => { n with state := some s }) }

/-- Modelled from the spec: `getNode(id)`, the node record mirroring the part `id`;
the pointer is the node's index, `NULL` is `none`. -/
def getNode (g : DynamicGraph) (id : String) : Option Nat :=
  g.nodeIndex (fun n => n.original = id)

/-- The update of the node record `nodes[i]` by `f`. -/
def modifyNode (g : DynamicGraph) (i : Nat) (f : SimpleNode → SimpleNode) : DynamicGraph :=
  match g.nodes[i]? with
  | none => g
  | some n => { g with nodes := g.nodes.set i (f n) }

/-- The statement `nodes[i].set("state", s)`. -/
def setState (g : DynamicGraph) (i : Nat) (s : State) : DynamicGraph :=
  g.modifyNode i (fun n => { n with state := some s })

/-- The statement `nodes[i].set("correspond", c)`. -/
def setCorrespond (g : DynamicGraph) (i : Nat) (c : String) : DynamicGraph :=
  g.modifyNode i (fun n => { n with correspond := some c })

/-- Modelled from the spec: `flags("state")`, "ordered sequence of that attribute's
values across all nodes"; the value of a node without the attribute is `none`. -/
def flags (g : DynamicGraph) : List (Option State) :=
  g.nodes.map (fun n => n.state)

/-- Modelled from the spec: `nodesWith("state", v)`, "all matching indices". -/
def nodesWith (g : DynamicGraph) (s : State) : List Nat :=
  (List.range g.nodes.length).filter (fun i =>
    match g.nodes[i]? with
    | some n => n.state = some s
    | none => false)

/-- Modelled from the spec: `removeEdge(i, j)`; only the edge store changes, so a
node left without edges stays in the graph. -/
def removeEdge (g : DynamicGraph) (i j : Nat) : DynamicGraph :=
  { g with edges := g.edges.filter (fun e => !e.joins i j) }

/-- Modelled from the spec: `addEdge(i, j)`. -/
def addEdge (g : DynamicGraph) (i j : Nat) : DynamicGraph :=
  { g with edges := g.edges ++ [⟨i, j⟩] }

/-- Modelled from the spec: `valence(node)`, "count of incident edges". -/
def valence (g : DynamicGraph) (i : Nat) : Nat :=
  g.edges.countP (fun e => e.touches i)

/-- Modelled from the spec: `hasEdge(i, j)`. -/
def hasEdge (g : DynamicGraph) (i j : Nat) : Bool :=
  g.edges.any (fun e => e.joins i j)

/-- Modelled from the spec: `getEdges(node)`, "mapping from edge id to edge
descriptor"; the edge id is the position in the edge store. -/
def getEdges (g : DynamicGraph) (i : Nat) : List (Nat × SimpleEdge) :=
  (g.edges.enum).filter (fun ke => ke.2.touches i)

/-- The number of nodes in state `s`: `flags("state").count(s)`. -/
def count (g : DynamicGraph) (s : State) : Nat :=
  g.flags.count (some s)

end DynamicGraph

/-! ## Phase 0: `TopoBlender::bestPartialCorrespondence` -/

abbrev QPairNodes := Node × Node

/-- A `QMultiMap<Scalar, QPairNodes>`: items in ascending key order, items sharing a
key from the most recently to the least recently inserted. -/
abbrev ScoreMap := List (WithTop ℚ × QPairNodes)

/-- The method `QMultiMap::insert`: the new item goes before the items with an equal
or larger key. -/
def ScoreMap.insert (k : WithTop ℚ) (v : QPairNodes) : ScoreMap → ScoreMap
  | [] => [(k, v)]
  | kv :: rest => if k ≤ kv.1 then (k, v) :: kv :: rest else kv :: ScoreMap.insert k v rest

/-- The method `QMultiMap::keys`. -/
def ScoreMap.keys (m : ScoreMap) : List (WithTop ℚ) :=
  m.map Prod.fst

/-- The method `QMultiMap::values(key)`. -/
def ScoreMap.values (m : ScoreMap) (k : WithTop ℚ) : List QPairNodes :=
  (m.filter (fun kv => kv.1 = k)).map Prod.snd

/-- The value of `1.0 / x`: `+inf` when `x` is zero. -/
def inverse (x : Scalar) : WithTop ℚ :=
  if x = 0 then ⊤ else ((1 / x : ℚ) : WithTop ℚ)

/-- Lines 35-42: the dissimilarity score of a pair of parts. -/
def score (geo : Geometry) (i j : Node) : WithTop ℚ :=
  ((|i.area - j.area| : ℚ) : WithTop ℚ) + ((|geo.norm3 (i.center - j.center)| : ℚ) : WithTop ℚ)
    + inverse (min i.area j.area)

/-- Lines 30-46: the inner loop over the target parts, for the source part `i`. -/
def scoreRow (geo : Geometry) (i : Node) (nodes2 : List Node) (scores : ScoreMap) : ScoreMap :=
  nodes2.foldl (fun scores j =>
    if i.type ≠ j.type then scores else ScoreMap.insert (score geo i j) (i, j) scores) scores

/-- Lines 25-47: the scores of all pairs of parts with equal type. -/
def computeScores (geo : Geometry) (g1 g2 : Graph) : ScoreMap :=
  g1.nodes.foldl (fun scores i => scoreRow geo i g2.nodes scores) []

/-- Lines 50-60: the running minimum over `scores.keys()`, started at `DBL_MAX`. -/
def findMinPairs (scores : ScoreMap) : WithTop ℚ × List QPairNodes :=
  scores.keys.foldl (fun acc curScore =>
    if curScore < acc.1 then (curScore, scores.values curScore) else acc)
    (((DBL_MAX : ℚ) : WithTop ℚ), [])

/-- Lines 20-71: `TopoBlender::bestPartialCorrespondence`; the result is the member
`active`. -/
def bestPartialCorrespondence (geo : Geometry) (g1 g2 : Graph) : Except Stop DynamicGraph :=
  match (findMinPairs (computeScores geo g1 g2)).2.head? with
  | none => .error Stop.abort
  | some (root, targetRoot) =>
    let active := (DynamicGraph.ofGraph g1).flagNodes State.SLEEP
    match active.getNode root.id with
    | none => .error Stop.abort
    | some k => .ok ((active.setCorrespond k targetRoot.id).setState k State.ACTIVE)

/-! ## `TopoBlender::badCorrespondence` -/

/-- A `QPairLink`: an active link and its closest target link (`NULL` is `none`). -/
abbrev QPairLink := Link × Option Link

/-- A `QPair<Scalar, QPairLink>`; the distance is a `double` that can be `+inf`. -/
abbrev ScalarLinksPair := WithTop ℚ × QPairLink

/-- Lines 84-96: the closest target link of an active link at coordinate `ci`, a
running minimum started at `(DBL_MAX, NULL)`. -/
def closestLink (geo : Geometry) (ci : Vec4d) (coord_target : List (Link × Vec4d)) :
    WithTop ℚ × Option Link :=
  coord_target.foldl (fun acc j =>
    let dist := geo.norm4 (ci - j.2)
    if dist < acc.1 then (dist, some j.1) else acc) (((DBL_MAX : ℚ) : WithTop ℚ), none)

/-- Modelled from the spec: `sortQMapByValue` is not in src; "an ordered-by-distance
list of (active-link, best target-link, distance) triples, ascending". -/
def sortQMapByValue (dists : List (QPairLink × WithTop ℚ)) : List ScalarLinksPair :=
  (dists.map (fun kv => (kv.2, kv.1))).insertionSort (fun a b => a.1 ≤ b.1)

/-- Lines 76-99: the map `dists`, one entry per active link. -/
def pairDists (geo : Geometry) (coord_active coord_target : List (Link × Vec4d)) :
    List (QPairLink × WithTop ℚ) :=
  coord_active.map (fun i =>
    let c := closestLink geo i.2 coord_target
    ((i.1, c.2), c.1))

/-- Lines 73-102: `TopoBlender::badCorrespondence`; the result is the returned list
with the two output parameters `coord_active` and `coord_target`. -/
def badCorrespondence (geo : Geometry) (g1 g2 : Graph) (activeNodeID targetNodeID : String) :
    List ScalarLinksPair × List (Link × Vec4d) × List (Link × Vec4d) :=
  let coord_active := g1.linksCoords activeNodeID
  let coord_target := g2.linksCoords targetNodeID
  (sortQMapByValue (pairDists geo coord_active coord_target), coord_active, coord_target)

/-! ## `TopoBlender::blend`, stage 1 -/

/-- A `QMap<int, int>`: the items in ascending key order. -/
abbrev IntMap := List (Nat × Int)

/-- The expression `m[k]` of a `QMap<int, int>` read as a value; a missing key is `0`. -/
def IntMap.get (m : IntMap) (k : Nat) : Int :=
  match m.find? (fun kv => kv.1 = k) with
  | some kv => kv.2
  | none => 0

/-- The statement `m[k] = v`. -/
def IntMap.set (k : Nat) (v : Int) : IntMap → IntMap
  | [] => [(k, v)]
  | kv :: rest =>
    if k < kv.1 then (k, v) :: kv :: rest
    else if k = kv.1 then (k, v) :: rest
    else kv :: IntMap.set k v rest

/-- The local state of `blend`: the member `active`, the map `needLink` and the
counter `step`.  The map `deadLinks` is written and never read, and is left out. -/
structure BlendState where
  active : DynamicGraph
  needLink : IntMap
  step : Nat
  deriving DecidableEq

/-- Lines 173-178: the edge between `active_idx` and `other_idx` is removed, and
`other_idx` is marked `DISCONNECTED` if it is isolated. -/
def detach (g : DynamicGraph) (active_idx other_idx : Nat) : DynamicGraph :=
  let g := g.removeEdge active_idx other_idx
  if g.valence other_idx = 0 then g.setState other_idx State.DISCONNECTED else g

/-- Lines 166-181: the loop that takes `k` entries from the end of `corresp` and
removes their edges. -/
def removeExcess (activeNodeID : String) (active_idx : Nat) :
    Nat → List ScalarLinksPair → DynamicGraph → Except Stop (List ScalarLinksPair × DynamicGraph)
  | 0, corresp, g => .ok (corresp, g)
  | k + 1, corresp, g =>
    match corresp.getLast? with
    | none => .error Stop.abort
    | some sp =>
      let link := sp.2.1
      let otherNodeID := link.otherNode activeNodeID
      match g.nodeIndex (fun n => n.original = otherNodeID) with
      | none => .error Stop.abort
      | some other_idx =>
        removeExcess activeNodeID active_idx k corresp.dropLast (detach g active_idx other_idx)

/-- Lines 184-199: propagation of `ACTIVE` to the remaining neighbours of an
over-linked node. -/
def propagateAbundance (activeNodeID targetNodeID : String) :
    List ScalarLinksPair → DynamicGraph → Except Stop DynamicGraph
  | [], g => .ok g
  | sp :: rest, g =>
    let link := sp.2.1
    let otherNodeID := link.otherNode activeNodeID
    match g.nodeIndex (fun n => n.original = otherNodeID) with
    | none => .error Stop.abort
    | some other_idx =>
      match g.nodes[other_idx]? with
      | none => .error Stop.abort
      | some other =>
        let otherState := other.state
        let g := if otherState ≠ some State.DONE ∧ otherState ≠ some State.DISCONNECTED
          then g.setState other_idx State.ACTIVE else g
        match sp.2.2 with
        | none => .error Stop.abort
        | some linkTarget =>
          let otherNodeTarget := linkTarget.otherNode targetNodeID
          propagateAbundance activeNodeID targetNodeID rest
            (g.setCorrespond other_idx otherNodeTarget)

/-- Lines 213-230: propagation of `ACTIVE` to the neighbours of an under-linked node. -/
def propagateDeficiency (activeNodeID targetNodeID : String) :
    List ScalarLinksPair → DynamicGraph → Except Stop DynamicGraph
  | [], g => .ok g
  | sp :: rest, g =>
    let link := sp.2.1
    let otherNodeID := link.otherNode activeNodeID
    match g.nodeIndex (fun n => n.original = otherNodeID) with
    | none => .error Stop.abort
    | some other_idx =>
      match g.nodes[other_idx]? with
      | none => .error Stop.abort
      | some other =>
        let otherState := other.state
        if otherState ≠ some State.DONE ∧ otherState ≠ some State.DISCONNECTED then
          match sp.2.2 with
          | none => .error Stop.abort
          | some linkTarget =>
            let otherNodeTarget := linkTarget.otherNode targetNodeID
            propagateDeficiency activeNodeID targetNodeID rest
              ((g.setState other_idx State.ACTIVE).setCorrespond other_idx otherNodeTarget)
        else propagateDeficiency activeNodeID targetNodeID rest g

/-- The value of `n.str("correspond")`: the empty string when the attribute is absent. -/
def SimpleNode.strCorrespond (n : SimpleNode) : String :=
  n.correspond.getD ""

/-- Lines 160-233: the three branches on `linkDiff`, for the picked node `active_idx`. -/
def reconcile (activeNodeID targetNodeID : String) (active_idx : Nat)
    (corresp : List ScalarLinksPair) (linkDiff : Int) (s : BlendState) : Except Stop BlendState :=
  if 0 < linkDiff then
    match removeExcess activeNodeID active_idx linkDiff.toNat corresp s.active with
    | .error e => .error e
    | .ok (rest, g) =>
      match propagateAbundance activeNodeID targetNodeID rest g with
      | .error e => .error e
      | .ok g => .ok { s with active := g }
  else if linkDiff < 0 then
    match propagateDeficiency activeNodeID targetNodeID corresp s.active with
    | .error e => .error e
    | .ok g => .ok { s with active := g, needLink := IntMap.set active_idx |linkDiff| s.needLink }
  else .ok s

/-- Lines 146-248: the body of the stage 1 loop, one worklist iteration. -/
def stage1Body (geo : Geometry) (g1 g2 : Graph) (s : BlendState) : Except Stop BlendState :=
  match s.active.nodeIndex (fun n => n.state = some State.ACTIVE) with
  | none => .ok s
  | some active_idx =>
    match s.active.nodes[active_idx]? with
    | none => .error Stop.abort
    | some n_active =>
      let activeNodeID := n_active.original
      let targetNodeID := n_active.strCorrespond
      let r := badCorrespondence geo g1 g2 activeNodeID targetNodeID
      let linkDiff : Int := (r.2.1.length : Int) - (r.2.2.length : Int)
      match reconcile activeNodeID targetNodeID active_idx r.1 linkDiff s with
      | .error e => .error e
      | .ok s => .ok { s with active := s.active.setState active_idx State.DONE, step := s.step + 1 }

/-- Lines 138-144: the loop test of stage 1, with the two `break` tests on `ACTIVE`. -/
def stage1Guard (target : DynamicGraph) (s : BlendState) : Bool :=
  s.active.count State.DONE ≠ target.nodes.length ∧ some State.ACTIVE ∈ s.active.flags

/-- Lines 138-249: the stage 1 loop, run for at most `fuel` iterations. -/
def stage1 (geo : Geometry) (g1 g2 : Graph) (target : DynamicGraph) :
    Nat → BlendState → Except Stop BlendState
  | 0, s => if stage1Guard target s then .error Stop.fuel else .ok s
  | fuel + 1, s =>
    if stage1Guard target s then
      match stage1Body geo g1 g2 s with
      | .error e => .error e
      | .ok s => stage1 geo g1 g2 target fuel s
    else .ok s

/-! ## `TopoBlender::blend`, stage 2 -/

/-- Modelled from the spec: `Graph::getNode` is declared in `StructureGraph.h` only;
the part with the given identifier, `NULL` (here `none`) when there is none. -/
def Graph.getNode (g : Graph) (nodeID : String) : Option Node :=
  g.nodes.find? (fun n => n.id = nodeID)

/-- Modelled from the spec: `getOriginalLink` is not in src; "originalLink(partA,
partB): Link connecting the two named parts, or fails with NotFound". -/
def Graph.getOriginalLink (g : Graph) (a b : String) : Option Link :=
  g.edges.find? (fun l => (l.n1 = a ∧ l.n2 = b) ∨ (l.n1 = b ∧ l.n2 = a))

/-- Lines 265-271: the inner loop that removes from `adjTarget` the target edges
whose far endpoint is the correspondent of the active neighbour `ni`. -/
def pruneMatched (target : DynamicGraph) (n_target_idx : Nat) (ni : SimpleNode) :
    List (Nat × SimpleEdge) → Except Stop (List (Nat × SimpleEdge))
  | [] => .ok []
  | ke :: rest =>
    match target.nodes[ke.2.otherNode n_target_idx]? with
    | none => .error Stop.abort
    | some nj =>
      match pruneMatched target n_target_idx ni rest with
      | .error e => .error e
      | .ok rest => if ni.correspond = some nj.original then .ok rest else .ok (ke :: rest)

/-- Lines 261-272: the target edges of the deficit node that no active neighbour
matches yet. -/
def missingEdges (active target : DynamicGraph) (index n_target_idx : Nat) :
    List (Nat × SimpleEdge) → List (Nat × SimpleEdge) → Except Stop (List (Nat × SimpleEdge))
  | [], adjTarget => .ok adjTarget
  | ke :: rest, adjTarget =>
    match active.nodes[ke.2.otherNode index]? with
    | none => .error Stop.abort
    | some ni =>
      match pruneMatched target n_target_idx ni adjTarget with
      | .error e => .error e
      | .ok adjTarget => missingEdges active target index n_target_idx rest adjTarget

/-- A `QMap<double, std::pair<int,Vec4d>>`: the items in ascending key order. -/
abbrev DistMap := List (Scalar × (Nat × Vec4d))

/-- The statement `dists[k] = v`: an equal key is overwritten. -/
def DistMap.set (k : Scalar) (v : Nat × Vec4d) : DistMap → DistMap
  | [] => [(k, v)]
  | kv :: rest =>
    if k < kv.1 then (k, v) :: kv :: rest
    else if k = kv.1 then (k, v) :: rest
    else kv :: DistMap.set k v rest

/-- Lines 298-308: the distances of the two extremities of every disconnected node. -/
def rankExtremities (geo : Geometry) (g1 : Graph) (active : DynamicGraph)
    (linkPosition : Vector3) : List Nat → DistMap → Except Stop DistMap
  | [], dists => .ok dists
  | d :: rest, dists =>
    match active.nodes[d]? with
    | none => .error Stop.abort
    | some nd =>
      match g1.getNode nd.original with
      | none => .error Stop.abort
      | some n =>
        let d1 := geo.distanceTo linkPosition (geo.position n.id n.minCoord)
        let d2 := geo.distanceTo linkPosition (geo.position n.id n.maxCoord)
        rankExtremities geo g1 active linkPosition rest
          (DistMap.set d2 (d, n.maxCoord) (DistMap.set d1 (d, n.minCoord) dists))

/-- Lines 277-331: one reconnection attempt, for the missing target edge `ke` of the
deficit node `index`; `none` is the `break` taken when no node is `DISCONNECTED`. -/
def reconnectStep (geo : Geometry) (g1 g2 : Graph) (target : DynamicGraph)
    (index n_target_idx : Nat) (ke : Nat × SimpleEdge) (s : BlendState) :
    Except Stop (Option BlendState) :=
  match s.active.nodes[index]?, target.nodes[n_target_idx]?,
      target.nodes[ke.2.otherNode n_target_idx]? with
  | some n_active, some n_target, some n_targetOther =>
    match g2.getOriginalLink n_target.original n_targetOther.original with
    | none => .error Stop.abort
    | some link =>
      let coordinate := link.getCoord n_target.original
      let linkPosition := geo.position n_active.original coordinate
      let dissconnected := s.active.nodesWith State.DISCONNECTED
      if dissconnected.isEmpty then .ok none
      else
        match rankExtremities geo g1 s.active linkPosition dissconnected [] with
        | .error e => .error e
        | .ok dists =>
          match dists.head? with
          | none => .error Stop.abort
          | some closestRecord =>
            let closestIdx := closestRecord.2.1
            let g := (s.active.setCorrespond closestIdx n_targetOther.original).setState
              closestIdx State.ACTIVE
            .ok (some { active := g.addEdge index closestIdx,
                        needLink := IntMap.set index (s.needLink.get index - 1) s.needLink,
                        step := s.step + 1 })
  | _, _, _ => .error Stop.abort

/-- Lines 275-332: the loop over the missing target edges of the deficit node
`index`; it stops at the first edge met with no `DISCONNECTED` node left. -/
def reconnect (geo : Geometry) (g1 g2 : Graph) (target : DynamicGraph)
    (index n_target_idx : Nat) : List (Nat × SimpleEdge) → BlendState → Except Stop BlendState
  | [], s => .ok s
  | ke :: rest, s =>
    match reconnectStep geo g1 g2 target index n_target_idx ke s with
    | .error e => .error e
    | .ok none => .ok s
    | .ok (some s) => reconnect geo g1 g2 target index n_target_idx rest s

/-- Lines 254-332: the repair of one deficit node `index`. -/
def repairNode (geo : Geometry) (g1 g2 : Graph) (target : DynamicGraph) (index : Nat)
    (s : BlendState) : Except Stop BlendState :=
  match s.active.nodes[index]? with
  | none => .error Stop.abort
  | some n_active =>
    match target.getNode n_active.strCorrespond with
    | none => .error Stop.abort
    | some n_target_idx =>
      match missingEdges s.active target index n_target_idx (s.active.getEdges index)
          (target.getEdges n_target_idx) with
      | .error e => .error e
      | .ok adjTarget => reconnect geo g1 g2 target index n_target_idx adjTarget s

/-- Lines 252-334: stage 2, over the keys that `needLink` holds when the stage starts. -/
def stage2 (geo : Geometry) (g1 g2 : Graph) (target : DynamicGraph) :
    List Nat → BlendState → Except Stop BlendState
  | [], s => .ok s
  | index :: rest, s =>
    match repairNode geo g1 g2 target index s with
    | .error e => .error e
    | .ok s => stage2 geo g1 g2 target rest s

/-! ## `TopoBlender::blend`, stage 3 -/

/-- Lines 349-367: the loop over the edges of the target counterpart of `active_idx`. -/
def applyTargetEdges (target : DynamicGraph) (active_idx n_target_idx : Nat) :
    List (Nat × SimpleEdge) → BlendState → Except Stop BlendState
  | [], s => .ok s
  | ke :: rest, s =>
    match target.nodes[ke.2.otherNode n_target_idx]? with
    | none => .error Stop.abort
    | some n_targetOther =>
      let targetOtherID := n_targetOther.original
      match s.active.nodeIndex (fun n => n.correspond = some targetOtherID) with
      | none => applyTargetEdges target active_idx n_target_idx rest s
      | some other_idx =>
        if s.active.hasEdge active_idx other_idx then
          applyTargetEdges target active_idx n_target_idx rest s
        else
          applyTargetEdges target active_idx n_target_idx rest
            { active := s.active.addEdge active_idx other_idx,
              needLink := IntMap.set active_idx (s.needLink.get active_idx - 1) s.needLink,
              step := s.step + 1 }

/-- Lines 339-370: the body of the stage 3 loop. -/
def stage3Body (target : DynamicGraph) (s : BlendState) : Except Stop BlendState :=
  match s.active.nodeIndex (fun n => n.state = some State.ACTIVE) with
  | none => .ok s
  | some active_idx =>
    match s.active.nodes[active_idx]? with
    | none => .error Stop.abort
    | some n_active =>
      match target.nodeIndex (fun n => n.original = n_active.strCorrespond) with
      | none => .error Stop.abort
      | some n_target_idx =>
        match applyTargetEdges target active_idx n_target_idx (target.getEdges n_target_idx) s with
        | .error e => .error e
        | .ok s => .ok { s with active := s.active.setState active_idx State.DONE }

/-- Lines 337-371: the stage 3 loop, run for at most `fuel` iterations. -/
def stage3 (target : DynamicGraph) : Nat → BlendState → Except Stop BlendState
  | 0, s => if some State.ACTIVE ∈ s.active.flags then .error Stop.fuel else .ok s
  | fuel + 1, s =>
    if some State.ACTIVE ∈ s.active.flags then
      match stage3Body target s with
      | .error e => .error e
      | .ok s => stage3 target fuel s
    else .ok s

/-- Lines 104-385: `TopoBlender::blend`; the result is the working graph `active`
with `needLink` and `step` when the function returns, after the `++step` of line 376.
Each loop gets `fuel` iterations. -/
def blend (geo : Geometry) (g1 g2 : Graph) (fuel : Nat) : Except Stop BlendState :=
  match bestPartialCorrespondence geo g1 g2 with
  | .error e => .error e
  | .ok active =>
    let target := DynamicGraph.ofGraph g2
    match stage1 geo g1 g2 target fuel ⟨active, [], 0⟩ with
    | .error e => .error e
    | .ok s =>
      match stage2 geo g1 g2 target (s.needLink.map Prod.fst) s with
      | .error e => .error e
      | .ok s =>
        match stage3 target fuel s with
        | .error e => .error e
        | .ok s => .ok { s with step := s.step + 1 }

/-! ## Predicates used to state the properties -/

/-- A node that stage 1 may still process or promote: one that is neither `DONE` nor
`DISCONNECTED`; on a graph whose nodes all have a state, one that is `SLEEP` or
`ACTIVE`. -/
def SimpleNode.pending (n : SimpleNode) : Bool :=
  n.state ≠ some State.DONE ∧ n.state ≠ some State.DISCONNECTED

/-- The number of nodes that stage 1 may still process. -/
def DynamicGraph.pendingCount (g : DynamicGraph) : Nat :=
  g.nodes.countP SimpleNode.pending

/-- What a node record can undergo inside a stage 1 iteration, before the picked node
is marked `DONE`: its state is kept, or becomes `DISCONNECTED`, or goes from `SLEEP`
(or from no state) to `ACTIVE` with `correspond` set; `original` is kept and
`correspond` is not erased. -/
def Stage1Move (n n' : SimpleNode) : Prop :=
  n'.original = n.original ∧ (n.correspond.isSome → n'.correspond.isSome) ∧
  (n'.state = n.state ∨ n'.state = some State.DISCONNECTED ∨
    (n'.state = some State.ACTIVE ∧ (n.state = some State.SLEEP ∨ n.state = none) ∧
      n'.correspond.isSome))

/-- The node invariant of the data model: a node in state `ACTIVE` or `DONE` has a
`correspond` value. -/
def SimpleNode.matched (n : SimpleNode) : Prop :=
  (n.state = some State.ACTIVE ∨ n.state = some State.DONE) → n.correspond.isSome

/-- What every step of `blend` keeps of a node record: `original`, the presence of
`correspond`, and the node invariant `matched`. -/
def Keeps (n n' : SimpleNode) : Prop :=
  n'.original = n.original ∧ (n.correspond.isSome → n'.correspond.isSome) ∧
  (n.matched → n'.matched)

/-- True when the edge `e` joins the node `a` to the working-graph node of the far
endpoint of one of the links in `l`, seen from the part `id`. -/
def joinsRemoved (g : DynamicGraph) (id : String) (a : Nat) (l : List ScalarLinksPair)
    (e : SimpleEdge) : Bool :=
  l.any (fun sp =>
    match g.nodeIndex (fun n => n.original = sp.2.1.otherNode id) with
    | some o => e.joins a o
    | none => false)

/-- The correspondence of the working graph is injective: no two distinct nodes that
have a `correspond` value carry the same target part identifier. -/
def DynamicGraph.correspondInjective (g : DynamicGraph) : Prop :=
  ∀ (i j : Nat) (n m : SimpleNode), g.nodes[i]? = some n → g.nodes[j]? = some m →
    n.correspond.isSome → n.correspond = m.correspond → i = j

/-- The blend states at the end of Phase 0 and of every later step of `blend` on the
graphs `g1` and `g2`: an iteration of the stage 1 loop, a reconnection of stage 2 for
a key of `needLink`, an iteration of the stage 3 loop, the `++step` of line 376. -/
inductive Reachable (geo : Geometry) (g1 g2 : Graph) : BlendState → Prop where
  | phase0 (active : DynamicGraph) :
      bestPartialCorrespondence geo g1 g2 = .ok active → Reachable geo g1 g2 ⟨active, [], 0⟩
  | phase1 (s s' : BlendState) :
      Reachable geo g1 g2 s → stage1Guard (DynamicGraph.ofGraph g2) s = true →
      stage1Body geo g1 g2 s = .ok s' → Reachable geo g1 g2 s'
  | phase2 (s s' : BlendState) (index n_target_idx : Nat) (ke : Nat × SimpleEdge) :
      Reachable geo g1 g2 s → index ∈ s.needLink.map Prod.fst →
      reconnectStep geo g1 g2 (DynamicGraph.ofGraph g2) index n_target_idx ke s = .ok (some s') →
      Reachable geo g1 g2 s'
  | phase3 (s s' : BlendState) :
      Reachable geo g1 g2 s → some State.ACTIVE ∈ s.active.flags →
      stage3Body (DynamicGraph.ofGraph g2) s = .ok s' → Reachable geo g1 g2 s'
  | final (s : BlendState) :
      Reachable geo g1 g2 s → Reachable geo g1 g2 { s with step := s.step + 1 }

/-- The record `x` of the node `o` is `ACTIVE` and its `correspond` is the far
endpoint, seen from the target part `tid`, of the closest target link of an entry of
`l` whose active link leads from the part `id` to `o`. -/
def promotedBy (g : DynamicGraph) (id tid : String) (l : List ScalarLinksPair) (o : Nat)
    (x : SimpleNode) : Prop :=
  x.state = some State.ACTIVE ∧
    ∃ sp ∈ l, ∃ linkTarget, g.nodeIndex (fun n => n.original = sp.2.1.otherNode id) = some o ∧
      sp.2.2 = some linkTarget ∧ x.correspond = some (linkTarget.otherNode tid)

/-- Every link of the graph joins two parts of the graph (in the source a `Link`
holds two `Node*` of its graph). -/
def Graph.linksClosed (g : Graph) : Prop :=
  ∀ l ∈ g.edges, l.n1 ∈ g.nodes.map (fun n => n.id) ∧ l.n2 ∈ g.nodes.map (fun n => n.id)

/-- The working graph `g` is well formed for the target graph `g2`: every edge joins
two nodes of `g`, and every `correspond` value is the identifier of a part of `g2`. -/
def DynamicGraph.wellFormed (g2 : Graph) (g : DynamicGraph) : Prop :=
  (∀ e ∈ g.edges, e.n0 < g.nodes.length ∧ e.n1 < g.nodes.length) ∧
  (∀ n ∈ g.nodes, ∀ c, n.correspond = some c → c ∈ g2.nodes.map (fun n => n.id))

/-! ## Example inputs -/

deriving instance DecidableEq for Except

/-- A geometry whose norms add the absolute values of the components; on a vector
with at most one nonzero component this is the Euclidean norm.  The example inputs
below only produce such vectors.  As `Vec4d::norm()` takes the square root of the sum
of the squares, `norm4` is `+inf` when that sum exceeds `DBL_MAX`. -/
def axisGeometry : Geometry where
  norm3 v := |v.1| + |v.2.1| + |v.2.2|
  norm4 v :=
    if DBL_MAX < v.1 ^ 2 + v.2.1 ^ 2 + v.2.2.1 ^ 2 + v.2.2.2 ^ 2 then ⊤
    else ((|v.1| + |v.2.1| + |v.2.2.1| + |v.2.2.2| : ℚ) : WithTop ℚ)
  position _ c := (c.1, c.2.1, c.2.2.1)
  distanceTo p q := |q.1 - p.1| + |q.2.1 - p.2.1| + |q.2.2 - p.2.2|

/-- A part centred at the origin with parametric domain `[0, 1]` on the first axis. -/
def part (id type : String) (area : Scalar) : Node :=
  ⟨id, type, area, (0, 0, 0), (0, 0, 0, 0), (1, 0, 0, 0)⟩

/-- A link attached at coordinate `(x, 0, 0, 0)` on both of its parts. -/
def link (a b : String) (x : ℚ) : Link :=
  ⟨a, b, (x, 0, 0, 0), (x, 0, 0, 0)⟩

/-- One curve of area 1 and no link. -/
def soloSource : Graph := ⟨[part "A" "CURVE" 1], []⟩

/-- One curve of area 1 and no link. -/
def soloTarget : Graph := ⟨[part "T" "CURVE" 1], []⟩

/-- The blend state for `soloSource` and `soloTarget` when the stage 1 loop returns. -/
def soloAfterStage1 : BlendState :=
  ⟨⟨[⟨some State.DONE, "A", some "T"⟩], []⟩, [], 1⟩

/-- The blend state for `soloSource` and `soloTarget` when `blend` returns. -/
def soloFinal : BlendState :=
  ⟨⟨[⟨some State.DONE, "A", some "T"⟩], []⟩, [], 2⟩

/-- One degenerate curve, of area 0. -/
def zeroSource : Graph := ⟨[part "A" "CURVE" 0], []⟩

/-- One degenerate curve, of area 0. -/
def zeroTarget : Graph := ⟨[part "T" "CURVE" 0], []⟩

/-- One sheet: no part of `soloSource` has its type. -/
def sheetTarget : Graph := ⟨[part "T" "SHEET" 1], []⟩

/-- Four curves `C - A - B - D`; `A` is the largest part. -/
def chainSource : Graph :=
  ⟨[part "A" "CURVE" 10, part "B" "CURVE" 1, part "C" "CURVE" 2, part "D" "CURVE" 3],
   [link "A" "B" 0, link "A" "C" 5, link "B" "D" 1]⟩

/-- Two linked curves `T1 - T2`; `T1` has the area of `A`. -/
def pairTarget : Graph :=
  ⟨[part "T1" "CURVE" 10, part "T2" "CURVE" 50], [link "T1" "T2" 1]⟩

/-- The working graph that Phase 0 builds for `chainSource` and `pairTarget`: the
root is `A`, matched with `T1`. -/
def chainInitial : DynamicGraph :=
  ⟨[⟨some State.ACTIVE, "A", some "T1"⟩, ⟨some State.SLEEP, "B", none⟩, ⟨some State.SLEEP, "C", none⟩,
    ⟨some State.SLEEP, "D", none⟩], [⟨0, 1⟩, ⟨0, 2⟩, ⟨1, 3⟩]⟩

/-- The blend state for `chainSource` and `pairTarget` after the first stage 1
iteration: `A` is `DONE`, its worse link `A - C` is removed, `B` is `ACTIVE`. -/
def chainAfterFirst : BlendState :=
  ⟨⟨[⟨some State.DONE, "A", some "T1"⟩, ⟨some State.ACTIVE, "B", some "T2"⟩,
    ⟨some State.DISCONNECTED, "C", none⟩, ⟨some State.SLEEP, "D", none⟩], [⟨0, 1⟩, ⟨1, 3⟩]⟩, [], 1⟩

/-- The blend state for `chainSource` and `pairTarget` after the second stage 1
iteration: the link `A - B` is removed, which isolates the `DONE` node `A`. -/
def chainAfterSecond : BlendState :=
  ⟨⟨[⟨some State.DISCONNECTED, "A", some "T1"⟩, ⟨some State.DONE, "B", some "T2"⟩,
    ⟨some State.DISCONNECTED, "C", none⟩, ⟨some State.ACTIVE, "D", some "T1"⟩], [⟨1, 3⟩]⟩, [], 2⟩

/-- The blend state for `chainSource` and `pairTarget` when the stage 1 loop returns. -/
def chainFinal : BlendState :=
  ⟨⟨[⟨some State.DISCONNECTED, "A", some "T1"⟩, ⟨some State.DONE, "B", some "T2"⟩,
    ⟨some State.DISCONNECTED, "C", none⟩, ⟨some State.DONE, "D", some "T1"⟩], [⟨1, 3⟩]⟩, [], 3⟩

/-- Three curves, `A` linked to `B` and to `C` at the same coordinate. -/
def forkSource : Graph :=
  ⟨[part "A" "CURVE" 10, part "B" "CURVE" 1, part "C" "CURVE" 2],
   [link "A" "B" 0, link "A" "C" 0]⟩

/-- Four curves, `T1` linked to `T2`, `T3` and `T4`; the link to `T2` is the closest
one to both links of `forkSource`. -/
def fanTarget : Graph :=
  ⟨[part "T1" "CURVE" 10, part "T2" "CURVE" 50, part "T3" "CURVE" 60, part "T4" "CURVE" 70],
   [link "T1" "T2" 0, link "T1" "T3" 5, link "T1" "T4" 9]⟩

/-- The working graph that Phase 0 builds for `forkSource` and `fanTarget`. -/
def forkInitial : DynamicGraph :=
  ⟨[⟨some State.ACTIVE, "A", some "T1"⟩, ⟨some State.SLEEP, "B", none⟩, ⟨some State.SLEEP, "C", none⟩],
   [⟨0, 1⟩, ⟨0, 2⟩]⟩

/-- The blend state for `forkSource` and `fanTarget` after the first stage 1
iteration: `A` is `DONE` with a deficit of one link, `B` and `C` are `ACTIVE`. -/
def forkAfterFirst : BlendState :=
  ⟨⟨[⟨some State.DONE, "A", some "T1"⟩, ⟨some State.ACTIVE, "B", some "T2"⟩,
    ⟨some State.ACTIVE, "C", some "T2"⟩], [⟨0, 1⟩, ⟨0, 2⟩]⟩, [(0, 1)], 1⟩

/-- The blend state for `forkSource` and `fanTarget` when `blend` returns. -/
def forkFinal : BlendState :=
  ⟨⟨[⟨some State.DONE, "A", some "T1"⟩, ⟨some State.DONE, "B", some "T2"⟩,
    ⟨some State.DONE, "C", some "T2"⟩], [⟨0, 1⟩, ⟨0, 2⟩]⟩, [(0, 1)], 4⟩

/-- A hub `A` with three links, to `B`, `C` and `D`, at coordinates 0, 4 and 7. -/
def starSource : Graph :=
  ⟨[part "A" "CURVE" 10, part "B" "CURVE" 1, part "C" "CURVE" 2, part "D" "CURVE" 3],
   [link "A" "B" 0, link "A" "C" 4, link "A" "D" 7]⟩

/-- The working graph that Phase 0 builds for `starSource` and `pairTarget`. -/
def starInitial : DynamicGraph :=
  ⟨[⟨some State.ACTIVE, "A", some "T1"⟩, ⟨some State.SLEEP, "B", none⟩, ⟨some State.SLEEP, "C", none⟩,
    ⟨some State.SLEEP, "D", none⟩], [⟨0, 1⟩, ⟨0, 2⟩, ⟨0, 3⟩]⟩

/-- The blend state for `starSource` and `pairTarget` after the first stage 1
iteration: the links to `C` and `D` are removed, `B` is promoted. -/
def starAfterFirst : BlendState :=
  ⟨⟨[⟨some State.DONE, "A", some "T1"⟩, ⟨some State.ACTIVE, "B", some "T2"⟩,
    ⟨some State.DISCONNECTED, "C", none⟩, ⟨some State.DISCONNECTED, "D", none⟩], [⟨0, 1⟩]⟩, [], 1⟩

/-- Two curves joined by one link at coordinate 0. -/
def twigSource : Graph :=
  ⟨[part "A" "CURVE" 10, part "B" "CURVE" 1], [link "A" "B" 0]⟩

/-- The working graph that Phase 0 builds for `twigSource` and `fanTarget`. -/
def twigInitial : DynamicGraph :=
  ⟨[⟨some State.ACTIVE, "A", some "T1"⟩, ⟨some State.SLEEP, "B", none⟩], [⟨0, 1⟩]⟩

/-- The blend state for `twigSource` and `fanTarget` after the first stage 1
iteration: a deficit of 2 is recorded for `A`, `B` is promoted. -/
def twigAfterFirst : BlendState :=
  ⟨⟨[⟨some State.DONE, "A", some "T1"⟩, ⟨some State.ACTIVE, "B", some "T2"⟩], [⟨0, 1⟩]⟩, [(0, 2)], 1⟩

/-- The working graph that Phase 0 builds for `soloSource` and `soloTarget`. -/
def soloInitial : DynamicGraph :=
  ⟨[⟨some State.ACTIVE, "A", some "T"⟩], []⟩

/-- Two curves joined by one link attached at the coordinate `2^600`, whose square is
above `DBL_MAX`. -/
def farSource : Graph :=
  ⟨[part "A" "CURVE" 10, part "B" "CURVE" 1], [link "A" "B" (2 ^ 600)]⟩

/-- Three curves, `T1` linked to `T2` and to `T3`, both links at coordinate 0. -/
def originTarget : Graph :=
  ⟨[part "T1" "CURVE" 10, part "T2" "CURVE" 50, part "T3" "CURVE" 60],
   [link "T1" "T2" 0, link "T1" "T3" 0]⟩

/-- Four curves, `B` linked to `A`, `D` and `E` at coordinates 0, 1 and 8. -/
def kiteSource : Graph :=
  ⟨[part "A" "CURVE" 10, part "B" "CURVE" 1, part "D" "CURVE" 2, part "E" "CURVE" 3],
   [link "A" "B" 0, link "B" "D" 1, link "B" "E" 8]⟩

/-- Four curves, `T1` linked to `T2` and `T5`, `T2` linked to `T3`; seen from `T2` the
link to `T3` (coordinate 1) is closer to coordinate 0 than the link to `T1` (2). -/
def kiteTarget : Graph :=
  ⟨[part "T1" "CURVE" 10, part "T2" "CURVE" 50, part "T3" "CURVE" 60, part "T5" "CURVE" 70],
   [link "T1" "T2" 2, link "T1" "T5" 9, link "T2" "T3" 1]⟩

/-- The working graph that Phase 0 builds for `kiteSource` and `kiteTarget`. -/
def kiteInitial : DynamicGraph :=
  ⟨[⟨some State.ACTIVE, "A", some "T1"⟩, ⟨some State.SLEEP, "B", none⟩, ⟨some State.SLEEP, "D", none⟩,
    ⟨some State.SLEEP, "E", none⟩], [⟨0, 1⟩, ⟨1, 2⟩, ⟨1, 3⟩]⟩

/-- The blend state for `kiteSource` and `kiteTarget` after the first stage 1
iteration: `A` is `DONE` and corresponds to `T1`, `B` is `ACTIVE`. -/
def kiteAfterFirst : BlendState :=
  ⟨⟨[⟨some State.DONE, "A", some "T1"⟩, ⟨some State.ACTIVE, "B", some "T2"⟩, ⟨some State.SLEEP, "D", none⟩,
    ⟨some State.SLEEP, "E", none⟩], [⟨0, 1⟩, ⟨1, 2⟩, ⟨1, 3⟩]⟩, [(0, 1)], 1⟩

/-- The blend state for `kiteSource` and `kiteTarget` after the second stage 1
iteration, over-linked on `B`: the `DONE` node `A` now corresponds to `T3`. -/
def kiteAfterSecond : BlendState :=
  ⟨⟨[⟨some State.DONE, "A", some "T3"⟩, ⟨some State.DONE, "B", some "T2"⟩,
    ⟨some State.ACTIVE, "D", some "T3"⟩, ⟨some State.DISCONNECTED, "E", none⟩], [⟨0, 1⟩, ⟨1, 2⟩]⟩,
   [(0, 1)], 2⟩

/-- Four curves on a ring `T1 - T2 - T4 - T3 - T1`. -/
def ringTarget : Graph :=
  ⟨[part "T1" "CURVE" 10, part "T2" "CURVE" 50, part "T3" "CURVE" 60, part "T4" "CURVE" 70],
   [link "T1" "T2" 0, link "T1" "T3" 5, link "T2" "T4" 0, link "T3" "T4" 5]⟩

/-- Five curves, `A` linked to the four others; `D` spans `[6, 7]` and `E` spans
`[1, 2]` on the first axis. -/
def spokeSource : Graph :=
  ⟨[part "A" "CURVE" 10, part "B" "CURVE" 1, part "C" "CURVE" 2,
    ⟨"D", "CURVE", 3, (0, 0, 0), (6, 0, 0, 0), (7, 0, 0, 0)⟩,
    ⟨"E", "CURVE", 4, (0, 0, 0), (1, 0, 0, 0), (2, 0, 0, 0)⟩],
   [link "A" "B" 0, link "A" "C" 5, link "A" "D" 8, link "A" "E" 9]⟩

/-- The blend state for `spokeSource` and `ringTarget` when stage 1 returns: `D` and
`E` are `DISCONNECTED`, `B` and `C` each miss one link. -/
def spokeAfterStage1 : BlendState :=
  ⟨⟨[⟨some State.DONE, "A", some "T1"⟩, ⟨some State.DONE, "B", some "T2"⟩, ⟨some State.DONE, "C", some "T3"⟩,
    ⟨some State.DISCONNECTED, "D", none⟩, ⟨some State.DISCONNECTED, "E", none⟩], [⟨0, 1⟩, ⟨0, 2⟩]⟩,
   [(1, 1), (2, 1)], 3⟩

/-- The blend state for `spokeSource` and `ringTarget` after the first reconnection
of stage 2: `E` is linked to `B`. -/
def spokeAfterRepair : BlendState :=
  ⟨⟨[⟨some State.DONE, "A", some "T1"⟩, ⟨some State.DONE, "B", some "T2"⟩, ⟨some State.DONE, "C", some "T3"⟩,
    ⟨some State.DISCONNECTED, "D", none⟩, ⟨some State.ACTIVE, "E", some "T4"⟩],
    [⟨0, 1⟩, ⟨0, 2⟩, ⟨1, 4⟩]⟩, [(1, 0), (2, 1)], 4⟩

/-- The blend state for `spokeSource` and `ringTarget` when stage 2 returns. -/
def spokeAfterStage2 : BlendState :=
  ⟨⟨[⟨some State.DONE, "A", some "T1"⟩, ⟨some State.DONE, "B", some "T2"⟩, ⟨some State.DONE, "C", some "T3"⟩,
    ⟨some State.ACTIVE, "D", some "T4"⟩, ⟨some State.ACTIVE, "E", some "T4"⟩],
    [⟨0, 1⟩, ⟨0, 2⟩, ⟨1, 4⟩, ⟨2, 3⟩]⟩, [(1, 0), (2, 0)], 5⟩

/-- The blend state for `spokeSource` and `ringTarget` when the stage 3 loop returns. -/
def spokeAfterStage3 : BlendState :=
  ⟨⟨[⟨some State.DONE, "A", some "T1"⟩, ⟨some State.DONE, "B", some "T2"⟩,
    ⟨some State.DONE, "C", some "T3"⟩, ⟨some State.DONE, "D", some "T4"⟩,
    ⟨some State.DONE, "E", some "T4"⟩],
    [⟨0, 1⟩, ⟨0, 2⟩, ⟨1, 4⟩, ⟨2, 3⟩, ⟨3, 1⟩, ⟨4, 2⟩]⟩,
   [(1, 0), (2, 0), (3, -1), (4, -1)], 7⟩

/-- The blend state that `blend` returns for `spokeSource` and `ringTarget`. -/
def spokeFinal : BlendState :=
  { spokeAfterStage3 with step := 8 }

/-- Six curves: `A` linked to `B` and `C`, and `B` linked to `D`, `E` and `F`. -/
def combSource : Graph :=
  ⟨[part "A" "CURVE" 10, part "B" "CURVE" 1, part "C" "CURVE" 2, part "D" "CURVE" 3,
    part "E" "CURVE" 4, part "F" "CURVE" 5],
   [link "A" "B" 0, link "A" "C" 0, link "B" "D" 3, link "B" "E" 4, link "B" "F" 5]⟩

/-- The blend state for `combSource` and `fanTarget` when stage 1 returns: `A` misses
one link and three nodes are `DISCONNECTED`. -/
def combAfterStage1 : BlendState :=
  ⟨⟨[⟨some State.DONE, "A", some "T1"⟩, ⟨some State.DONE, "B", some "T2"⟩, ⟨some State.DONE, "C", some "T2"⟩,
    ⟨some State.DISCONNECTED, "D", none⟩, ⟨some State.DISCONNECTED, "E", none⟩,
    ⟨some State.DISCONNECTED, "F", none⟩], [⟨0, 1⟩, ⟨0, 2⟩]⟩, [(0, 1)], 3⟩

/-- The blend state for `combSource` and `fanTarget` when stage 2 returns: two nodes
were reconnected to `A`. -/
def combAfterStage2 : BlendState :=
  ⟨⟨[⟨some State.DONE, "A", some "T1"⟩, ⟨some State.DONE, "B", some "T2"⟩, ⟨some State.DONE, "C", some "T2"⟩,
    ⟨some State.DISCONNECTED, "D", none⟩, ⟨some State.ACTIVE, "E", some "T4"⟩,
    ⟨some State.ACTIVE, "F", some "T3"⟩], [⟨0, 1⟩, ⟨0, 2⟩, ⟨0, 5⟩, ⟨0, 4⟩]⟩, [(0, -1)], 5⟩

/-- The working graph that Phase 0 builds for `spokeSource` and `ringTarget`. -/
def spokeInitial : DynamicGraph :=
  ⟨[⟨some State.ACTIVE, "A", some "T1"⟩, ⟨some State.SLEEP, "B", none⟩, ⟨some State.SLEEP, "C", none⟩,
    ⟨some State.SLEEP, "D", none⟩, ⟨some State.SLEEP, "E", none⟩], [⟨0, 1⟩, ⟨0, 2⟩, ⟨0, 3⟩, ⟨0, 4⟩]⟩

/-- The working graph that Phase 0 builds for `combSource` and `fanTarget`. -/
def combInitial : DynamicGraph :=
  ⟨[⟨some State.ACTIVE, "A", some "T1"⟩, ⟨some State.SLEEP, "B", none⟩, ⟨some State.SLEEP, "C", none⟩,
    ⟨some State.SLEEP, "D", none⟩, ⟨some State.SLEEP, "E", none⟩, ⟨some State.SLEEP, "F", none⟩],
   [⟨0, 1⟩, ⟨0, 2⟩, ⟨1, 3⟩, ⟨1, 4⟩, ⟨1, 5⟩]⟩

/-- Four curves, `A` linked to `B`, `C` and `D` at coordinates 0, 5 and 9. -/
def ringSource : Graph :=
  ⟨[part "A" "CURVE" 10, part "B" "CURVE" 1, part "C" "CURVE" 2, part "D" "CURVE" 3],
   [link "A" "B" 0, link "A" "C" 5, link "A" "D" 9]⟩

/-- The working graph that Phase 0 builds for `ringSource` and `ringTarget`. -/
def ringInitial : DynamicGraph :=
  ⟨[⟨some State.ACTIVE, "A", some "T1"⟩, ⟨some State.SLEEP, "B", none⟩, ⟨some State.SLEEP, "C", none⟩,
    ⟨some State.SLEEP, "D", none⟩], [⟨0, 1⟩, ⟨0, 2⟩, ⟨0, 3⟩]⟩

/-- The blend state for `ringSource` and `ringTarget` when stage 1 returns: `D` is
`DISCONNECTED`, `B` and `C` each miss one link. -/
def ringAfterStage1 : BlendState :=
  ⟨⟨[⟨some State.DONE, "A", some "T1"⟩, ⟨some State.DONE, "B", some "T2"⟩, ⟨some State.DONE, "C", some "T3"⟩,
    ⟨some State.DISCONNECTED, "D", none⟩], [⟨0, 1⟩, ⟨0, 2⟩]⟩, [(1, 1), (2, 1)], 3⟩

/-- The blend state for `ringSource` and `ringTarget` after the repair of `B` in
stage 2: `D` is linked to `B` and no node is `DISCONNECTED`. -/
def ringAfterRepair : BlendState :=
  ⟨⟨[⟨some State.DONE, "A", some "T1"⟩, ⟨some State.DONE, "B", some "T2"⟩, ⟨some State.DONE, "C", some "T3"⟩,
    ⟨some State.ACTIVE, "D", some "T4"⟩], [⟨0, 1⟩, ⟨0, 2⟩, ⟨1, 3⟩]⟩, [(1, 0), (2, 1)], 4⟩

/-! # Theorems -/

/-! ## Phase 0: the score map -/

theorem ScoreMap.mem_insert (k : WithTop ℚ) (v : QPairNodes) (m : ScoreMap) (x : WithTop ℚ × QPairNodes) :
    x ∈ ScoreMap.insert k v m ↔ x = (k, v) ∨ x ∈ m := by
  induction m with
  | nil => simp [ScoreMap.insert]
  | cons kv rest ih =>
    unfold ScoreMap.insert
    split
    · simp
    · simp only [List.mem_cons, ih]
      tauto

theorem ScoreMap.insert_sorted (k : WithTop ℚ) (v : QPairNodes) (m : ScoreMap)
    (h : m.Pairwise (fun a b => a.1 ≤ b.1)) :
    (ScoreMap.insert k v m).Pairwise (fun a b => a.1 ≤ b.1) := by
  induction m with
  | nil => simp [ScoreMap.insert]
  | cons kv rest ih =>
    unfold ScoreMap.insert
    rw [List.pairwise_cons] at h
    split
    · rename_i hk
      refine List.Pairwise.cons ?_ (List.Pairwise.cons h.1 h.2)
      intro x hx
      rcases List.mem_cons.1 hx with rfl | hx
      · exact hk
      · exact le_trans hk (h.1 x hx)
    · rename_i hk
      refine List.Pairwise.cons ?_ (ih h.2)
      intro x hx
      rcases (ScoreMap.mem_insert k v rest x).1 hx with rfl | hx
      · exact le_of_lt (not_le.1 hk)
      · exact h.1 x hx

theorem scoreRow_mem (geo : Geometry) (i : Node) (nodes2 : List Node) (scores : ScoreMap)
    (x : WithTop ℚ × QPairNodes) :
    x ∈ scoreRow geo i nodes2 scores ↔
      x ∈ scores ∨ ∃ j ∈ nodes2, i.type = j.type ∧ x = (score geo i j, (i, j)) := by
  induction nodes2 generalizing scores with
  | nil => simp [scoreRow]
  | cons j rest ih =>
    have hstep : scoreRow geo i (j :: rest) scores = scoreRow geo i rest
        (if i.type ≠ j.type then scores else ScoreMap.insert (score geo i j) (i, j) scores) := rfl
    rw [hstep, ih]
    by_cases ht : i.type = j.type
    · simp only [ht, ne_eq, not_true_eq_false, if_false, ScoreMap.mem_insert, List.mem_cons,
        exists_eq_or_imp, true_and]
      constructor
      · rintro ((h | h) | h)
        · exact Or.inr (Or.inl h)
        · exact Or.inl h
        · obtain ⟨j', hj', ht', hx⟩ := h
          exact Or.inr (Or.inr ⟨j', hj', ht', hx⟩)
      · rintro (h | h | h)
        · exact Or.inl (Or.inr h)
        · exact Or.inl (Or.inl h)
        · exact Or.inr h
    · simp only [ne_eq, ht, not_false_eq_true, if_true, List.mem_cons, exists_eq_or_imp,
        false_and, false_or]

theorem scoreRow_sorted (geo : Geometry) (i : Node) (nodes2 : List Node) (scores : ScoreMap)
    (h : scores.Pairwise (fun a b => a.1 ≤ b.1)) :
    (scoreRow geo i nodes2 scores).Pairwise (fun a b => a.1 ≤ b.1) := by
  induction nodes2 generalizing scores with
  | nil => simpa [scoreRow] using h
  | cons j rest ih =>
    have hstep : scoreRow geo i (j :: rest) scores = scoreRow geo i rest
        (if i.type ≠ j.type then scores else ScoreMap.insert (score geo i j) (i, j) scores) := rfl
    rw [hstep]
    apply ih
    split
    · exact h
    · exact ScoreMap.insert_sorted _ _ _ h

theorem scoreRows_mem (geo : Geometry) (nodes1 nodes2 : List Node) (scores : ScoreMap)
    (x : WithTop ℚ × QPairNodes) :
    x ∈ nodes1.foldl (fun scores i => scoreRow geo i nodes2 scores) scores ↔
      x ∈ scores ∨ ∃ i ∈ nodes1, ∃ j ∈ nodes2, i.type = j.type ∧ x = (score geo i j, (i, j)) := by
  induction nodes1 generalizing scores with
  | nil => simp
  | cons i rest ih =>
    rw [List.foldl_cons, ih, scoreRow_mem]
    simp only [List.mem_cons, exists_eq_or_imp]
    constructor
    · rintro ((h | h) | h)
      · exact Or.inl h
      · exact Or.inr (Or.inl h)
      · exact Or.inr (Or.inr h)
    · rintro (h | h | h)
      · exact Or.inl (Or.inl h)
      · exact Or.inl (Or.inr h)
      · exact Or.inr h

theorem scoreRows_sorted (geo : Geometry) (nodes1 nodes2 : List Node) (scores : ScoreMap)
    (h : scores.Pairwise (fun a b => a.1 ≤ b.1)) :
    (nodes1.foldl (fun scores i => scoreRow geo i nodes2 scores) scores).Pairwise
      (fun a b => a.1 ≤ b.1) := by
  induction nodes1 generalizing scores with
  | nil => simpa using h
  | cons i rest ih =>
    rw [List.foldl_cons]
    exact ih _ (scoreRow_sorted geo i nodes2 scores h)

theorem computeScores_mem (geo : Geometry) (g1 g2 : Graph) (x : WithTop ℚ × QPairNodes) :
    x ∈ computeScores geo g1 g2 ↔
      ∃ i ∈ g1.nodes, ∃ j ∈ g2.nodes, i.type = j.type ∧ x = (score geo i j, (i, j)) := by
  unfold computeScores
  rw [scoreRows_mem]
  simp

theorem computeScores_sorted (geo : Geometry) (g1 g2 : Graph) :
    (computeScores geo g1 g2).Pairwise (fun a b => a.1 ≤ b.1) := by
  unfold computeScores
  exact scoreRows_sorted geo _ _ _ List.Pairwise.nil

/-- The running minimum does not move over keys that are not below it. -/
theorem minFold_stable (scores : ScoreMap) (ks : List (WithTop ℚ))
    (acc : WithTop ℚ × List QPairNodes) (h : ∀ k ∈ ks, acc.1 ≤ k) :
    ks.foldl (fun acc curScore =>
      if curScore < acc.1 then (curScore, scores.values curScore) else acc) acc = acc := by
  induction ks with
  | nil => rfl
  | cons k rest ih =>
    rw [List.foldl_cons, if_neg (not_lt.2 (h k (List.mem_cons_self _ _)))]
    exact ih (fun k' hk' => h k' (List.mem_cons_of_mem _ hk'))

theorem findMinPairs_cons (kv : WithTop ℚ × QPairNodes) (rest : ScoreMap)
    (h : (kv :: rest).Pairwise (fun a b => a.1 ≤ b.1)) :
    findMinPairs (kv :: rest) =
      if kv.1 < ((DBL_MAX : ℚ) : WithTop ℚ) then (kv.1, ScoreMap.values (kv :: rest) kv.1)
      else (((DBL_MAX : ℚ) : WithTop ℚ), []) := by
  rw [List.pairwise_cons] at h
  unfold findMinPairs ScoreMap.keys
  rw [List.map_cons, List.foldl_cons]
  by_cases hk : kv.1 < ((DBL_MAX : ℚ) : WithTop ℚ)
  · simp only [hk, if_true]
    apply minFold_stable
    intro k hk'
    obtain ⟨x, hx, rfl⟩ := List.mem_map.1 hk'
    exact h.1 x hx
  · simp only [hk, if_false]
    apply minFold_stable
    intro k hk'
    obtain ⟨x, hx, rfl⟩ := List.mem_map.1 hk'
    exact le_trans (not_lt.1 hk) (h.1 x hx)

theorem findMinPairs_head (kv : WithTop ℚ × QPairNodes) (rest : ScoreMap)
    (h : (kv :: rest).Pairwise (fun a b => a.1 ≤ b.1)) :
    (findMinPairs (kv :: rest)).2.head? =
      if kv.1 < ((DBL_MAX : ℚ) : WithTop ℚ) then some kv.2 else none := by
  rw [findMinPairs_cons kv rest h]
  split
  · simp [ScoreMap.values]
  · rfl

theorem findMinPairs_nil : (findMinPairs []).2.head? = none := rfl

/-! ## The node store -/

namespace DynamicGraph

theorem modifyNode_edges (g : DynamicGraph) (i : Nat) (f : SimpleNode → SimpleNode) :
    (g.modifyNode i f).edges = g.edges := by
  unfold modifyNode
  split <;> rfl

theorem modifyNode_length (g : DynamicGraph) (i : Nat) (f : SimpleNode → SimpleNode) :
    (g.modifyNode i f).nodes.length = g.nodes.length := by
  unfold modifyNode
  split
  · rfl
  · simp

theorem modifyNode_getElem? (g : DynamicGraph) (i j : Nat) (f : SimpleNode → SimpleNode) :
    (g.modifyNode i f).nodes[j]? = if i = j then (g.nodes[j]?).map f else g.nodes[j]? := by
  unfold modifyNode
  split
  · rename_i h
    by_cases hij : i = j
    · subst hij
      simp [h]
    · simp [hij]
  · rename_i n h
    by_cases hij : i = j
    · subst hij
      have hlt : i < g.nodes.length := by
        rcases List.getElem?_eq_some_iff.1 h with ⟨hlt, _⟩
        exact hlt
      simp [h, List.getElem?_set, hlt]
    · simp [hij, List.getElem?_set]

theorem modifyNode_modifyNode (g : DynamicGraph) (i : Nat) (f h : SimpleNode → SimpleNode) :
    (g.modifyNode i f).modifyNode i h = g.modifyNode i (h ∘ f) := by
  unfold modifyNode
  cases hn : g.nodes[i]? with
  | none => simp [hn]
  | some n =>
    have hlt : i < g.nodes.length := (List.getElem?_eq_some_iff.1 hn).1
    simp [hn, List.getElem?_set, hlt]

end DynamicGraph

/-! ## Phase 0: the selected pair and the initial working graph -/

theorem flagged_nodes (g1 : Graph) :
    ((DynamicGraph.ofGraph g1).flagNodes State.SLEEP).nodes =
      g1.nodes.map (fun n => (⟨some State.SLEEP, n.id, none⟩ : SimpleNode)) := by
  simp [DynamicGraph.flagNodes, DynamicGraph.ofGraph]

theorem flagged_getNode (g1 : Graph) (root : Node) (h : root ∈ g1.nodes) :
    ∃ k n, ((DynamicGraph.ofGraph g1).flagNodes State.SLEEP).getNode root.id = some k ∧
      g1.nodes[k]? = some n ∧ n.id = root.id := by
  unfold DynamicGraph.getNode DynamicGraph.nodeIndex
  rw [flagged_nodes, List.findIdx?_map]
  have hex : ∃ x, x ∈ g1.nodes ∧
      ((fun n : SimpleNode => decide (n.original = root.id)) ∘
        (fun n : Node => (⟨some State.SLEEP, n.id, none⟩ : SimpleNode))) x = true :=
    ⟨root, h, by simp⟩
  have hsome := List.findIdx?_eq_some_of_exists hex
  obtain ⟨hlt, hp, _⟩ := List.findIdx?_eq_some_iff_getElem.1 hsome
  exact ⟨_, g1.nodes.get ⟨_, hlt⟩, hsome, List.getElem?_eq_getElem hlt, by simpa using hp⟩

/-- The working graph that Phase 0 builds once the pair `(root, targetRoot)` is chosen. -/
theorem initial_graph (g1 : Graph) (root targetRoot : Node) (k : Nat) (n : Node)
    (hk : g1.nodes[k]? = some n) (hid : n.id = root.id) (active : DynamicGraph)
    (h : active = (((DynamicGraph.ofGraph g1).flagNodes State.SLEEP).setCorrespond k
      targetRoot.id).setState k State.ACTIVE) :
    active.nodes[k]? = some ⟨some State.ACTIVE, root.id, some targetRoot.id⟩ ∧
    (∀ j m, j ≠ k → active.nodes[j]? = some m → m.state = some State.SLEEP ∧ m.correspond = none) ∧
    active.nodes.map (fun m => m.original) = g1.nodes.map (fun m => m.id) ∧
    active.edges = (DynamicGraph.ofGraph g1).edges := by
  subst h
  unfold DynamicGraph.setState DynamicGraph.setCorrespond
  rw [DynamicGraph.modifyNode_modifyNode]
  refine ⟨?_, ?_, ?_, ?_⟩
  · rw [DynamicGraph.modifyNode_getElem?, if_pos rfl, flagged_nodes, List.getElem?_map, hk]
    simp [hid]
  · intro j m hj hm
    rw [DynamicGraph.modifyNode_getElem?, if_neg (Ne.symm hj), flagged_nodes,
      List.getElem?_map] at hm
    cases hg : g1.nodes[j]? with
    | none => simp [hg] at hm
    | some x =>
      simp only [hg, Option.map_some', Option.some.injEq] at hm
      subst hm
      exact ⟨rfl, rfl⟩
  · apply List.ext_getElem?
    intro j
    rw [List.getElem?_map, DynamicGraph.modifyNode_getElem?, flagged_nodes, List.getElem?_map,
      List.getElem?_map]
    by_cases hj : k = j
    · subst hj
      simp [hk]
    · simp only [hj, if_false]
      cases g1.nodes[j]? <;> rfl
  · rw [DynamicGraph.modifyNode_edges]
    rfl

theorem bestPartialCorrespondence_of_head (geo : Geometry) (g1 g2 : Graph)
    (kv : WithTop ℚ × QPairNodes) (rest : ScoreMap) (hs : computeScores geo g1 g2 = kv :: rest)
    (hlt : kv.1 < ((DBL_MAX : ℚ) : WithTop ℚ)) :
    ∃ k n, g1.nodes[k]? = some n ∧ n.id = kv.2.1.id ∧
      bestPartialCorrespondence geo g1 g2 = .ok
        ((((DynamicGraph.ofGraph g1).flagNodes State.SLEEP).setCorrespond k kv.2.2.id).setState k
          State.ACTIVE) := by
  have hsorted := computeScores_sorted geo g1 g2
  rw [hs] at hsorted
  have hmem : kv ∈ computeScores geo g1 g2 := by rw [hs]; exact List.mem_cons_self _ _
  obtain ⟨i, hi, j, hj, ht, hx⟩ := (computeScores_mem geo g1 g2 kv).1 hmem
  obtain ⟨k, n, hget, hk, hid⟩ := flagged_getNode g1 i hi
  have hkv : kv.2 = (i, j) := by rw [hx]
  refine ⟨k, n, hk, by rw [hkv]; exact hid, ?_⟩
  unfold bestPartialCorrespondence
  rw [hs, findMinPairs_head kv rest hsorted, if_pos hlt, hkv]
  simp only [hget]

theorem bestPartialCorrespondence_abort (geo : Geometry) (g1 g2 : Graph)
    (h : ∀ kv ∈ computeScores geo g1 g2, ¬ kv.1 < ((DBL_MAX : ℚ) : WithTop ℚ)) :
    bestPartialCorrespondence geo g1 g2 = .error Stop.abort := by
  have hsorted := computeScores_sorted geo g1 g2
  unfold bestPartialCorrespondence
  cases hs : computeScores geo g1 g2 with
  | nil => rfl
  | cons kv rest =>
    rw [hs] at hsorted h
    rw [findMinPairs_head kv rest hsorted, if_neg (h kv (List.mem_cons_self _ _))]

/-- What a successful Phase 0 returns: the head of the score map is below `DBL_MAX`
and names the chosen pair. -/
theorem bestPartialCorrespondence_ok (geo : Geometry) (g1 g2 : Graph) (active : DynamicGraph)
    (h : bestPartialCorrespondence geo g1 g2 = .ok active) :
    ∃ kv rest k n, computeScores geo g1 g2 = kv :: rest ∧
      kv.1 < ((DBL_MAX : ℚ) : WithTop ℚ) ∧ g1.nodes[k]? = some n ∧ n.id = kv.2.1.id ∧
      active = (((DynamicGraph.ofGraph g1).flagNodes State.SLEEP).setCorrespond k
        kv.2.2.id).setState k State.ACTIVE := by
  cases hs : computeScores geo g1 g2 with
  | nil =>
    rw [bestPartialCorrespondence_abort geo g1 g2 (by rw [hs]; simp)] at h
    cases h
  | cons kv rest =>
    by_cases hlt : kv.1 < ((DBL_MAX : ℚ) : WithTop ℚ)
    · obtain ⟨k, n, hk, hid, heq⟩ := bestPartialCorrespondence_of_head geo g1 g2 kv rest hs hlt
      rw [heq] at h
      injection h with h
      exact ⟨kv, rest, k, n, rfl, hlt, hk, hid, h.symm⟩
    · have hsorted := computeScores_sorted geo g1 g2
      rw [hs] at hsorted
      rw [List.pairwise_cons] at hsorted
      rw [bestPartialCorrespondence_abort geo g1 g2 (by
        rw [hs]
        intro x hx
        rcases List.mem_cons.1 hx with rfl | hx
        · exact hlt
        · exact fun hc => hlt (lt_of_le_of_lt (hsorted.1 x hx) hc))] at h
      cases h

/-! ## C1: the pair selected by Phase 0 -/

/-- C1, the code at the failing input: two graphs of one curve each, both of area 0,
have a pair of parts with equal type tag; its score, the only key of the score map,
is `+inf` (the term `1.0 / qMin(0, 0)`) whatever the norm, which is not below the
initial `minScore = DBL_MAX`; the candidate list `minPairs` stays empty and
`minPairs.first()` is evaluated all the same, so `bestPartialCorrespondence` and
`blend` abort: no pair is selected and no working graph is initialised. -/
theorem bestPartialCorrespondence_zero_area (geo : Geometry) (fuel : Nat) :
    (∃ i ∈ zeroSource.nodes, ∃ j ∈ zeroTarget.nodes, i.type = j.type) ∧
    score geo (part "A" "CURVE" 0) (part "T" "CURVE" 0) = ⊤ ∧
    computeScores geo zeroSource zeroTarget =
      [(⊤, (part "A" "CURVE" 0, part "T" "CURVE" 0))] ∧
    (findMinPairs (computeScores geo zeroSource zeroTarget)).2 = [] ∧
    bestPartialCorrespondence geo zeroSource zeroTarget = .error Stop.abort ∧
    blend geo zeroSource zeroTarget fuel = .error Stop.abort := by
  have hs : score geo (part "A" "CURVE" 0) (part "T" "CURVE" 0) = ⊤ := by
    simp [score, inverse, part]
  have hc : computeScores geo zeroSource zeroTarget =
      [(⊤, (part "A" "CURVE" 0, part "T" "CURVE" 0))] := by
    simp only [computeScores, zeroSource, zeroTarget, List.foldl, scoreRow]
    rw [if_neg (by decide), hs]
    rfl
  have hf : (findMinPairs (computeScores geo zeroSource zeroTarget)).2 = [] := by
    rw [hc]
    rfl
  have hb : bestPartialCorrespondence geo zeroSource zeroTarget = .error Stop.abort := by
    unfold bestPartialCorrespondence
    rw [hf]
    rfl
  refine ⟨by decide, hs, hc, hf, hb, ?_⟩
  unfold blend
  rw [hb]

/-- Where the running minimum of lines 51-59 accepts a key, that is when some pair of
parts with equal type tag has a score below `DBL_MAX`, `bestPartialCorrespondence`
returns a working graph for a pair `(root, targetRoot)` of equal type whose score is
at most the score of every pair of equal type; the node mirroring `root` is `ACTIVE`
with `correspond` the id of `targetRoot`, and every other node is `SLEEP` without
`correspond`. -/
theorem bestPartialCorrespondence_minimum (geo : Geometry) (g1 g2 : Graph) (i0 j0 : Node)
    (hi : i0 ∈ g1.nodes) (hj : j0 ∈ g2.nodes) (ht : i0.type = j0.type)
    (hs : score geo i0 j0 < ((DBL_MAX : ℚ) : WithTop ℚ)) :
    ∃ (root targetRoot : Node) (active : DynamicGraph) (k : Nat),
      bestPartialCorrespondence geo g1 g2 = .ok active ∧
      root ∈ g1.nodes ∧ targetRoot ∈ g2.nodes ∧ root.type = targetRoot.type ∧
      (∀ i ∈ g1.nodes, ∀ j ∈ g2.nodes, i.type = j.type →
        score geo root targetRoot ≤ score geo i j) ∧
      active.nodes[k]? = some (⟨some State.ACTIVE, root.id, some targetRoot.id⟩ : SimpleNode) ∧
      (∀ (j : Nat) (m : SimpleNode), j ≠ k → active.nodes[j]? = some m →
        m.state = some State.SLEEP ∧ m.correspond = none) ∧
      active.nodes.map (fun m => m.original) = g1.nodes.map (fun m => m.id) := by
  have hmem0 : (score geo i0 j0, (i0, j0)) ∈ computeScores geo g1 g2 :=
    (computeScores_mem geo g1 g2 _).2 ⟨i0, hi, j0, hj, ht, rfl⟩
  have hsorted := computeScores_sorted geo g1 g2
  cases hsc : computeScores geo g1 g2 with
  | nil => rw [hsc] at hmem0; cases hmem0
  | cons kv rest =>
    rw [hsc] at hmem0 hsorted
    rw [List.pairwise_cons] at hsorted
    have hmin : ∀ x ∈ computeScores geo g1 g2, kv.1 ≤ x.1 := by
      rw [hsc]
      intro x hx
      rcases List.mem_cons.1 hx with rfl | hx
      · exact le_refl _
      · exact hsorted.1 x hx
    have hlt : kv.1 < ((DBL_MAX : ℚ) : WithTop ℚ) :=
      lt_of_le_of_lt (hmin _ (by rw [hsc]; exact hmem0)) hs
    have hkv : kv ∈ computeScores geo g1 g2 := by rw [hsc]; exact List.mem_cons_self _ _
    obtain ⟨r, hr, t, ht', htype, hx⟩ := (computeScores_mem geo g1 g2 kv).1 hkv
    obtain ⟨k, n, hk, hid, heq⟩ := bestPartialCorrespondence_of_head geo g1 g2 kv rest hsc hlt
    have hk1 : kv.1 = score geo r t := by rw [hx]
    have hk2 : kv.2.1 = r := by rw [hx]
    have hk3 : kv.2.2 = t := by rw [hx]
    rw [hk2] at hid
    rw [hk3] at heq
    obtain ⟨h1, h2, h3, _⟩ := initial_graph g1 r t k n hk hid _ rfl
    refine ⟨r, t, _, k, heq, hr, ht', htype, ?_, h1, h2, h3⟩
    intro i hi' j hj' hij
    rw [← hk1]
    exact hmin _ ((computeScores_mem geo g1 g2 _).2 ⟨i, hi', j, hj', hij, rfl⟩)

/-- The selection at `chainSource` and `pairTarget`, where the pair `(A, T1)` scores
`1/10`. -/
theorem bestPartialCorrespondence_minimum_example :
    ∃ (root targetRoot : Node) (active : DynamicGraph) (k : Nat),
      bestPartialCorrespondence axisGeometry chainSource pairTarget = .ok active ∧
      root ∈ chainSource.nodes ∧ targetRoot ∈ pairTarget.nodes ∧
      root.type = targetRoot.type ∧
      (∀ i ∈ chainSource.nodes, ∀ j ∈ pairTarget.nodes, i.type = j.type →
        score axisGeometry root targetRoot ≤ score axisGeometry i j) ∧
      active.nodes[k]? = some (⟨some State.ACTIVE, root.id, some targetRoot.id⟩ : SimpleNode) ∧
      (∀ (j : Nat) (m : SimpleNode), j ≠ k → active.nodes[j]? = some m →
        m.state = some State.SLEEP ∧ m.correspond = none) ∧
      active.nodes.map (fun m => m.original) = chainSource.nodes.map (fun m => m.id) :=
  bestPartialCorrespondence_minimum axisGeometry chainSource pairTarget
    (part "A" "CURVE" 10) (part "T1" "CURVE" 10) (by decide!) (by decide!) (by decide!)
    (by decide!)

/-! ## C2: an empty candidate list -/

/-- C2, the code at the failing inputs: for a source of one curve and a target of one
sheet, and for an empty source graph, the candidate list `minPairs` is empty and
`minPairs.first()` is evaluated all the same, so `bestPartialCorrespondence` and
`blend` abort and no working graph is produced. -/
theorem blend_aborts_on_empty_candidates (geo : Geometry) (fuel : Nat) :
    bestPartialCorrespondence geo soloSource sheetTarget = .error Stop.abort ∧
    blend geo soloSource sheetTarget fuel = .error Stop.abort ∧
    bestPartialCorrespondence geo ⟨[], []⟩ soloTarget = .error Stop.abort ∧
    blend geo ⟨[], []⟩ soloTarget fuel = .error Stop.abort := by
  have h1 : bestPartialCorrespondence geo soloSource sheetTarget = .error Stop.abort := by
    apply bestPartialCorrespondence_abort
    intro kv hkv
    obtain ⟨i, hi, j, hj, ht, _⟩ := (computeScores_mem geo _ _ kv).1 hkv
    simp only [soloSource, sheetTarget, List.mem_singleton] at hi hj
    subst hi hj
    exact absurd ht (by decide)
  have h2 : bestPartialCorrespondence geo ⟨[], []⟩ soloTarget = .error Stop.abort := rfl
  refine ⟨h1, ?_, h2, ?_⟩
  · unfold blend
    rw [h1]
  · unfold blend
    rw [h2]

/-! ## Stage 1: how node records move -/

theorem Stage1Move.refl (n : SimpleNode) : Stage1Move n n :=
  ⟨rfl, id, Or.inl rfl⟩

theorem Stage1Move.trans {a b c : SimpleNode} (h1 : Stage1Move a b) (h2 : Stage1Move b c) :
    Stage1Move a c := by
  obtain ⟨ho1, hc1, hs1⟩ := h1
  obtain ⟨ho2, hc2, hs2⟩ := h2
  refine ⟨ho2.trans ho1, fun h => hc2 (hc1 h), ?_⟩
  rcases hs2 with h | h | ⟨h, h', h''⟩
  · rcases hs1 with g | g | ⟨g, g', g''⟩
    · exact Or.inl (h.trans g)
    · exact Or.inr (Or.inl (h.trans g))
    · exact Or.inr (Or.inr ⟨h.trans g, g', hc2 g''⟩)
  · exact Or.inr (Or.inl h)
  · rcases hs1 with g | g | ⟨g, g', g''⟩
    · exact Or.inr (Or.inr ⟨h, g ▸ h', h''⟩)
    · rw [g] at h'; rcases h' with h' | h' <;> cases h'
    · rw [g] at h'; rcases h' with h' | h' <;> cases h'

theorem forall2_refl_of {α : Type} {R : α → α → Prop} (hr : ∀ a, R a a) (l : List α) :
    List.Forall₂ R l l := by
  induction l with
  | nil => exact List.Forall₂.nil
  | cons a l ih => exact List.Forall₂.cons (hr a) ih

theorem forall2_trans_of {α : Type} {R : α → α → Prop}
    (ht : ∀ a b c, R a b → R b c → R a c) {l1 l2 l3 : List α}
    (h12 : List.Forall₂ R l1 l2) (h23 : List.Forall₂ R l2 l3) : List.Forall₂ R l1 l3 := by
  induction h12 generalizing l3 with
  | nil => cases h23; exact List.Forall₂.nil
  | cons hab _ ih =>
    cases h23 with
    | cons hbc htl => exact List.Forall₂.cons (ht _ _ _ hab hbc) (ih htl)

theorem forall2_set_of {α : Type} {R : α → α → Prop} (hr : ∀ a, R a a) (l : List α) (i : Nat)
    (b : α) (h : ∀ a, l[i]? = some a → R a b) : List.Forall₂ R l (l.set i b) := by
  induction l generalizing i with
  | nil => exact List.Forall₂.nil
  | cons a l ih =>
    cases i with
    | zero => exact List.Forall₂.cons (h a (by simp)) (forall2_refl_of hr l)
    | succ i => exact List.Forall₂.cons (hr a) (ih i (fun a' ha' => h a' (by simpa using ha')))

theorem forall2_getElem? {α : Type} {R : α → α → Prop} {l1 l2 : List α}
    (h : List.Forall₂ R l1 l2) (i : Nat) (a : α) (ha : l1[i]? = some a) :
    ∃ b, l2[i]? = some b ∧ R a b := by
  induction h generalizing i with
  | nil => simp at ha
  | cons hab _ ih =>
    cases i with
    | zero =>
      simp only [List.getElem?_cons_zero, Option.some.injEq] at ha
      subst ha
      exact ⟨_, by simp, hab⟩
    | succ i => simpa using ih i (by simpa using ha)

theorem forall2_getElem?_right {α : Type} {R : α → α → Prop} {l1 l2 : List α}
    (h : List.Forall₂ R l1 l2) (i : Nat) (b : α) (hb : l2[i]? = some b) :
    ∃ a, l1[i]? = some a ∧ R a b := by
  induction h generalizing i with
  | nil => simp at hb
  | cons hab _ ih =>
    cases i with
    | zero =>
      simp only [List.getElem?_cons_zero, Option.some.injEq] at hb
      subst hb
      exact ⟨_, by simp, hab⟩
    | succ i => simpa using ih i (by simpa using hb)

namespace DynamicGraph

theorem modifyNode_forall2 {R : SimpleNode → SimpleNode → Prop} (hr : ∀ a, R a a)
    (g : DynamicGraph) (i : Nat) (f : SimpleNode → SimpleNode)
    (h : ∀ n, g.nodes[i]? = some n → R n (f n)) :
    List.Forall₂ R g.nodes (g.modifyNode i f).nodes := by
  unfold modifyNode
  cases hn : g.nodes[i]? with
  | none => exact forall2_refl_of hr _
  | some n =>
    refine forall2_set_of hr _ _ _ ?_
    intro a ha
    rw [hn] at ha
    injection ha with ha
    subst ha
    exact h _ hn

theorem nodeIndex_congr {g g' : DynamicGraph} (p : SimpleNode → Bool)
    (h : List.Forall₂ (fun n n' => p n' = p n) g.nodes g'.nodes) :
    g'.nodeIndex p = g.nodeIndex p := by
  unfold nodeIndex
  generalize g.nodes = l at h
  generalize g'.nodes = l' at h
  induction h with
  | nil => rfl
  | cons hab _ ih =>
    rw [List.findIdx?_cons, List.findIdx?_cons, hab]
    split
    · rfl
    · rw [List.findIdx?_succ, List.findIdx?_succ, ih]

end DynamicGraph

theorem nodeIndex_original_of_moves {g g' : DynamicGraph}
    (h : List.Forall₂ Stage1Move g.nodes g'.nodes) (id : String) :
    g'.nodeIndex (fun n => n.original = id) = g.nodeIndex (fun n => n.original = id) := by
  apply DynamicGraph.nodeIndex_congr
  refine List.Forall₂.imp ?_ h
  intro a b hab
  simp [hab.1]

namespace DynamicGraph

theorem modifyNode_congr (g : DynamicGraph) (i : Nat) (f h : SimpleNode → SimpleNode)
    (n : SimpleNode) (hn : g.nodes[i]? = some n) (hf : f n = h n) :
    g.modifyNode i f = g.modifyNode i h := by
  unfold modifyNode
  simp [hn, hf]

theorem removeEdge_nodes (g : DynamicGraph) (i j : Nat) : (g.removeEdge i j).nodes = g.nodes :=
  rfl

theorem addEdge_nodes (g : DynamicGraph) (i j : Nat) : (g.addEdge i j).nodes = g.nodes :=
  rfl

end DynamicGraph

/-- The promotion of lines 192-198 as one update of the node record. -/
theorem abundance_update (g : DynamicGraph) (o : Nat) (other : SimpleNode) (c : String)
    (ho : g.nodes[o]? = some other) :
    (if other.state ≠ some State.DONE ∧ other.state ≠ some State.DISCONNECTED
      then g.setState o State.ACTIVE else g).setCorrespond o c =
    g.modifyNode o (fun n =>
      { n with
        state := if n.state ≠ some State.DONE ∧ n.state ≠ some State.DISCONNECTED
          then some State.ACTIVE else n.state,
        correspond := some c }) := by
  split
  · rename_i hc
    unfold DynamicGraph.setCorrespond DynamicGraph.setState
    rw [DynamicGraph.modifyNode_modifyNode]
    apply DynamicGraph.modifyNode_congr _ _ _ _ other ho
    simp [hc]
  · rename_i hc
    unfold DynamicGraph.setCorrespond
    apply DynamicGraph.modifyNode_congr _ _ _ _ other ho
    simp [hc]

/-- The promotion of lines 223-228 as one update of the node record. -/
theorem deficiency_update (g : DynamicGraph) (o : Nat) (c : String) :
    (g.setState o State.ACTIVE).setCorrespond o c =
    g.modifyNode o (fun n => { n with state := some State.ACTIVE, correspond := some c }) := by
  unfold DynamicGraph.setCorrespond DynamicGraph.setState
  rw [DynamicGraph.modifyNode_modifyNode]
  rfl

theorem State.pending_cases (s : Option State) (h1 : s ≠ some State.DONE)
    (h2 : s ≠ some State.DISCONNECTED) :
    (s = some State.SLEEP ∨ s = none) ∨ s = some State.ACTIVE := by
  rcases s with _ | s
  · exact Or.inl (Or.inr rfl)
  · cases s
    · exact Or.inl (Or.inl rfl)
    · exact Or.inr rfl
    · exact absurd rfl h1
    · exact absurd rfl h2

theorem moves_trans {l1 l2 l3 : List SimpleNode} (h12 : List.Forall₂ Stage1Move l1 l2)
    (h23 : List.Forall₂ Stage1Move l2 l3) : List.Forall₂ Stage1Move l1 l3 :=
  @forall2_trans_of _ Stage1Move (fun _ _ _ h1 h2 => Stage1Move.trans h1 h2) _ _ _ h12 h23

theorem detach_moves (g : DynamicGraph) (a o : Nat) :
    List.Forall₂ Stage1Move g.nodes (detach g a o).nodes := by
  unfold detach
  simp only
  split
  · unfold DynamicGraph.setState
    have := DynamicGraph.modifyNode_forall2 Stage1Move.refl (g.removeEdge a o) o
      (fun n => { n with state := some State.DISCONNECTED })
      (fun n _ => ⟨rfl, id, Or.inr (Or.inl rfl)⟩)
    simpa [DynamicGraph.removeEdge_nodes] using this
  · exact forall2_refl_of Stage1Move.refl _

theorem detach_edges (g : DynamicGraph) (a o : Nat) :
    (detach g a o).edges = g.edges.filter (fun e => !e.joins a o) := by
  unfold detach
  simp only
  split
  · unfold DynamicGraph.setState
    rw [DynamicGraph.modifyNode_edges]
    rfl
  · rfl

theorem removeExcess_moves (id : String) (a k : Nat) (corresp rest : List ScalarLinksPair)
    (g g' : DynamicGraph) (h : removeExcess id a k corresp g = .ok (rest, g')) :
    List.Forall₂ Stage1Move g.nodes g'.nodes := by
  induction k generalizing corresp g with
  | zero =>
    simp only [removeExcess, Except.ok.injEq, Prod.mk.injEq] at h
    rw [← h.2]
    exact forall2_refl_of Stage1Move.refl _
  | succ k ih =>
    unfold removeExcess at h
    split at h
    · cases h
    · simp only at h
      split at h
      · cases h
      · exact moves_trans (detach_moves g a _) (ih _ _ h)

theorem propagateAbundance_moves (id tid : String) (l : List ScalarLinksPair)
    (g g' : DynamicGraph) (h : propagateAbundance id tid l g = .ok g') :
    List.Forall₂ Stage1Move g.nodes g'.nodes ∧ g'.edges = g.edges := by
  induction l generalizing g with
  | nil =>
    simp only [propagateAbundance, Except.ok.injEq] at h
    subst h
    exact ⟨forall2_refl_of Stage1Move.refl _, rfl⟩
  | cons sp rest ih =>
    unfold propagateAbundance at h
    simp only at h
    split at h
    · cases h
    · rename_i o ho
      split at h
      · cases h
      · rename_i other hother
        split at h
        · cases h
        · rename_i linkTarget hlt
          rw [abundance_update g o other _ hother] at h
          obtain ⟨h1, h2⟩ := ih _ h
          refine ⟨moves_trans ?_ h1, ?_⟩
          · apply DynamicGraph.modifyNode_forall2 Stage1Move.refl
            intro n _
            refine ⟨rfl, fun _ => rfl, ?_⟩
            by_cases hc : n.state ≠ some State.DONE ∧ n.state ≠ some State.DISCONNECTED
            · rcases State.pending_cases n.state hc.1 hc.2 with hs | hs
              · exact Or.inr (Or.inr ⟨by rw [if_pos hc], hs, rfl⟩)
              · exact Or.inl (by simp [hs])
            · exact Or.inl (by simp only [hc, if_false])
          · rw [h2, DynamicGraph.modifyNode_edges]

theorem propagateDeficiency_moves (id tid : String) (l : List ScalarLinksPair)
    (g g' : DynamicGraph) (h : propagateDeficiency id tid l g = .ok g') :
    List.Forall₂ Stage1Move g.nodes g'.nodes ∧ g'.edges = g.edges := by
  induction l generalizing g with
  | nil =>
    simp only [propagateDeficiency, Except.ok.injEq] at h
    subst h
    exact ⟨forall2_refl_of Stage1Move.refl _, rfl⟩
  | cons sp rest ih =>
    unfold propagateDeficiency at h
    simp only at h
    split at h
    · cases h
    · rename_i o ho
      split at h
      · cases h
      · rename_i other hother
        split at h
        · rename_i hc
          split at h
          · cases h
          · rename_i linkTarget hlt
            rw [deficiency_update] at h
            obtain ⟨h1, h2⟩ := ih _ h
            refine ⟨moves_trans ?_ h1, ?_⟩
            · apply DynamicGraph.modifyNode_forall2 Stage1Move.refl
              intro n hn
              rw [hother] at hn
              injection hn with hn
              subst hn
              refine ⟨rfl, fun _ => rfl, ?_⟩
              rcases State.pending_cases _ hc.1 hc.2 with hs | hs
              · exact Or.inr (Or.inr ⟨rfl, hs, rfl⟩)
              · exact Or.inl hs.symm
            · rw [h2, DynamicGraph.modifyNode_edges]
        · exact ih _ h

theorem reconcile_moves (id tid : String) (a : Nat) (corresp : List ScalarLinksPair)
    (linkDiff : Int) (s s' : BlendState) (h : reconcile id tid a corresp linkDiff s = .ok s') :
    List.Forall₂ Stage1Move s.active.nodes s'.active.nodes ∧ s'.step = s.step := by
  unfold reconcile at h
  split at h
  · split at h
    · cases h
    · rename_i rest g hrem
      split at h
      · cases h
      · rename_i g' hprop
        simp only [Except.ok.injEq] at h
        subst h
        exact ⟨moves_trans (removeExcess_moves _ _ _ _ _ _ _ hrem)
          (propagateAbundance_moves _ _ _ _ _ hprop).1, rfl⟩
  · split at h
    · split at h
      · cases h
      · rename_i g' hprop
        simp only [Except.ok.injEq] at h
        subst h
        exact ⟨(propagateDeficiency_moves _ _ _ _ _ hprop).1, rfl⟩
    · simp only [Except.ok.injEq] at h
      subst h
      exact ⟨forall2_refl_of Stage1Move.refl _, rfl⟩

/-- One stage 1 iteration on the picked node `a`: the node records move as
`Stage1Move` allows, then `a` is marked `DONE` and `step` grows by one. -/
theorem stage1Body_moves (geo : Geometry) (g1 g2 : Graph) (s s' : BlendState) (a : Nat)
    (ha : s.active.nodeIndex (fun n => n.state = some State.ACTIVE) = some a)
    (h : stage1Body geo g1 g2 s = .ok s') :
    ∃ mid : DynamicGraph, List.Forall₂ Stage1Move s.active.nodes mid.nodes ∧
      s'.active = mid.setState a State.DONE ∧ s'.step = s.step + 1 := by
  unfold stage1Body at h
  rw [ha] at h
  simp only at h
  split at h
  · cases h
  · split at h
    · cases h
    · rename_i s1 hrec
      simp only [Except.ok.injEq] at h
      subst h
      obtain ⟨hm, hstep⟩ := reconcile_moves _ _ _ _ _ _ _ hrec
      exact ⟨s1.active, hm, rfl, by simp [hstep]⟩

theorem removeExcess_error (id : String) (a k : Nat) (corresp : List ScalarLinksPair)
    (g : DynamicGraph) (e : Stop) (h : removeExcess id a k corresp g = .error e) :
    e = Stop.abort := by
  induction k generalizing corresp g with
  | zero => simp [removeExcess] at h
  | succ k ih =>
    unfold removeExcess at h
    split at h
    · injection h with h; exact h.symm
    · simp only at h
      split at h
      · injection h with h; exact h.symm
      · exact ih _ _ h

theorem propagateAbundance_error (id tid : String) (l : List ScalarLinksPair)
    (g : DynamicGraph) (e : Stop) (h : propagateAbundance id tid l g = .error e) :
    e = Stop.abort := by
  induction l generalizing g with
  | nil => simp [propagateAbundance] at h
  | cons sp rest ih =>
    unfold propagateAbundance at h
    simp only at h
    split at h
    · injection h with h; exact h.symm
    · split at h
      · injection h with h; exact h.symm
      · split at h
        · injection h with h; exact h.symm
        · exact ih _ h

theorem propagateDeficiency_error (id tid : String) (l : List ScalarLinksPair)
    (g : DynamicGraph) (e : Stop) (h : propagateDeficiency id tid l g = .error e) :
    e = Stop.abort := by
  induction l generalizing g with
  | nil => simp [propagateDeficiency] at h
  | cons sp rest ih =>
    unfold propagateDeficiency at h
    simp only at h
    split at h
    · injection h with h; exact h.symm
    · split at h
      · injection h with h; exact h.symm
      · split at h
        · split at h
          · injection h with h; exact h.symm
          · exact ih _ h
        · exact ih _ h

theorem reconcile_error (id tid : String) (a : Nat) (corresp : List ScalarLinksPair)
    (linkDiff : Int) (s : BlendState) (e : Stop)
    (h : reconcile id tid a corresp linkDiff s = .error e) : e = Stop.abort := by
  unfold reconcile at h
  split at h
  · split at h
    · rename_i e' hrem
      injection h with h
      subst h
      exact removeExcess_error _ _ _ _ _ _ hrem
    · split at h
      · rename_i e' hprop
        injection h with h
        subst h
        exact propagateAbundance_error _ _ _ _ _ hprop
      · cases h
  · split at h
    · split at h
      · rename_i e' hprop
        injection h with h
        subst h
        exact propagateDeficiency_error _ _ _ _ _ hprop
      · cases h
    · cases h

theorem stage1Body_error (geo : Geometry) (g1 g2 : Graph) (s : BlendState) (e : Stop)
    (h : stage1Body geo g1 g2 s = .error e) : e = Stop.abort := by
  unfold stage1Body at h
  split at h
  · cases h
  · simp only at h
    split at h
    · injection h with h; exact h.symm
    · split at h
      · rename_i e' hrec
        injection h with h
        subst h
        exact reconcile_error _ _ _ _ _ _ _ hrec
      · cases h

/-! ## Counting pending nodes -/

theorem countP_le_of_forall2 {α : Type} (p : α → Bool) {l l' : List α}
    (h : List.Forall₂ (fun a b => p b = true → p a = true) l l') :
    l'.countP p ≤ l.countP p := by
  induction h with
  | nil => exact le_refl _
  | @cons a b l l' hab _ ih =>
    rw [List.countP_cons, List.countP_cons]
    by_cases hb : p b = true
    · simp only [hb, hab hb, if_true]
      omega
    · by_cases ha : p a = true
      · simp only [hb, ha, Bool.false_eq_true, ↓reduceIte]
        omega
      · simp only [hb, ha, Bool.false_eq_true, ↓reduceIte]
        omega

theorem countP_lt_of_forall2 {α : Type} (p : α → Bool) {l l' : List α}
    (h : List.Forall₂ (fun a b => p b = true → p a = true) l l') (i : Nat) (a b : α)
    (ha : l[i]? = some a) (hb : l'[i]? = some b) (hpa : p a = true) (hpb : ¬ p b = true) :
    l'.countP p < l.countP p := by
  induction h generalizing i with
  | nil => simp at ha
  | @cons x y l l' hxy htl ih =>
    rw [List.countP_cons, List.countP_cons]
    cases i with
    | zero =>
      simp only [List.getElem?_cons_zero, Option.some.injEq] at ha hb
      subst ha hb
      have := countP_le_of_forall2 p htl
      simp only [hpa, hpb, if_true]
      simp only [Bool.false_eq_true, if_false]
      omega
    | succ i =>
      have := ih i (by simpa using ha) (by simpa using hb)
      by_cases hy : p y = true
      · simp only [hy, hxy hy, if_true]
        omega
      · by_cases hx : p x = true
        · simp only [hy, hx, Bool.false_eq_true, ↓reduceIte]
          omega
        · simp only [hy, hx, Bool.false_eq_true, ↓reduceIte]
          omega

theorem Stage1Move.pending {n n' : SimpleNode} (h : Stage1Move n n')
    (hp : n'.pending = true) : n.pending = true := by
  obtain ⟨_, _, hs⟩ := h
  unfold SimpleNode.pending at hp ⊢
  rcases hs with hs | hs | ⟨_, hs, _⟩
  · rw [← hs]; exact hp
  · rw [hs] at hp; simp at hp
  · rcases hs with hs | hs <;> simp [hs]

/-! ## Stage 1: the picked node and the bound on the loop -/

theorem nodeIndex_some {g : DynamicGraph} {p : SimpleNode → Bool} {a : Nat}
    (h : g.nodeIndex p = some a) : ∃ n, g.nodes[a]? = some n ∧ p n = true := by
  unfold DynamicGraph.nodeIndex at h
  obtain ⟨hlt, hp, _⟩ := List.findIdx?_eq_some_iff_getElem.1 h
  exact ⟨_, List.getElem?_eq_getElem hlt, hp⟩

theorem nodeIndex_of_mem {g : DynamicGraph} {p : SimpleNode → Bool} {n : SimpleNode}
    (hn : n ∈ g.nodes) (hp : p n = true) : ∃ a, g.nodeIndex p = some a :=
  ⟨_, List.findIdx?_eq_some_of_exists ⟨n, hn, hp⟩⟩

theorem active_of_flags {g : DynamicGraph} (h : some State.ACTIVE ∈ g.flags) :
    ∃ a, g.nodeIndex (fun n => n.state = some State.ACTIVE) = some a := by
  unfold DynamicGraph.flags at h
  obtain ⟨n, hn, hs⟩ := List.mem_map.1 h
  exact nodeIndex_of_mem hn (by simp [hs])

theorem stage1Guard_active {target : DynamicGraph} {s : BlendState}
    (h : stage1Guard target s = true) :
    ∃ a, s.active.nodeIndex (fun n => n.state = some State.ACTIVE) = some a := by
  unfold stage1Guard at h
  simp only [ne_eq, decide_eq_true_eq] at h
  exact active_of_flags h.2

/-- One stage 1 iteration strictly lowers the number of pending nodes. -/
theorem stage1Body_pending (geo : Geometry) (g1 g2 : Graph) (s s' : BlendState) (a : Nat)
    (ha : s.active.nodeIndex (fun n => n.state = some State.ACTIVE) = some a)
    (h : stage1Body geo g1 g2 s = .ok s') :
    s'.active.pendingCount < s.active.pendingCount := by
  obtain ⟨mid, hm, hs', _⟩ := stage1Body_moves geo g1 g2 s s' a ha h
  obtain ⟨n, hn, hpn⟩ := nodeIndex_some ha
  obtain ⟨m, hmid, _⟩ := forall2_getElem? hm a n hn
  have h1 : List.Forall₂ (fun x y : SimpleNode => y.pending = true → x.pending = true)
      s.active.nodes mid.nodes :=
    List.Forall₂.imp (fun _ _ hxy => Stage1Move.pending hxy) hm
  have h2 : List.Forall₂ (fun x y : SimpleNode => y.pending = true → x.pending = true)
      mid.nodes (mid.setState a State.DONE).nodes := by
    unfold DynamicGraph.setState
    apply DynamicGraph.modifyNode_forall2 (fun _ => id)
    intro x _ hx
    simp [SimpleNode.pending] at hx
  have h3 := @forall2_trans_of _ (fun x y : SimpleNode => y.pending = true → x.pending = true)
    (fun _ _ _ hab hbc hc => hab (hbc hc)) _ _ _ h1 h2
  rw [← hs'] at h3
  have hget : s'.active.nodes[a]? = some { m with state := some State.DONE } := by
    rw [hs']
    unfold DynamicGraph.setState
    rw [DynamicGraph.modifyNode_getElem?, if_pos rfl, hmid]
    rfl
  unfold DynamicGraph.pendingCount
  refine countP_lt_of_forall2 _ h3 a n _ hn hget ?_ ?_
  · simp only [decide_eq_true_eq] at hpn
    simp [SimpleNode.pending, hpn]
  · simp [SimpleNode.pending]

theorem pending_of_active {g : DynamicGraph} (h : some State.ACTIVE ∈ g.flags) :
    0 < g.pendingCount := by
  unfold DynamicGraph.flags at h
  obtain ⟨n, hn, hs⟩ := List.mem_map.1 h
  unfold DynamicGraph.pendingCount
  exact List.countP_pos_iff.2 ⟨n, hn, by simp [SimpleNode.pending, hs]⟩

/-- The stage 1 loop ends within as many iterations as there are pending nodes. -/
theorem stage1_bound (geo : Geometry) (g1 g2 : Graph) (target : DynamicGraph) (fuel : Nat)
    (s : BlendState) (hf : s.active.pendingCount ≤ fuel) :
    stage1 geo g1 g2 target fuel s ≠ .error Stop.fuel ∧
    ∀ s', stage1 geo g1 g2 target fuel s = .ok s' →
      s'.step ≤ s.step + s.active.pendingCount := by
  induction fuel generalizing s with
  | zero =>
    have hg : stage1Guard target s = false := by
      cases hgd : stage1Guard target s with
      | false => rfl
      | true =>
        unfold stage1Guard at hgd
        simp only [ne_eq, decide_eq_true_eq] at hgd
        have := pending_of_active hgd.2
        omega
    unfold stage1
    simp only [hg]
    refine ⟨by simp, ?_⟩
    intro s' hs'
    simp only [Bool.false_eq_true, if_false, Except.ok.injEq] at hs'
    subst hs'
    omega
  | succ fuel ih =>
    unfold stage1
    cases hgd : stage1Guard target s with
    | false =>
      simp only [Bool.false_eq_true, if_false]
      refine ⟨by simp, ?_⟩
      intro s' hs'
      simp only [Except.ok.injEq] at hs'
      subst hs'
      omega
    | true =>
      simp only [if_true]
      obtain ⟨a, ha⟩ := stage1Guard_active hgd
      cases hb : stage1Body geo g1 g2 s with
      | error e =>
        simp only
        have := stage1Body_error geo g1 g2 s e hb
        subst this
        exact ⟨by simp, by simp⟩
      | ok s1 =>
        simp only
        have hlt := stage1Body_pending geo g1 g2 s s1 a ha hb
        obtain ⟨_, _, _, hstep⟩ := stage1Body_moves geo g1 g2 s s1 a ha hb
        obtain ⟨ih1, ih2⟩ := ih s1 (by omega)
        refine ⟨ih1, ?_⟩
        intro s' hs'
        have := ih2 s' hs'
        omega

theorem initial_pendingCount (geo : Geometry) (g1 g2 : Graph) (active : DynamicGraph)
    (h : bestPartialCorrespondence geo g1 g2 = .ok active) :
    active.pendingCount = g1.nodes.length ∧ active.nodes.length = g1.nodes.length := by
  obtain ⟨kv, rest, k, n, _, _, hk, hid, hact⟩ := bestPartialCorrespondence_ok geo g1 g2 active h
  obtain ⟨h1, h2, h3, _⟩ := initial_graph g1 kv.2.1 kv.2.2 k n hk hid active hact
  have hlen : active.nodes.length = g1.nodes.length := by
    have := congrArg List.length h3
    simpa using this
  refine ⟨?_, hlen⟩
  unfold DynamicGraph.pendingCount
  rw [← hlen]
  apply List.countP_eq_length.2
  intro m hm
  obtain ⟨j, hj, hjm⟩ := List.getElem_of_mem hm
  have hget : active.nodes[j]? = some m := by rw [List.getElem?_eq_getElem hj, hjm]
  by_cases hjk : j = k
  · subst hjk
    rw [h1] at hget
    injection hget with hget
    subst hget
    simp [SimpleNode.pending]
  · have := (h2 j m hjk hget).1
    simp [SimpleNode.pending, this]

/-! ## C4: the number of stage 1 iterations -/

/-- C4, counterexample: for the source `chainSource` (4 nodes) and the target
`pairTarget` (2 nodes) stage 1 returns after 3 worklist iterations, more than the
number of target nodes. -/
theorem stage1_exceeds_target_count :
    bestPartialCorrespondence axisGeometry chainSource pairTarget = .ok chainInitial ∧
    stage1 axisGeometry chainSource pairTarget (DynamicGraph.ofGraph pairTarget) 4
      ⟨chainInitial, [], 0⟩ = .ok chainFinal ∧
    chainFinal.step = 3 ∧ pairTarget.nodes.length = 2 := by
  decide!

/-- C4, as amended: started on the working graph of Phase 0, the stage 1 loop returns
or aborts within `M` iterations, `M` the number of nodes of the source graph: with
fuel `M` it does not run out of fuel, and the counter `step`, which grows by one in
every iteration, is at most `M` when the loop returns. -/
theorem stage1_iterations_le_source_count (geo : Geometry) (g1 g2 : Graph)
    (active : DynamicGraph) (fuel : Nat)
    (h0 : bestPartialCorrespondence geo g1 g2 = .ok active) (hf : g1.nodes.length ≤ fuel) :
    stage1 geo g1 g2 (DynamicGraph.ofGraph g2) fuel ⟨active, [], 0⟩ ≠ .error Stop.fuel ∧
    ∀ s', stage1 geo g1 g2 (DynamicGraph.ofGraph g2) fuel ⟨active, [], 0⟩ = .ok s' →
      s'.step ≤ g1.nodes.length := by
  obtain ⟨hp, _⟩ := initial_pendingCount geo g1 g2 active h0
  obtain ⟨h1, h2⟩ := stage1_bound geo g1 g2 (DynamicGraph.ofGraph g2) fuel ⟨active, [], 0⟩
    (by simpa [hp] using hf)
  refine ⟨h1, ?_⟩
  intro s' hs'
  have := h2 s' hs'
  simp only [hp] at this
  omega

/-- C4, witness: the amended bound at `chainSource` and `pairTarget` with fuel 4. -/
theorem stage1_iterations_le_source_count_witness :
    stage1 axisGeometry chainSource pairTarget (DynamicGraph.ofGraph pairTarget) 4
        ⟨chainInitial, [], 0⟩ ≠ .error Stop.fuel ∧
    ∀ s', stage1 axisGeometry chainSource pairTarget (DynamicGraph.ofGraph pairTarget) 4
        ⟨chainInitial, [], 0⟩ = .ok s' → s'.step ≤ chainSource.nodes.length :=
  stage1_iterations_le_source_count axisGeometry chainSource pairTarget chainInitial 4
    (by decide!) (by decide!)

/-! ## C3: injectivity of the correspondence -/

/-- C3, counterexample: `blend` on `forkSource` and `fanTarget` returns a working
graph in which the distinct nodes `B` and `C`, both `DONE`, carry the same target
part `T2`: both links of `A` have the link `T1 - T2` as nearest target link. -/
theorem blend_correspondence_not_injective :
    blend axisGeometry forkSource fanTarget 3 = .ok forkFinal ∧
    ¬ forkFinal.active.correspondInjective := by
  refine ⟨by decide!, ?_⟩
  intro h
  have := h 1 2 ⟨some State.DONE, "B", some "T2"⟩ ⟨some State.DONE, "C", some "T2"⟩ rfl rfl rfl rfl
  exact absurd this (by decide)

/-- C3, as amended: the correspondence of the working graph that Phase 0 returns is
injective. -/
theorem bestPartialCorrespondence_injective (geo : Geometry) (g1 g2 : Graph)
    (active : DynamicGraph) (h : bestPartialCorrespondence geo g1 g2 = .ok active) :
    active.correspondInjective := by
  obtain ⟨kv, rest, k, n, _, _, hk, hid, hact⟩ := bestPartialCorrespondence_ok geo g1 g2 active h
  obtain ⟨_, h2, _, _⟩ := initial_graph g1 kv.2.1 kv.2.2 k n hk hid active hact
  intro i j x y hx hy hsome heq
  have hi : i = k := by
    by_contra hne
    rw [(h2 i x hne hx).2] at hsome
    cases hsome
  have hj : j = k := by
    by_contra hne
    rw [heq, (h2 j y hne hy).2] at hsome
    cases hsome
  rw [hi, hj]

/-- C3, witness: the amended claim at `chainSource` and `pairTarget`. -/
theorem bestPartialCorrespondence_injective_witness : chainInitial.correspondInjective :=
  bestPartialCorrespondence_injective axisGeometry chainSource pairTarget chainInitial
    (by decide!)

/-! ## The steps of `blend` and the node invariant -/

theorem forall2_of_getElem? {α : Type} {R : α → α → Prop} {l l' : List α}
    (hlen : l.length = l'.length)
    (h : ∀ (i : Nat) (a b : α), l[i]? = some a → l'[i]? = some b → R a b) :
    List.Forall₂ R l l' := by
  induction l generalizing l' with
  | nil =>
    cases l' with
    | nil => exact List.Forall₂.nil
    | cons b l' => simp at hlen
  | cons a l ih =>
    cases l' with
    | nil => simp at hlen
    | cons b l' =>
      refine List.Forall₂.cons (h 0 a b (by simp) (by simp)) (ih (by simpa using hlen) ?_)
      intro i x y hx hy
      exact h (i + 1) x y (by simpa using hx) (by simpa using hy)

theorem keeps_same (n : SimpleNode) : Keeps n n :=
  ⟨rfl, id, id⟩

theorem keeps_chain {a b c : SimpleNode} (h1 : Keeps a b) (h2 : Keeps b c) : Keeps a c :=
  ⟨h2.1.trans h1.1, fun h => h2.2.1 (h1.2.1 h), fun h => h2.2.2 (h1.2.2 h)⟩

theorem Stage1Move.keeps {n n' : SimpleNode} (h : Stage1Move n n') : Keeps n n' := by
  obtain ⟨ho, hc, hs⟩ := h
  refine ⟨ho, hc, ?_⟩
  intro hm hst
  rcases hs with hs | hs | ⟨_, _, hs⟩
  · exact hc (hm (hs ▸ hst))
  · rw [hs] at hst
    rcases hst with hst | hst <;> cases hst
  · exact hs

theorem IntMap.mem_set (k : Nat) (v : Int) (m : IntMap) (kv : Nat × Int)
    (h : kv ∈ IntMap.set k v m) : kv = (k, v) ∨ kv ∈ m := by
  induction m with
  | nil => simpa [IntMap.set] using h
  | cons x rest ih =>
    unfold IntMap.set at h
    split at h
    · simpa using h
    · split at h
      · rcases List.mem_cons.1 h with h | h
        · exact Or.inl h
        · exact Or.inr (List.mem_cons_of_mem _ h)
      · rcases List.mem_cons.1 h with h | h
        · exact Or.inr (h ▸ List.mem_cons_self _ _)
        · rcases ih h with h | h
          · exact Or.inl h
          · exact Or.inr (List.mem_cons_of_mem _ h)

theorem IntMap.keys_set (k : Nat) (v : Int) (m : IntMap) (x : Nat)
    (h : x ∈ m.map Prod.fst) : x ∈ (IntMap.set k v m).map Prod.fst := by
  induction m with
  | nil => simp at h
  | cons y rest ih =>
    unfold IntMap.set
    split
    · simp only [List.map_cons, List.mem_cons] at h ⊢
      exact Or.inr h
    · split
      · rename_i hk
        simp only [List.map_cons, List.mem_cons] at h ⊢
        rcases h with h | h
        · exact Or.inl (h.trans hk.symm)
        · exact Or.inr h
      · simp only [List.map_cons, List.mem_cons] at h ⊢
        rcases h with h | h
        · exact Or.inl h
        · exact Or.inr (ih h)

theorem reconcile_needLink (id tid : String) (a : Nat) (corresp : List ScalarLinksPair)
    (linkDiff : Int) (s s' : BlendState) (h : reconcile id tid a corresp linkDiff s = .ok s') :
    s'.needLink = s.needLink ∨
      (linkDiff < 0 ∧ s'.needLink = IntMap.set a |linkDiff| s.needLink) := by
  unfold reconcile at h
  split at h
  · split at h
    · cases h
    · split at h
      · cases h
      · simp only [Except.ok.injEq] at h
        subst h
        exact Or.inl rfl
  · split at h
    · rename_i hneg
      split at h
      · cases h
      · simp only [Except.ok.injEq] at h
        subst h
        exact Or.inr ⟨hneg, rfl⟩
    · simp only [Except.ok.injEq] at h
      subst h
      exact Or.inl rfl

theorem stage1Body_needLink (geo : Geometry) (g1 g2 : Graph) (s s' : BlendState) (a : Nat)
    (ha : s.active.nodeIndex (fun n => n.state = some State.ACTIVE) = some a)
    (h : stage1Body geo g1 g2 s = .ok s') :
    s'.needLink = s.needLink ∨ ∃ v, s'.needLink = IntMap.set a v s.needLink := by
  unfold stage1Body at h
  rw [ha] at h
  simp only at h
  split at h
  · cases h
  · split at h
    · cases h
    · rename_i s1 hrec
      simp only [Except.ok.injEq] at h
      subst h
      rcases reconcile_needLink _ _ _ _ _ _ _ hrec with h1 | ⟨_, h1⟩
      · exact Or.inl h1
      · exact Or.inr ⟨_, h1⟩

/-- What a successful reconnection of stage 2 does to the blend state. -/
theorem reconnectStep_ok (geo : Geometry) (g1 g2 : Graph) (target : DynamicGraph)
    (index n_target_idx : Nat) (ke : Nat × SimpleEdge) (s s' : BlendState)
    (h : reconnectStep geo g1 g2 target index n_target_idx ke s = .ok (some s')) :
    ∃ (closestIdx : Nat) (c : String),
      s'.active = ((s.active.setCorrespond closestIdx c).setState closestIdx
        State.ACTIVE).addEdge index closestIdx ∧
      s'.needLink = IntMap.set index (s.needLink.get index - 1) s.needLink ∧
      s'.step = s.step + 1 := by
  unfold reconnectStep at h
  split at h
  · split at h
    · cases h
    · simp only at h
      split at h
      · cases h
      · split at h
        · cases h
        · split at h
          · cases h
          · simp only [Except.ok.injEq, Option.some.injEq] at h
            subst h
            exact ⟨_, _, rfl, rfl, rfl⟩
  · cases h

theorem applyTargetEdges_ok (target : DynamicGraph) (a t : Nat) (l : List (Nat × SimpleEdge))
    (s s' : BlendState) (h : applyTargetEdges target a t l s = .ok s') :
    s'.active.nodes = s.active.nodes ∧
    (∀ kv ∈ s'.needLink, kv ∈ s.needLink ∨ kv.1 = a) ∧
    (∀ x ∈ s.needLink.map Prod.fst, x ∈ s'.needLink.map Prod.fst) := by
  induction l generalizing s with
  | nil =>
    simp only [applyTargetEdges, Except.ok.injEq] at h
    subst h
    exact ⟨rfl, fun kv hkv => Or.inl hkv, fun x hx => hx⟩
  | cons ke rest ih =>
    unfold applyTargetEdges at h
    split at h
    · cases h
    · simp only at h
      split at h
      · exact ih _ h
      · split at h
        · exact ih _ h
        · obtain ⟨h1, h2, h3⟩ := ih _ h
          refine ⟨h1, ?_, ?_⟩
          · intro kv hkv
            rcases h2 kv hkv with h2 | h2
            · rcases IntMap.mem_set _ _ _ _ h2 with h2 | h2
              · exact Or.inr (by rw [h2])
              · exact Or.inl h2
            · exact Or.inr h2
          · intro x hx
            exact h3 x (IntMap.keys_set _ _ _ _ hx)

theorem stage3Body_ok (target : DynamicGraph) (s s' : BlendState) (a : Nat)
    (ha : s.active.nodeIndex (fun n => n.state = some State.ACTIVE) = some a)
    (h : stage3Body target s = .ok s') :
    s'.active.nodes = (s.active.setState a State.DONE).nodes ∧
    (∀ kv ∈ s'.needLink, kv ∈ s.needLink ∨ kv.1 = a) ∧
    (∀ x ∈ s.needLink.map Prod.fst, x ∈ s'.needLink.map Prod.fst) := by
  unfold stage3Body at h
  rw [ha] at h
  simp only at h
  split at h
  · cases h
  · rename_i n hn
    split at h
    · cases h
    · split at h
      · cases h
      · rename_i s1 happ
        simp only [Except.ok.injEq] at h
        subst h
        obtain ⟨h1, h2, h3⟩ := applyTargetEdges_ok _ _ _ _ _ _ happ
        refine ⟨?_, h2, h3⟩
        simp only [DynamicGraph.setState, DynamicGraph.modifyNode, h1, hn]

theorem stage1Body_keeps (geo : Geometry) (g1 g2 : Graph) (s s' : BlendState) (a : Nat)
    (ha : s.active.nodeIndex (fun n => n.state = some State.ACTIVE) = some a)
    (h : stage1Body geo g1 g2 s = .ok s') :
    List.Forall₂ Keeps s.active.nodes s'.active.nodes := by
  obtain ⟨mid, hm, hs', _⟩ := stage1Body_moves geo g1 g2 s s' a ha h
  obtain ⟨n, hn, hpn⟩ := nodeIndex_some ha
  simp only [decide_eq_true_eq] at hpn
  have hget : ∀ j, s'.active.nodes[j]? =
      if a = j then (mid.nodes[j]?).map (fun x => { x with state := some State.DONE })
      else mid.nodes[j]? := by
    intro j
    rw [hs']
    unfold DynamicGraph.setState
    rw [DynamicGraph.modifyNode_getElem?]
  apply forall2_of_getElem?
  · rw [hs']
    unfold DynamicGraph.setState
    rw [DynamicGraph.modifyNode_length]
    exact hm.length_eq
  · intro i x y hx hy
    obtain ⟨m, hmid, hxm⟩ := forall2_getElem? hm i x hx
    rw [hget, hmid] at hy
    by_cases hai : a = i
    · subst hai
      simp only [if_true, Option.map_some', Option.some.injEq] at hy
      subst hy
      rw [hn] at hx
      injection hx with hx
      subst hx
      refine ⟨hxm.1, hxm.2.1, ?_⟩
      intro hmatched _
      exact hxm.2.1 (hmatched (Or.inl hpn))
    · simp only [hai, if_false, Option.some.injEq] at hy
      subst hy
      exact hxm.keeps

theorem reconnectStep_keeps (geo : Geometry) (g1 g2 : Graph) (target : DynamicGraph)
    (index n_target_idx : Nat) (ke : Nat × SimpleEdge) (s s' : BlendState)
    (h : reconnectStep geo g1 g2 target index n_target_idx ke s = .ok (some s')) :
    List.Forall₂ Keeps s.active.nodes s'.active.nodes := by
  obtain ⟨c, x, hact, _, _⟩ := reconnectStep_ok geo g1 g2 target index n_target_idx ke s s' h
  rw [hact, DynamicGraph.addEdge_nodes]
  unfold DynamicGraph.setState DynamicGraph.setCorrespond
  rw [DynamicGraph.modifyNode_modifyNode]
  apply DynamicGraph.modifyNode_forall2 keeps_same
  intro n _
  exact ⟨rfl, fun _ => rfl, fun _ _ => rfl⟩

theorem stage3Body_keeps (target : DynamicGraph) (s s' : BlendState) (a : Nat)
    (ha : s.active.nodeIndex (fun n => n.state = some State.ACTIVE) = some a)
    (h : stage3Body target s = .ok s') :
    List.Forall₂ Keeps s.active.nodes s'.active.nodes := by
  obtain ⟨hnodes, _, _⟩ := stage3Body_ok target s s' a ha h
  obtain ⟨n, hn, hpn⟩ := nodeIndex_some ha
  simp only [decide_eq_true_eq] at hpn
  rw [hnodes]
  unfold DynamicGraph.setState
  apply DynamicGraph.modifyNode_forall2 keeps_same
  intro x hx
  rw [hn] at hx
  injection hx with hx
  subst hx
  exact ⟨rfl, id, fun hm _ => hm (Or.inl hpn)⟩

/-- The invariant of the reachable blend states: the working graph has the nodes of
the source graph, every node is `matched`, and every key of `needLink` is the index of
a node with a `correspond` value. -/
theorem reachable_invariant (geo : Geometry) (g1 g2 : Graph) (s : BlendState)
    (h : Reachable geo g1 g2 s) :
    s.active.nodes.map (fun n => n.original) = g1.nodes.map (fun n => n.id) ∧
    (∀ (j : Nat) (n : SimpleNode), s.active.nodes[j]? = some n → n.matched) ∧
    (∀ kv ∈ s.needLink, ∃ n, s.active.nodes[kv.1]? = some n ∧ n.correspond.isSome) := by
  have step : ∀ (s s' : BlendState),
      (s.active.nodes.map (fun n => n.original) = g1.nodes.map (fun n => n.id) ∧
        (∀ (j : Nat) (n : SimpleNode), s.active.nodes[j]? = some n → n.matched) ∧
        (∀ kv ∈ s.needLink, ∃ n, s.active.nodes[kv.1]? = some n ∧ n.correspond.isSome)) →
      List.Forall₂ Keeps s.active.nodes s'.active.nodes →
      (∀ kv ∈ s'.needLink, (∃ kv0 ∈ s.needLink, kv0.1 = kv.1) ∨
        ∃ n, s.active.nodes[kv.1]? = some n ∧ n.state = some State.ACTIVE) →
      (s'.active.nodes.map (fun n => n.original) = g1.nodes.map (fun n => n.id) ∧
        (∀ (j : Nat) (n : SimpleNode), s'.active.nodes[j]? = some n → n.matched) ∧
        (∀ kv ∈ s'.needLink, ∃ n, s'.active.nodes[kv.1]? = some n ∧ n.correspond.isSome)) := by
    intro s s' ⟨h1, h2, h3⟩ hk hkeys
    refine ⟨?_, ?_, ?_⟩
    · rw [← h1]
      apply List.ext_getElem?
      intro j
      rw [List.getElem?_map, List.getElem?_map]
      cases hj : s.active.nodes[j]? with
      | none =>
        have hlen := hk.length_eq
        have : s'.active.nodes[j]? = none := by
          rw [List.getElem?_eq_none_iff] at hj ⊢
          omega
        rw [this]
      | some n =>
        obtain ⟨n', hn', hkk⟩ := forall2_getElem? hk j n hj
        rw [hn']
        simp [hkk.1]
    · intro j n' hn'
      obtain ⟨n, hn, hkk⟩ := forall2_getElem?_right hk j n' hn'
      exact hkk.2.2 (h2 j n hn)
    · intro kv hkv
      rcases hkeys kv hkv with ⟨kv0, hkv0, heq⟩ | ⟨n, hn, hst⟩
      · obtain ⟨n, hn, hc⟩ := h3 kv0 hkv0
        rw [heq] at hn
        obtain ⟨n', hn', hkk⟩ := forall2_getElem? hk _ n hn
        exact ⟨n', hn', hkk.2.1 hc⟩
      · obtain ⟨n', hn', hkk⟩ := forall2_getElem? hk _ n hn
        exact ⟨n', hn', hkk.2.1 (h2 _ n hn (Or.inl hst))⟩
  induction h with
  | phase0 active h0 =>
    obtain ⟨kv, rest, k, n, _, _, hk, hid, hact⟩ := bestPartialCorrespondence_ok geo g1 g2 active h0
    obtain ⟨i1, i2, i3, _⟩ := initial_graph g1 kv.2.1 kv.2.2 k n hk hid active hact
    refine ⟨i3, ?_, by simp⟩
    intro j m hm hst
    by_cases hjk : j = k
    · subst hjk
      rw [i1] at hm
      injection hm with hm
      subst hm
      rfl
    · rw [(i2 j m hjk hm).1] at hst
      rcases hst with hst | hst <;> cases hst
  | phase1 s s' _ hg hb ih =>
    obtain ⟨a, ha⟩ := stage1Guard_active hg
    refine step s s' ih (stage1Body_keeps geo g1 g2 s s' a ha hb) ?_
    intro kv hkv
    obtain ⟨n, hn, hpn⟩ := nodeIndex_some ha
    simp only [decide_eq_true_eq] at hpn
    rcases stage1Body_needLink geo g1 g2 s s' a ha hb with hnl | ⟨v, hnl⟩
    · rw [hnl] at hkv
      exact Or.inl ⟨kv, hkv, rfl⟩
    · rw [hnl] at hkv
      rcases IntMap.mem_set _ _ _ _ hkv with hkv | hkv
      · exact Or.inr ⟨n, by rw [hkv]; exact hn, hpn⟩
      · exact Or.inl ⟨kv, hkv, rfl⟩
  | phase2 s s' index t ke _ hidx hb ih =>
    refine step s s' ih (reconnectStep_keeps geo g1 g2 _ index t ke s s' hb) ?_
    intro kv hkv
    obtain ⟨_, _, _, hnl, _⟩ := reconnectStep_ok geo g1 g2 _ index t ke s s' hb
    rw [hnl] at hkv
    rcases IntMap.mem_set _ _ _ _ hkv with hkv | hkv
    · obtain ⟨kv0, hkv0, heq⟩ := List.mem_map.1 hidx
      exact Or.inl ⟨kv0, hkv0, by rw [heq, hkv]⟩
    · exact Or.inl ⟨kv, hkv, rfl⟩
  | phase3 s s' _ hg hb ih =>
    obtain ⟨a, ha⟩ := active_of_flags hg
    refine step s s' ih (stage3Body_keeps _ s s' a ha hb) ?_
    intro kv hkv
    obtain ⟨n, hn, hpn⟩ := nodeIndex_some ha
    simp only [decide_eq_true_eq] at hpn
    obtain ⟨_, hnl, _⟩ := stage3Body_ok _ s s' a ha hb
    rcases hnl kv hkv with hkv | hkv
    · exact Or.inl ⟨kv, hkv, rfl⟩
    · exact Or.inr ⟨n, by rw [hkv]; exact hn, hpn⟩
  | final s _ ih => exact ih

/-! ## The run of `blend` stays within the reachable states -/

theorem stage1_reachable (geo : Geometry) (g1 g2 : Graph) (fuel : Nat) (s s' : BlendState)
    (hs : Reachable geo g1 g2 s)
    (h : stage1 geo g1 g2 (DynamicGraph.ofGraph g2) fuel s = .ok s') :
    Reachable geo g1 g2 s' := by
  induction fuel generalizing s with
  | zero =>
    unfold stage1 at h
    split at h
    · cases h
    · simp only [Except.ok.injEq] at h
      exact h ▸ hs
  | succ fuel ih =>
    unfold stage1 at h
    split at h
    · rename_i hg
      split at h
      · cases h
      · rename_i s1 hb
        exact ih s1 (Reachable.phase1 s s1 hs hg hb) h
    · simp only [Except.ok.injEq] at h
      exact h ▸ hs

theorem reconnect_reachable (geo : Geometry) (g1 g2 : Graph) (index t : Nat)
    (l : List (Nat × SimpleEdge)) (s s' : BlendState) (hs : Reachable geo g1 g2 s)
    (hidx : index ∈ s.needLink.map Prod.fst)
    (h : reconnect geo g1 g2 (DynamicGraph.ofGraph g2) index t l s = .ok s') :
    Reachable geo g1 g2 s' ∧ ∀ x ∈ s.needLink.map Prod.fst, x ∈ s'.needLink.map Prod.fst := by
  induction l generalizing s with
  | nil =>
    simp only [reconnect, Except.ok.injEq] at h
    subst h
    exact ⟨hs, fun x hx => hx⟩
  | cons ke rest ih =>
    unfold reconnect at h
    split at h
    · cases h
    · simp only [Except.ok.injEq] at h
      subst h
      exact ⟨hs, fun x hx => hx⟩
    · rename_i s1 hstep
      obtain ⟨_, _, _, hnl, _⟩ := reconnectStep_ok geo g1 g2 _ index t ke s s1 hstep
      have hkeys : ∀ x ∈ s.needLink.map Prod.fst, x ∈ s1.needLink.map Prod.fst := by
        intro x hx
        rw [hnl]
        exact IntMap.keys_set _ _ _ _ hx
      obtain ⟨h1, h2⟩ := ih s1 (Reachable.phase2 s s1 index t ke hs hidx hstep)
        (hkeys index hidx) h
      exact ⟨h1, fun x hx => h2 x (hkeys x hx)⟩

theorem repairNode_reachable (geo : Geometry) (g1 g2 : Graph) (index : Nat)
    (s s' : BlendState) (hs : Reachable geo g1 g2 s) (hidx : index ∈ s.needLink.map Prod.fst)
    (h : repairNode geo g1 g2 (DynamicGraph.ofGraph g2) index s = .ok s') :
    Reachable geo g1 g2 s' ∧ ∀ x ∈ s.needLink.map Prod.fst, x ∈ s'.needLink.map Prod.fst := by
  unfold repairNode at h
  split at h
  · cases h
  · split at h
    · cases h
    · split at h
      · cases h
      · exact reconnect_reachable geo g1 g2 index _ _ s s' hs hidx h

theorem stage2_reachable (geo : Geometry) (g1 g2 : Graph) (keys : List Nat)
    (s s' : BlendState) (hs : Reachable geo g1 g2 s)
    (hkeys : ∀ x ∈ keys, x ∈ s.needLink.map Prod.fst)
    (h : stage2 geo g1 g2 (DynamicGraph.ofGraph g2) keys s = .ok s') :
    Reachable geo g1 g2 s' := by
  induction keys generalizing s with
  | nil =>
    simp only [stage2, Except.ok.injEq] at h
    exact h ▸ hs
  | cons index rest ih =>
    unfold stage2 at h
    split at h
    · cases h
    · rename_i s1 hrep
      obtain ⟨h1, h2⟩ := repairNode_reachable geo g1 g2 index s s1 hs
        (hkeys index (List.mem_cons_self _ _)) hrep
      exact ih s1 h1 (fun x hx => h2 x (hkeys x (List.mem_cons_of_mem _ hx))) h

theorem stage3_reachable (geo : Geometry) (g1 g2 : Graph) (fuel : Nat) (s s' : BlendState)
    (hs : Reachable geo g1 g2 s) (h : stage3 (DynamicGraph.ofGraph g2) fuel s = .ok s') :
    Reachable geo g1 g2 s' := by
  induction fuel generalizing s with
  | zero =>
    unfold stage3 at h
    split at h
    · cases h
    · simp only [Except.ok.injEq] at h
      exact h ▸ hs
  | succ fuel ih =>
    unfold stage3 at h
    split at h
    · rename_i hg
      split at h
      · cases h
      · rename_i s1 hb
        exact ih s1 (Reachable.phase3 s s1 hs hg hb) h
    · simp only [Except.ok.injEq] at h
      exact h ▸ hs

/-- The state that `blend` returns is a reachable blend state. -/
theorem blend_reachable (geo : Geometry) (g1 g2 : Graph) (fuel : Nat) (s : BlendState)
    (h : blend geo g1 g2 fuel = .ok s) : Reachable geo g1 g2 s := by
  unfold blend at h
  split at h
  · cases h
  · rename_i active h0
    simp only at h
    split at h
    · cases h
    · rename_i s1 h1
      split at h
      · cases h
      · rename_i s2 h2
        have r1 := stage1_reachable geo g1 g2 fuel _ s1 (Reachable.phase0 active h0) h1
        have r2 := stage2_reachable geo g1 g2 _ s1 s2 r1 (fun x hx => hx) h2
        split at h
        · cases h
        · rename_i s3 h3
          simp only [Except.ok.injEq] at h
          subst h
          exact Reachable.final s3 (stage3_reachable geo g1 g2 fuel s2 s3 r2 h3)

/-- On a list of nodes that all have a state, the counts of the four states add up
to the length of the list. -/
theorem count_partition (l : List SimpleNode) (hst : ∀ n ∈ l, n.state.isSome) :
    (l.map (fun n => n.state)).count (some State.DONE) +
      (l.map (fun n => n.state)).count (some State.ACTIVE) +
      (l.map (fun n => n.state)).count (some State.SLEEP) +
      (l.map (fun n => n.state)).count (some State.DISCONNECTED) = l.length := by
  induction l with
  | nil => rfl
  | cons n rest ih =>
    have ih := ih (fun m hm => hst m (List.mem_cons_of_mem _ hm))
    have hn := hst n (List.mem_cons_self _ _)
    simp only [List.map_cons, List.count_cons, List.length_cons]
    cases hs : n.state with
    | none => rw [hs] at hn; cases hn
    | some st => cases st <;> simp <;> omega

theorem flagged_modifyNode (g : DynamicGraph) (i : Nat) (f : SimpleNode → SimpleNode)
    (hg : ∀ n ∈ g.nodes, n.state.isSome) (hf : ∀ n, n.state.isSome → (f n).state.isSome) :
    ∀ n ∈ (g.modifyNode i f).nodes, n.state.isSome := by
  intro n hn
  obtain ⟨j, hj⟩ := List.mem_iff_getElem?.1 hn
  rw [DynamicGraph.modifyNode_getElem?] at hj
  split at hj
  · cases hm : g.nodes[j]? with
    | none => rw [hm] at hj; cases hj
    | some m =>
      rw [hm] at hj
      simp only [Option.map_some', Option.some.injEq] at hj
      rw [← hj]
      exact hf m (hg m (List.getElem?_mem hm))
  · exact hg n (List.getElem?_mem hj)

theorem Stage1Move.flagged {n n' : SimpleNode} (h : Stage1Move n n')
    (hs : n.state.isSome) : n'.state.isSome := by
  rcases h.2.2 with h | h | ⟨h, _, _⟩
  · rw [h]; exact hs
  · rw [h]; rfl
  · rw [h]; rfl

/-- Every node of a reachable blend state has a state: `flagNodes` sets one on every
node in Phase 0, and every later write of `state` sets one. -/
theorem reachable_flagged (geo : Geometry) (g1 g2 : Graph) (s : BlendState)
    (h : Reachable geo g1 g2 s) : ∀ n ∈ s.active.nodes, n.state.isSome := by
  induction h with
  | phase0 active h0 =>
    obtain ⟨kv, rest, k, n, _, _, hk, hid, hact⟩ := bestPartialCorrespondence_ok geo g1 g2 active h0
    obtain ⟨i1, i2, _, _⟩ := initial_graph g1 kv.2.1 kv.2.2 k n hk hid active hact
    intro m hm
    obtain ⟨j, hj⟩ := List.mem_iff_getElem?.1 hm
    by_cases hjk : j = k
    · rw [hjk, i1] at hj
      injection hj with hj
      rw [← hj]
      rfl
    · rw [(i2 j m hjk hj).1]
      rfl
  | phase1 s s' _ hg hb ih =>
    obtain ⟨a, ha⟩ := stage1Guard_active hg
    obtain ⟨mid, hm, hs', _⟩ := stage1Body_moves geo g1 g2 s s' a ha hb
    rw [hs']
    unfold DynamicGraph.setState
    refine flagged_modifyNode _ _ _ ?_ (fun _ _ => rfl)
    intro m hm'
    obtain ⟨j, hj⟩ := List.mem_iff_getElem?.1 hm'
    obtain ⟨x, hx, hxm⟩ := forall2_getElem?_right hm j m hj
    exact hxm.flagged (ih x (List.getElem?_mem hx))
  | phase2 s s' index t ke _ _ hb ih =>
    obtain ⟨c, x, hact, _, _⟩ := reconnectStep_ok geo g1 g2 _ index t ke s s' hb
    rw [hact, DynamicGraph.addEdge_nodes]
    unfold DynamicGraph.setState DynamicGraph.setCorrespond
    exact flagged_modifyNode _ _ _ (flagged_modifyNode _ _ _ ih (fun _ h => h))
      (fun _ _ => rfl)
  | phase3 s s' _ hg hb ih =>
    obtain ⟨a, ha⟩ := active_of_flags hg
    obtain ⟨hnodes, _, _⟩ := stage3Body_ok _ s s' a ha hb
    rw [hnodes]
    unfold DynamicGraph.setState
    exact flagged_modifyNode _ _ _ ih (fun _ _ => rfl)
  | final s _ ih => exact ih

/-! ## C6: the four states partition the nodes -/

/-- C6: in every reachable blend state (after Phase 0, after each step of the
stages 1, 2 and 3, and when `blend` returns) every node of the working graph has the
attribute `state`, with one of the four values `SLEEP`, `ACTIVE`, `DONE` and
`DISCONNECTED`; so the counts of the four states add up to the number of nodes of the
working graph, which is the number of nodes of the source graph. -/
theorem state_counts_partition (geo : Geometry) (g1 g2 : Graph) (s : BlendState)
    (h : Reachable geo g1 g2 s) :
    (∀ n ∈ s.active.nodes, n.state = some State.SLEEP ∨ n.state = some State.ACTIVE ∨
      n.state = some State.DONE ∨ n.state = some State.DISCONNECTED) ∧
    s.active.count State.DONE + s.active.count State.ACTIVE + s.active.count State.SLEEP +
      s.active.count State.DISCONNECTED = s.active.nodes.length ∧
    s.active.nodes.length = g1.nodes.length := by
  have hfl := reachable_flagged geo g1 g2 s h
  refine ⟨?_, count_partition s.active.nodes hfl, ?_⟩
  · intro n hn
    have := hfl n hn
    cases hs : n.state with
    | none => rw [hs] at this; cases this
    | some st => cases st <;> simp
  · have := congrArg List.length (reachable_invariant geo g1 g2 s h).1
    simpa using this

/-- C6, witness: the state of the run on `forkSource` and `fanTarget` after the first
stage 1 iteration. -/
theorem state_counts_partition_witness :
    (∀ n ∈ forkAfterFirst.active.nodes, n.state = some State.SLEEP ∨
      n.state = some State.ACTIVE ∨ n.state = some State.DONE ∨
      n.state = some State.DISCONNECTED) ∧
    forkAfterFirst.active.count State.DONE + forkAfterFirst.active.count State.ACTIVE +
      forkAfterFirst.active.count State.SLEEP +
      forkAfterFirst.active.count State.DISCONNECTED = forkAfterFirst.active.nodes.length ∧
    forkAfterFirst.active.nodes.length = forkSource.nodes.length :=
  state_counts_partition axisGeometry forkSource fanTarget forkAfterFirst
    (Reachable.phase1 ⟨forkInitial, [], 0⟩ forkAfterFirst
      (Reachable.phase0 forkInitial (by decide!)) (by decide!) (by decide!))

/-! ## C9: `correspond` is set on `ACTIVE` and `DONE` nodes -/

/-- C9: in every reachable blend state every node in state `ACTIVE` or `DONE` has a
`correspond` value; so has the `ACTIVE` node that the stages 1 and 3 pick, and so has
every node that is a key of `needLink`, the deficit nodes of stage 2. -/
theorem correspond_set_when_read (geo : Geometry) (g1 g2 : Graph) (s : BlendState)
    (h : Reachable geo g1 g2 s) :
    (∀ n ∈ s.active.nodes, (n.state = some State.ACTIVE ∨ n.state = some State.DONE) →
      n.correspond.isSome) ∧
    (∀ a, s.active.nodeIndex (fun n => n.state = some State.ACTIVE) = some a →
      ∃ n, s.active.nodes[a]? = some n ∧ n.correspond.isSome) ∧
    (∀ index ∈ s.needLink.map Prod.fst,
      ∃ n, s.active.nodes[index]? = some n ∧ n.correspond.isSome) := by
  obtain ⟨_, h2, h3⟩ := reachable_invariant geo g1 g2 s h
  refine ⟨?_, ?_, ?_⟩
  · intro n hn hst
    obtain ⟨j, hj, hjn⟩ := List.getElem_of_mem hn
    exact h2 j n (by rw [List.getElem?_eq_getElem hj, hjn]) hst
  · intro a ha
    obtain ⟨n, hn, hpn⟩ := nodeIndex_some ha
    simp only [decide_eq_true_eq] at hpn
    exact ⟨n, hn, h2 a n hn (Or.inl hpn)⟩
  · intro index hidx
    obtain ⟨kv, hkv, heq⟩ := List.mem_map.1 hidx
    obtain ⟨n, hn, hc⟩ := h3 kv hkv
    exact ⟨n, heq ▸ hn, hc⟩

/-- C9, witness: the state that `blend` returns on `forkSource` and `fanTarget`, with
the deficit node `A` in `needLink`. -/
theorem correspond_set_when_read_witness :
    (∀ n ∈ forkFinal.active.nodes, (n.state = some State.ACTIVE ∨ n.state = some State.DONE) →
      n.correspond.isSome) ∧
    (∀ a, forkFinal.active.nodeIndex (fun n => n.state = some State.ACTIVE) = some a →
      ∃ n, forkFinal.active.nodes[a]? = some n ∧ n.correspond.isSome) ∧
    (∀ index ∈ forkFinal.needLink.map Prod.fst,
      ∃ n, forkFinal.active.nodes[index]? = some n ∧ n.correspond.isSome) :=
  correspond_set_when_read axisGeometry forkSource fanTarget forkFinal
    (blend_reachable axisGeometry forkSource fanTarget 3 forkFinal (by decide!))

/-! ## Stage 1, link abundance: edges and valence -/

theorem valence_removeEdge_other (g : DynamicGraph) (a x o : Nat) (hoa : o ≠ a) (hox : o ≠ x) :
    (g.removeEdge a x).valence o = g.valence o := by
  unfold DynamicGraph.valence DynamicGraph.removeEdge
  simp only
  rw [List.countP_filter]
  apply List.countP_congr
  intro e _
  have hj : e.touches o = true → e.joins a x = false := by
    intro ht
    simp only [SimpleEdge.touches, Bool.or_eq_true, beq_iff_eq] at ht
    cases hjx : e.joins a x with
    | false => rfl
    | true =>
      simp only [SimpleEdge.joins, Bool.or_eq_true, Bool.and_eq_true, beq_iff_eq] at hjx
      omega
  cases hto : e.touches o with
  | false => simp [hto]
  | true => simp [hto, hj hto]

theorem detach_valence (g : DynamicGraph) (a x o : Nat) :
    (detach g a x).valence o = (g.removeEdge a x).valence o := by
  unfold DynamicGraph.valence
  rw [detach_edges]
  rfl

theorem detach_flags (g : DynamicGraph) (a x : Nat) (n : SimpleNode) (hx : g.nodes[x]? = some n)
    (hv : (detach g a x).valence x = 0) :
    ∃ n', (detach g a x).nodes[x]? = some n' ∧ n'.state = some State.DISCONNECTED := by
  rw [detach_valence] at hv
  unfold detach
  simp only [hv, if_true]
  unfold DynamicGraph.setState
  rw [DynamicGraph.modifyNode_getElem?, if_pos rfl, DynamicGraph.removeEdge_nodes, hx]
  exact ⟨_, rfl, rfl⟩

theorem Stage1Move.disconnected {n n' : SimpleNode} (h : Stage1Move n n')
    (hs : n.state = some State.DISCONNECTED) : n'.state = some State.DISCONNECTED := by
  rcases h.2.2 with h | h | ⟨_, h, _⟩
  · exact h.trans hs
  · exact h
  · rw [hs] at h; rcases h with h | h <;> cases h

theorem moves_disconnected {l l' : List SimpleNode} (h : List.Forall₂ Stage1Move l l')
    (o : Nat) (hd : ∃ n, l[o]? = some n ∧ n.state = some State.DISCONNECTED) :
    ∃ n', l'[o]? = some n' ∧ n'.state = some State.DISCONNECTED := by
  obtain ⟨n, hn, hs⟩ := hd
  obtain ⟨n', hn', hm⟩ := forall2_getElem? h o n hn
  exact ⟨n', hn', hm.disconnected hs⟩

/-- A node other than `a` that the removal loop leaves without an edge either had no
edge before the loop or is `DISCONNECTED` after it. -/
theorem removeExcess_isolated (id : String) (a k : Nat) (corresp rest : List ScalarLinksPair)
    (g g' : DynamicGraph) (h : removeExcess id a k corresp g = .ok (rest, g')) (o : Nat)
    (hoa : o ≠ a) (hv : g'.valence o = 0) :
    g.valence o = 0 ∨ ∃ n', g'.nodes[o]? = some n' ∧ n'.state = some State.DISCONNECTED := by
  induction k generalizing corresp g with
  | zero =>
    simp only [removeExcess, Except.ok.injEq, Prod.mk.injEq] at h
    rw [← h.2] at hv
    exact Or.inl hv
  | succ k ih =>
    unfold removeExcess at h
    split at h
    · cases h
    · simp only at h
      split at h
      · cases h
      · rename_i x hx
        rcases ih _ _ h with h0 | hd
        · by_cases hox : o = x
          · subst hox
            obtain ⟨n, hn, _⟩ := nodeIndex_some hx
            exact Or.inr (moves_disconnected (removeExcess_moves _ _ _ _ _ _ _ h) o
              (detach_flags g a o n hn h0))
          · rw [detach_valence, valence_removeEdge_other g a x o hoa hox] at h0
            exact Or.inl h0
        · exact Or.inr hd

theorem joinsRemoved_congr {g g' : DynamicGraph} (h : List.Forall₂ Stage1Move g.nodes g'.nodes)
    (id : String) (a : Nat) (l : List ScalarLinksPair) (e : SimpleEdge) :
    joinsRemoved g' id a l e = joinsRemoved g id a l e := by
  unfold joinsRemoved
  congr 1
  funext sp
  rw [nodeIndex_original_of_moves h]

theorem joinsRemoved_append (g : DynamicGraph) (id : String) (a : Nat)
    (l : List ScalarLinksPair) (sp : ScalarLinksPair) (x : Nat) (e : SimpleEdge)
    (hx : g.nodeIndex (fun n => n.original = sp.2.1.otherNode id) = some x) :
    joinsRemoved g id a (l ++ [sp]) e = (joinsRemoved g id a l e || e.joins a x) := by
  unfold joinsRemoved
  simp [List.any_append, hx]

/-- The removal loop succeeds only on a list of at least `k` entries; it returns the
list without its last `k` entries and removes the edges that join `a` to the far
endpoints of those entries. -/
theorem removeExcess_spec (id : String) (a k : Nat) (corresp rest : List ScalarLinksPair)
    (g g' : DynamicGraph) (h : removeExcess id a k corresp g = .ok (rest, g')) :
    k ≤ corresp.length ∧ rest = corresp.take (corresp.length - k) ∧
    g'.edges = g.edges.filter
      (fun e => !joinsRemoved g id a (corresp.drop (corresp.length - k)) e) := by
  induction k generalizing corresp g with
  | zero =>
    simp only [removeExcess, Except.ok.injEq, Prod.mk.injEq] at h
    obtain ⟨h1, h2⟩ := h
    subst h1 h2
    refine ⟨Nat.zero_le _, by simp, ?_⟩
    simp [joinsRemoved]
  | succ k ih =>
    unfold removeExcess at h
    split at h
    · cases h
    · rename_i sp hsp
      simp only at h
      split at h
      · cases h
      · rename_i x hx
        obtain ⟨init, rfl⟩ := List.getLast?_eq_some_iff.1 hsp
        rw [List.dropLast_concat] at h
        obtain ⟨h1, h2, h3⟩ := ih _ _ h
        have e1 : (init ++ [sp]).length - (k + 1) = init.length - k := by
          simp
        refine ⟨by simp; omega, ?_, ?_⟩
        · rw [h2, e1, List.take_append_of_le_length (by omega)]
        · rw [h3, detach_edges, List.filter_filter, e1,
            List.drop_append_of_le_length (by omega)]
          apply List.filter_congr
          intro e _
          rw [joinsRemoved_append g id a _ sp x e hx, joinsRemoved_congr (detach_moves g a x)]
          simp [Bool.and_comm]

/-- Every far endpoint (other than `a`) of a removed entry that is left without an
edge is `DISCONNECTED` after the removal loop. -/
theorem removeExcess_flags (id : String) (a k : Nat) (corresp rest : List ScalarLinksPair)
    (g g' : DynamicGraph) (h : removeExcess id a k corresp g = .ok (rest, g'))
    (sp : ScalarLinksPair) (hsp : sp ∈ corresp.drop (corresp.length - k)) (o : Nat)
    (ho : g.nodeIndex (fun n => n.original = sp.2.1.otherNode id) = some o) (hoa : o ≠ a)
    (hv : g'.valence o = 0) :
    ∃ n', g'.nodes[o]? = some n' ∧ n'.state = some State.DISCONNECTED := by
  induction k generalizing corresp g with
  | zero => simp at hsp
  | succ k ih =>
    unfold removeExcess at h
    split at h
    · cases h
    · rename_i last hlast
      simp only at h
      split at h
      · cases h
      · rename_i x hx
        obtain ⟨init, rfl⟩ := List.getLast?_eq_some_iff.1 hlast
        rw [List.dropLast_concat] at h
        have hk := (removeExcess_spec id a k _ rest _ g' h).1
        have e1 : (init ++ [last]).length - (k + 1) = init.length - k := by
          simp
        rw [e1, List.drop_append_of_le_length (by omega), List.mem_append,
          List.mem_singleton] at hsp
        rcases hsp with hsp | hsp
        · apply ih _ _ h hsp
          rw [nodeIndex_original_of_moves (detach_moves g a x)]
          exact ho
        · subst hsp
          rw [hx] at ho
          injection ho with ho
          subst ho
          rcases removeExcess_isolated id a k _ rest _ g' h x hoa hv with h0 | hd
          · obtain ⟨n, hn, _⟩ := nodeIndex_some hx
            exact moves_disconnected (removeExcess_moves _ _ _ _ _ _ _ h) x
              (detach_flags g a x n hn h0)
          · exact hd

theorem Stage1Move.not_sleep {n n' : SimpleNode} (h : Stage1Move n n')
    (hs : n.state ≠ some State.SLEEP) : n'.state ≠ some State.SLEEP := by
  rcases h.2.2 with h | h | ⟨h, _, _⟩
  · rw [h]; exact hs
  · rw [h]; exact fun hc => by cases hc
  · rw [h]; exact fun hc => by cases hc

/-- After the propagation loop no far endpoint of a listed entry is `SLEEP`. -/
theorem propagateAbundance_promotes (id tid : String) (l : List ScalarLinksPair)
    (g g' : DynamicGraph) (h : propagateAbundance id tid l g = .ok g')
    (sp : ScalarLinksPair) (hsp : sp ∈ l) (o : Nat)
    (ho : g.nodeIndex (fun n => n.original = sp.2.1.otherNode id) = some o) :
    ∃ n', g'.nodes[o]? = some n' ∧ n'.state ≠ some State.SLEEP := by
  induction l generalizing g with
  | nil => cases hsp
  | cons hd rest ih =>
    unfold propagateAbundance at h
    simp only at h
    split at h
    · cases h
    · rename_i x hx
      split at h
      · cases h
      · rename_i other hother
        split at h
        · cases h
        · rename_i linkTarget _
          rw [abundance_update g x other _ hother] at h
          have hstep : List.Forall₂ Stage1Move g.nodes (g.modifyNode x (fun n =>
              { n with
                state := if n.state ≠ some State.DONE ∧ n.state ≠ some State.DISCONNECTED
                  then some State.ACTIVE else n.state,
                correspond := some (linkTarget.otherNode tid) })).nodes := by
            apply DynamicGraph.modifyNode_forall2 Stage1Move.refl
            intro n _
            refine ⟨rfl, fun _ => rfl, ?_⟩
            by_cases hc : n.state ≠ some State.DONE ∧ n.state ≠ some State.DISCONNECTED
            · rcases State.pending_cases n.state hc.1 hc.2 with hs | hs
              · exact Or.inr (Or.inr ⟨by rw [if_pos hc], hs, rfl⟩)
              · exact Or.inl (by simp [hs])
            · exact Or.inl (by simp only [hc, if_false])
          rcases List.mem_cons.1 hsp with hsp | hsp
          · subst hsp
            rw [hx] at ho
            injection ho with ho
            subst ho
            have hnode : ∃ m, (g.modifyNode x (fun n =>
                { n with
                  state := if n.state ≠ some State.DONE ∧ n.state ≠ some State.DISCONNECTED
                    then some State.ACTIVE else n.state,
                  correspond := some (linkTarget.otherNode tid) })).nodes[x]? = some m ∧ m.state ≠ some State.SLEEP := by
              rw [DynamicGraph.modifyNode_getElem?, if_pos rfl, hother]
              refine ⟨_, rfl, ?_⟩
              by_cases hc : other.state ≠ some State.DONE ∧ other.state ≠ some State.DISCONNECTED
              · simp [hc]
              · simp only [hc, if_false]
                intro hs
                exact hc ⟨by rw [hs]; simp, by rw [hs]; simp⟩
            obtain ⟨m, hm, hms⟩ := hnode
            obtain ⟨m', hm', hmv⟩ := forall2_getElem? (propagateAbundance_moves _ _ _ _ _ h).1 x m hm
            exact ⟨m', hm', hmv.not_sleep hms⟩
          · apply ih _ h hsp
            rw [nodeIndex_original_of_moves hstep]
            exact ho

/-- The two shapes of a completed stage 1 iteration on the picked node `a`: with more
source links than target links the removal loop and the propagation loop run, in
the other cases no edge changes. -/
theorem stage1Body_cases (geo : Geometry) (g1 g2 : Graph) (s s' : BlendState) (a : Nat)
    (n : SimpleNode) (ha : s.active.nodeIndex (fun n => n.state = some State.ACTIVE) = some a)
    (hn : s.active.nodes[a]? = some n) (h : stage1Body geo g1 g2 s = .ok s') :
    ((g2.linksCoords n.strCorrespond).length < (g1.linksCoords n.original).length ∧
      ∃ (rest : List ScalarLinksPair) (mid g' : DynamicGraph),
        removeExcess n.original a
          ((g1.linksCoords n.original).length - (g2.linksCoords n.strCorrespond).length)
          (badCorrespondence geo g1 g2 n.original n.strCorrespond).1 s.active = .ok (rest, mid) ∧
        propagateAbundance n.original n.strCorrespond rest mid = .ok g' ∧
        s'.active = g'.setState a State.DONE) ∨
    (¬ (g2.linksCoords n.strCorrespond).length < (g1.linksCoords n.original).length ∧
      s'.active.edges = s.active.edges) := by
  unfold stage1Body at h
  rw [ha] at h
  simp only [hn] at h
  split at h
  · cases h
  · rename_i s1 hrec
    simp only [Except.ok.injEq] at h
    subst h
    unfold reconcile at hrec
    simp only [badCorrespondence] at hrec ⊢
    split at hrec
    · rename_i hpos
      have hlt : (g2.linksCoords n.strCorrespond).length < (g1.linksCoords n.original).length := by
        omega
      split at hrec
      · cases hrec
      · rename_i rest mid hrem
        split at hrec
        · cases hrec
        · rename_i g' hprop
          simp only [Except.ok.injEq] at hrec
          subst hrec
          refine Or.inl ⟨hlt, rest, mid, g', ?_, hprop, rfl⟩
          rw [← hrem]
          congr 1
          omega
    · rename_i hpos
      have hlt : ¬ (g2.linksCoords n.strCorrespond).length < (g1.linksCoords n.original).length := by
        omega
      refine Or.inr ⟨hlt, ?_⟩
      unfold DynamicGraph.setState
      rw [DynamicGraph.modifyNode_edges]
      split at hrec
      · split at hrec
        · cases hrec
        · rename_i g' hprop
          simp only [Except.ok.injEq] at hrec
          subst hrec
          exact (propagateDeficiency_moves _ _ _ _ _ hprop).2
      · simp only [Except.ok.injEq] at hrec
        subst hrec
        rfl

theorem keeps_originals {l l' : List SimpleNode} (h : List.Forall₂ Keeps l l') :
    l'.map (fun n => n.original) = l.map (fun n => n.original) := by
  induction h with
  | nil => rfl
  | cons hab _ ih => simp [hab.1, ih]

theorem setState_getElem?_ne (g : DynamicGraph) (a o : Nat) (st : State) (h : o ≠ a) :
    (g.setState a st).nodes[o]? = g.nodes[o]? := by
  unfold DynamicGraph.setState
  rw [DynamicGraph.modifyNode_getElem?, if_neg (Ne.symm h)]

theorem setState_valence (g : DynamicGraph) (a o : Nat) (st : State) :
    (g.setState a st).valence o = g.valence o := by
  unfold DynamicGraph.valence DynamicGraph.setState
  rw [DynamicGraph.modifyNode_edges]

theorem valence_congr {g g' : DynamicGraph} (h : g'.edges = g.edges) (o : Nat) :
    g'.valence o = g.valence o := by
  unfold DynamicGraph.valence
  rw [h]

theorem sortQMapByValue_length (dists : List (QPairLink × WithTop ℚ)) :
    (sortQMapByValue dists).length = dists.length := by
  unfold sortQMapByValue
  rw [List.length_insertionSort, List.length_map]

theorem sortQMapByValue_sorted (dists : List (QPairLink × WithTop ℚ)) :
    (sortQMapByValue dists).Pairwise (fun a b => a.1 ≤ b.1) := by
  unfold sortQMapByValue
  haveI : IsTotal ScalarLinksPair (fun a b => a.1 ≤ b.1) := ⟨fun a b => le_total a.1 b.1⟩
  haveI : IsTrans ScalarLinksPair (fun a b => a.1 ≤ b.1) := ⟨fun _ _ _ h1 h2 => le_trans h1 h2⟩
  exact List.sorted_insertionSort (fun a b : ScalarLinksPair => a.1 ≤ b.1) _

theorem badCorrespondence_length (geo : Geometry) (g1 g2 : Graph) (id tid : String) :
    (badCorrespondence geo g1 g2 id tid).1.length = (g1.linksCoords id).length := by
  unfold badCorrespondence
  simp only
  rw [sortQMapByValue_length]
  unfold pairDists
  rw [List.length_map]

/-- In an over-linked iteration, every far endpoint other than `a` of one of the
last entries of the sorted list that has no edge after the iteration is
`DISCONNECTED` after it. -/
theorem abundance_isolated_flagged (id tid : String) (a k : Nat)
    (corresp rest : List ScalarLinksPair) (g mid g' : DynamicGraph)
    (hrem : removeExcess id a k corresp g = .ok (rest, mid))
    (hprop : propagateAbundance id tid rest mid = .ok g') (sp : ScalarLinksPair)
    (hsp : sp ∈ corresp.drop (corresp.length - k)) (o : Nat)
    (ho : g.nodeIndex (fun n => n.original = sp.2.1.otherNode id) = some o) (hoa : o ≠ a)
    (hv : (g'.setState a State.DONE).valence o = 0) :
    ∃ n', (g'.setState a State.DONE).nodes[o]? = some n' ∧ n'.state = some State.DISCONNECTED := by
  rw [setState_valence, valence_congr (propagateAbundance_moves _ _ _ _ _ hprop).2] at hv
  rw [setState_getElem?_ne _ _ _ _ hoa]
  exact moves_disconnected (propagateAbundance_moves _ _ _ _ _ hprop).1 o
    (removeExcess_flags id a k corresp rest g mid hrem sp hsp o ho hoa hv)

/-! ## C7: removing edges keeps the nodes -/

/-- C7: a completed over-linked stage 1 iteration (the picked node `a` mirrors a part
with more links than its target part has) leaves the node set of the working graph
as it was, and every neighbour of `a` reached by one of the removed links (the last
`diff` entries of the sorted list) that has no incident edge after the iteration is
in state `DISCONNECTED`. -/
theorem stage1Body_removal_keeps_nodes (geo : Geometry) (g1 g2 : Graph) (s s' : BlendState)
    (a : Nat) (n : SimpleNode) (corresp : List ScalarLinksPair) (m : Nat)
    (ha : s.active.nodeIndex (fun n => n.state = some State.ACTIVE) = some a)
    (hn : s.active.nodes[a]? = some n)
    (hc : corresp = (badCorrespondence geo g1 g2 n.original n.strCorrespond).1)
    (hm : m = (g2.linksCoords n.strCorrespond).length)
    (hd : m < (g1.linksCoords n.original).length)
    (h : stage1Body geo g1 g2 s = .ok s') :
    s'.active.nodes.map (fun x => x.original) = s.active.nodes.map (fun x => x.original) ∧
    s'.active.nodes.length = s.active.nodes.length ∧
    ∀ sp ∈ corresp.drop m, ∀ o,
      s.active.nodeIndex (fun x => x.original = sp.2.1.otherNode n.original) = some o →
      o ≠ a → s'.active.valence o = 0 →
      ∃ n', s'.active.nodes[o]? = some n' ∧ n'.state = some State.DISCONNECTED := by
  have hk := stage1Body_keeps geo g1 g2 s s' a ha h
  refine ⟨keeps_originals hk, hk.length_eq.symm, ?_⟩
  intro sp hsp o ho hoa hv
  rcases stage1Body_cases geo g1 g2 s s' a n ha hn h with ⟨_, rest, mid, g', hrem, hprop, hs'⟩ | ⟨hno, _⟩
  · rw [hs'] at hv ⊢
    have hlen := badCorrespondence_length geo g1 g2 n.original n.strCorrespond
    refine abundance_isolated_flagged _ _ a _ _ rest s.active mid g' hrem hprop sp ?_ o ho hoa hv
    have e : (badCorrespondence geo g1 g2 n.original n.strCorrespond).1.length -
        ((g1.linksCoords n.original).length - (g2.linksCoords n.strCorrespond).length) = m := by
      rw [hlen, hm]
      omega
    rw [e, ← hc]
    exact hsp
  · exact absurd (hm ▸ hd) hno

/-- C7, witness: the first iteration of the run on `starSource` and `pairTarget`,
where `A` has three links and `T1` has one. -/
theorem stage1Body_removal_keeps_nodes_witness :
    starAfterFirst.active.nodes.map (fun x => x.original) =
      starInitial.nodes.map (fun x => x.original) ∧
    starAfterFirst.active.nodes.length = starInitial.nodes.length ∧
    ∀ sp ∈ (badCorrespondence axisGeometry starSource pairTarget "A" "T1").1.drop 1, ∀ o,
      starInitial.nodeIndex (fun x => x.original = sp.2.1.otherNode "A") = some o →
      o ≠ 0 → starAfterFirst.active.valence o = 0 →
      ∃ n', starAfterFirst.active.nodes[o]? = some n' ∧ n'.state = some State.DISCONNECTED :=
  stage1Body_removal_keeps_nodes axisGeometry starSource pairTarget ⟨starInitial, [], 0⟩
    starAfterFirst 0 ⟨some State.ACTIVE, "A", some "T1"⟩ _ 1 (by decide!) (by decide!) rfl
    (by decide!) (by decide!) (by decide!)

/-! ## C8: nodes without edges -/

/-- C8, counterexample: `blend` on two graphs of one curve each, without links,
returns a working graph whose only node has no incident edge and is `DONE`, not
`DISCONNECTED`. -/
theorem blend_edgeless_node_done :
    blend axisGeometry soloSource soloTarget 1 = .ok soloFinal ∧
    soloFinal.active.valence 0 = 0 ∧
    soloFinal.active.nodes[0]? = some ⟨some State.DONE, "A", some "T"⟩ := by
  decide!

/-- C8, as amended: after a completed stage 1 iteration on the picked node `a`, every
node other than `a` that had an incident edge before the iteration and has none
after it is in state `DISCONNECTED`. -/
theorem stage1Body_isolated_disconnected (geo : Geometry) (g1 g2 : Graph)
    (s s' : BlendState) (a o : Nat)
    (ha : s.active.nodeIndex (fun n => n.state = some State.ACTIVE) = some a)
    (h : stage1Body geo g1 g2 s = .ok s') (hoa : o ≠ a) (hpos : 0 < s.active.valence o)
    (hv : s'.active.valence o = 0) :
    ∃ n', s'.active.nodes[o]? = some n' ∧ n'.state = some State.DISCONNECTED := by
  obtain ⟨n, hn, _⟩ := nodeIndex_some ha
  rcases stage1Body_cases geo g1 g2 s s' a n ha hn h with ⟨_, rest, mid, g', hrem, hprop, hs'⟩ | ⟨_, he⟩
  · rw [hs'] at hv ⊢
    rw [setState_valence, valence_congr (propagateAbundance_moves _ _ _ _ _ hprop).2] at hv
    rw [setState_getElem?_ne _ _ _ _ hoa]
    rcases removeExcess_isolated _ _ _ _ _ _ _ hrem o hoa hv with h0 | hdisc
    · omega
    · exact moves_disconnected (propagateAbundance_moves _ _ _ _ _ hprop).1 o hdisc
  · rw [valence_congr he] at hv
    omega

/-- C8, witness: in the first iteration of the run on `starSource` and `pairTarget`
the node `C` loses its only edge. -/
theorem stage1Body_isolated_disconnected_witness :
    ∃ n', starAfterFirst.active.nodes[2]? = some n' ∧ n'.state = some State.DISCONNECTED :=
  stage1Body_isolated_disconnected axisGeometry starSource pairTarget ⟨starInitial, [], 0⟩
    starAfterFirst 0 2 (by decide!) (by decide!) (by decide) (by decide!) (by decide!)

/-! ## C10: the over-linked iteration -/

theorem detach_getElem?_ne (g : DynamicGraph) (a x o : Nat) (h : o ≠ x) :
    (detach g a x).nodes[o]? = g.nodes[o]? := by
  unfold detach
  simp only
  split
  · rw [setState_getElem?_ne _ _ _ _ h]
    rfl
  · rfl

theorem removeExcess_untouched (id : String) (a k : Nat) (corresp rest : List ScalarLinksPair)
    (g g' : DynamicGraph) (h : removeExcess id a k corresp g = .ok (rest, g')) (o : Nat)
    (ho : ∀ sp ∈ corresp.drop (corresp.length - k),
      g.nodeIndex (fun n => n.original = sp.2.1.otherNode id) ≠ some o) :
    g'.nodes[o]? = g.nodes[o]? := by
  induction k generalizing corresp g with
  | zero =>
    simp only [removeExcess, Except.ok.injEq, Prod.mk.injEq] at h
    rw [h.2]
  | succ k ih =>
    unfold removeExcess at h
    split at h
    · cases h
    · rename_i last hlast
      simp only at h
      split at h
      · cases h
      · rename_i x hx
        obtain ⟨init, rfl⟩ := List.getLast?_eq_some_iff.1 hlast
        rw [List.dropLast_concat] at h
        have hk := (removeExcess_spec id a k _ rest _ g' h).1
        have e1 : (init ++ [last]).length - (k + 1) = init.length - k := by
          simp
        rw [e1, List.drop_append_of_le_length (by omega)] at ho
        have hxo : o ≠ x := by
          intro hox
          apply ho last (List.mem_append_right _ (List.mem_singleton_self _))
          rw [hx, hox]
        rw [ih _ _ h, detach_getElem?_ne _ _ _ _ hxo]
        intro sp hsp
        rw [nodeIndex_original_of_moves (detach_moves g a x)]
        exact ho sp (List.mem_append_left _ hsp)

theorem propagateAbundance_assigns (g0 : DynamicGraph) (id tid : String)
    (full l : List ScalarLinksPair) (g g' : DynamicGraph) (hsub : ∀ sp ∈ l, sp ∈ full)
    (hidx : ∀ sp : ScalarLinksPair,
      g.nodeIndex (fun n => n.original = sp.2.1.otherNode id) =
        g0.nodeIndex (fun n => n.original = sp.2.1.otherNode id))
    (h : propagateAbundance id tid l g = .ok g') :
    (∀ o x, g.nodes[o]? = some x → promotedBy g0 id tid full o x →
      ∃ x', g'.nodes[o]? = some x' ∧ promotedBy g0 id tid full o x') ∧
    (∀ sp ∈ l, ∀ o x, g0.nodeIndex (fun n => n.original = sp.2.1.otherNode id) = some o →
      g.nodes[o]? = some x → x.state ≠ some State.DONE → x.state ≠ some State.DISCONNECTED →
      ∃ x', g'.nodes[o]? = some x' ∧ promotedBy g0 id tid full o x') := by
  induction l generalizing g with
  | nil =>
    simp only [propagateAbundance, Except.ok.injEq] at h
    subst h
    exact ⟨fun o x hx hp => ⟨x, hx, hp⟩, fun sp hsp => absurd hsp (List.not_mem_nil _)⟩
  | cons sp rest ih =>
    unfold propagateAbundance at h
    simp only at h
    split at h
    · cases h
    · rename_i k hk
      split at h
      · cases h
      · rename_i other hother
        have hrest : ∀ sp' ∈ rest, sp' ∈ full := fun sp' hsp' =>
          hsub sp' (List.mem_cons_of_mem _ hsp')
        split at h
        · cases h
        · rename_i linkTarget hlt
          rw [abundance_update g k other _ hother] at h
          have hmove : List.Forall₂ Stage1Move g.nodes (g.modifyNode k (fun n =>
              { n with
                state := if n.state ≠ some State.DONE ∧ n.state ≠ some State.DISCONNECTED
                  then some State.ACTIVE else n.state,
                correspond := some (linkTarget.otherNode tid) })).nodes := by
            apply DynamicGraph.modifyNode_forall2 Stage1Move.refl
            intro n _
            refine ⟨rfl, fun _ => rfl, ?_⟩
            by_cases hc : n.state ≠ some State.DONE ∧ n.state ≠ some State.DISCONNECTED
            · rcases State.pending_cases n.state hc.1 hc.2 with hs | hs
              · exact Or.inr (Or.inr ⟨by rw [if_pos hc], hs, rfl⟩)
              · exact Or.inl (by simp [hs])
            · exact Or.inl (by simp only [hc, if_false])
          have hidx' : ∀ sp' : ScalarLinksPair,
              (g.modifyNode k (fun n =>
                { n with
                  state := if n.state ≠ some State.DONE ∧ n.state ≠ some State.DISCONNECTED
                    then some State.ACTIVE else n.state,
                  correspond := some (linkTarget.otherNode tid) })).nodeIndex
                (fun n => n.original = sp'.2.1.otherNode id) =
              g0.nodeIndex (fun n => n.original = sp'.2.1.otherNode id) := by
            intro sp'
            rw [nodeIndex_original_of_moves hmove]
            exact hidx sp'
          obtain ⟨ih1, ih2⟩ := ih _ hrest hidx' h
          have hk0 : g0.nodeIndex (fun n => n.original = sp.2.1.otherNode id) = some k := by
            rw [← hidx sp]
            exact hk
          have hnew : ∀ y : SimpleNode, y.state ≠ some State.DONE →
              y.state ≠ some State.DISCONNECTED →
              promotedBy g0 id tid full k
                { y with
                  state := if y.state ≠ some State.DONE ∧ y.state ≠ some State.DISCONNECTED
                    then some State.ACTIVE else y.state,
                  correspond := some (linkTarget.otherNode tid) } :=
            fun y h1 h2 => ⟨by rw [if_pos ⟨h1, h2⟩], sp, hsub sp (List.mem_cons_self _ _),
              linkTarget, hk0, hlt, rfl⟩
          refine ⟨?_, ?_⟩
          · intro o x hx hp
            by_cases hko : k = o
            · subst hko
              exact ih1 k _ (by rw [DynamicGraph.modifyNode_getElem?, if_pos rfl, hx]; rfl)
                (hnew x (by rw [hp.1]; simp) (by rw [hp.1]; simp))
            · exact ih1 o x (by rw [DynamicGraph.modifyNode_getElem?, if_neg hko]; exact hx) hp
          · intro sp0 hsp0 o x ho hx hnd hndc
            rcases List.mem_cons.1 hsp0 with hsp0 | hsp0
            · subst hsp0
              rw [hk0] at ho
              injection ho with ho
              subst ho
              exact ih1 k _ (by rw [DynamicGraph.modifyNode_getElem?, if_pos rfl, hx]; rfl)
                (hnew x hnd hndc)
            · by_cases hko : k = o
              · subst hko
                exact ih1 k _ (by rw [DynamicGraph.modifyNode_getElem?, if_pos rfl, hx]; rfl)
                  (hnew x hnd hndc)
              · exact ih2 sp0 hsp0 o x ho
                  (by rw [DynamicGraph.modifyNode_getElem?, if_neg hko]; exact hx) hnd hndc

/-- C10: in a completed stage 1 iteration on the picked node `a` whose source part
has more links than its target part (`m` target links), the sorted list `corresp` has
one entry per source link, in ascending order of distance; the entries after the
first `m`, which hold the largest distances, are the removed ones: the edges of the
working graph after the iteration are the edges before it that do not join `a` to
the far endpoint of a removed entry; a far endpoint of a removed entry left without
an edge is `DISCONNECTED`; the far endpoint of each of the first `m` entries, unless
it was `DONE` before the iteration, is `ACTIVE` after it or else `DISCONNECTED`; such
a far endpoint that was neither `DONE` nor `DISCONNECTED` before the iteration and is
not the far endpoint of a removed entry is `ACTIVE` after it, with `correspond` the
far endpoint of the closest target link of one of the first `m` entries leading to
it; and `a` is `DONE`. -/
theorem stage1Body_link_abundance (geo : Geometry) (g1 g2 : Graph) (s s' : BlendState)
    (a : Nat) (n : SimpleNode) (corresp : List ScalarLinksPair) (m : Nat)
    (ha : s.active.nodeIndex (fun n => n.state = some State.ACTIVE) = some a)
    (hn : s.active.nodes[a]? = some n)
    (hc : corresp = (badCorrespondence geo g1 g2 n.original n.strCorrespond).1)
    (hm : m = (g2.linksCoords n.strCorrespond).length)
    (hd : m < (g1.linksCoords n.original).length)
    (h : stage1Body geo g1 g2 s = .ok s') :
    corresp.length = (g1.linksCoords n.original).length ∧
    (corresp.take m).length = m ∧
    (corresp.drop m).length = (g1.linksCoords n.original).length - m ∧
    (∀ x ∈ corresp.take m, ∀ y ∈ corresp.drop m, x.1 ≤ y.1) ∧
    s'.active.edges = s.active.edges.filter
      (fun e => !joinsRemoved s.active n.original a (corresp.drop m) e) ∧
    (∀ sp ∈ corresp.drop m, ∀ o,
      s.active.nodeIndex (fun x => x.original = sp.2.1.otherNode n.original) = some o →
      o ≠ a → s'.active.valence o = 0 →
      ∃ n', s'.active.nodes[o]? = some n' ∧ n'.state = some State.DISCONNECTED) ∧
    (∀ sp ∈ corresp.take m, ∀ o x,
      s.active.nodeIndex (fun x => x.original = sp.2.1.otherNode n.original) = some o →
      o ≠ a → s.active.nodes[o]? = some x → x.state ≠ some State.DONE →
      ∃ n', s'.active.nodes[o]? = some n' ∧
        (n'.state = some State.ACTIVE ∨ n'.state = some State.DISCONNECTED)) ∧
    (∀ sp ∈ corresp.take m, ∀ o x,
      s.active.nodeIndex (fun x => x.original = sp.2.1.otherNode n.original) = some o →
      o ≠ a → s.active.nodes[o]? = some x → x.state ≠ some State.DONE →
      x.state ≠ some State.DISCONNECTED →
      (∀ sp' ∈ corresp.drop m,
        s.active.nodeIndex (fun x => x.original = sp'.2.1.otherNode n.original) ≠ some o) →
      ∃ n', s'.active.nodes[o]? = some n' ∧
        promotedBy s.active n.original n.strCorrespond (corresp.take m) o n') ∧
    (∃ n', s'.active.nodes[a]? = some n' ∧ n'.state = some State.DONE) := by
  have hlen : corresp.length = (g1.linksCoords n.original).length := by
    rw [hc]
    exact badCorrespondence_length geo g1 g2 _ _
  have hsorted : corresp.Pairwise (fun x y => x.1 ≤ y.1) := by
    rw [hc]
    unfold badCorrespondence
    exact sortQMapByValue_sorted _
  rcases stage1Body_cases geo g1 g2 s s' a n ha hn h with
    ⟨_, rest, mid, g', hrem, hprop, hs'⟩ | ⟨hno, _⟩
  swap
  · exact absurd (hm ▸ hd) hno
  rw [← hc, ← hm] at hrem
  obtain ⟨_, hrest, hedges⟩ := removeExcess_spec _ _ _ _ _ _ _ hrem
  have e : corresp.length - ((g1.linksCoords n.original).length - m) = m := by
    rw [hlen]
    omega
  rw [e] at hrest hedges
  have hmid := removeExcess_moves _ _ _ _ _ _ _ hrem
  have hpm := propagateAbundance_moves _ _ _ _ _ hprop
  have hassign := propagateAbundance_assigns s.active n.original n.strCorrespond rest rest
    mid g' (fun _ h => h)
    (fun sp => nodeIndex_original_of_moves hmid (sp.2.1.otherNode n.original)) hprop
  refine ⟨hlen, ?_, ?_, ?_, ?_, ?_, ?_, ?_, ?_⟩
  · rw [List.length_take]
    omega
  · rw [List.length_drop, hlen]
  · intro x hx y hy
    have := hsorted
    rw [← List.take_append_drop m corresp, List.pairwise_append] at this
    exact this.2.2 x hx y hy
  · rw [hs']
    unfold DynamicGraph.setState
    rw [DynamicGraph.modifyNode_edges, hpm.2, hedges]
  · intro sp hsp o ho hoa hv
    rw [hs'] at hv ⊢
    refine abundance_isolated_flagged _ _ a _ _ rest s.active mid g' hrem hprop sp ?_ o ho hoa hv
    rw [e]
    exact hsp
  · intro sp hsp o x ho hoa hx hxd
    rw [hs', setState_getElem?_ne _ _ _ _ hoa]
    obtain ⟨y, hy, hxy⟩ := forall2_getElem? hmid o x hx
    by_cases hyd : y.state = some State.DISCONNECTED
    · obtain ⟨n', hn', hns⟩ := moves_disconnected hpm.1 o ⟨y, hy, hyd⟩
      exact ⟨n', hn', Or.inr hns⟩
    · have hynd : y.state ≠ some State.DONE := by
        rcases hxy.2.2 with hst | hst | ⟨hst, _, _⟩
        · rw [hst]
          exact hxd
        · exact absurd hst hyd
        · rw [hst]
          simp
      obtain ⟨n', hn', hp⟩ := hassign.2 sp (hrest ▸ hsp) o y ho hy hynd hyd
      exact ⟨n', hn', Or.inl hp.1⟩
  · intro sp hsp o x ho hoa hx hxd hxc hfar
    rw [hs', setState_getElem?_ne _ _ _ _ hoa]
    have hy : mid.nodes[o]? = some x := by
      rw [removeExcess_untouched _ _ _ _ _ _ _ hrem o (by rw [e]; exact hfar)]
      exact hx
    obtain ⟨n', hn', hp⟩ := hassign.2 sp (hrest ▸ hsp) o x ho hy hxd hxc
    exact ⟨n', hn', hrest ▸ hp⟩
  · obtain ⟨y, hy, _⟩ := forall2_getElem? (moves_trans hmid hpm.1) a n hn
    refine ⟨{ y with state := some State.DONE }, ?_, rfl⟩
    rw [hs']
    unfold DynamicGraph.setState
    rw [DynamicGraph.modifyNode_getElem?, if_pos rfl, hy]
    rfl

/-- C10, witness: the scenario with 3 source links and 1 target link, the first
iteration of the run on `starSource` and `pairTarget`: the sorted list holds `A - B`,
`A - C`, `A - D`; the two last links are removed and the edge `A - B` is left; `C` and
`D` are `DISCONNECTED`, and the kept neighbour `B`, `SLEEP` before the iteration, is
`ACTIVE` after it with `correspond` the far endpoint `T2` of the target link. -/
theorem stage1Body_link_abundance_witness :
    (badCorrespondence axisGeometry starSource pairTarget "A" "T1").1.length =
      (starSource.linksCoords "A").length ∧
    ((badCorrespondence axisGeometry starSource pairTarget "A" "T1").1.take 1).length = 1 ∧
    ((badCorrespondence axisGeometry starSource pairTarget "A" "T1").1.drop 1).length =
      (starSource.linksCoords "A").length - 1 ∧
    (∀ x ∈ (badCorrespondence axisGeometry starSource pairTarget "A" "T1").1.take 1,
      ∀ y ∈ (badCorrespondence axisGeometry starSource pairTarget "A" "T1").1.drop 1,
        x.1 ≤ y.1) ∧
    starAfterFirst.active.edges = starInitial.edges.filter
      (fun e => !joinsRemoved starInitial "A" 0
        ((badCorrespondence axisGeometry starSource pairTarget "A" "T1").1.drop 1) e) ∧
    (∀ sp ∈ (badCorrespondence axisGeometry starSource pairTarget "A" "T1").1.drop 1, ∀ o,
      starInitial.nodeIndex (fun x => x.original = sp.2.1.otherNode "A") = some o →
      o ≠ 0 → starAfterFirst.active.valence o = 0 →
      ∃ n', starAfterFirst.active.nodes[o]? = some n' ∧ n'.state = some State.DISCONNECTED) ∧
    (∀ sp ∈ (badCorrespondence axisGeometry starSource pairTarget "A" "T1").1.take 1, ∀ o x,
      starInitial.nodeIndex (fun x => x.original = sp.2.1.otherNode "A") = some o →
      o ≠ 0 → starInitial.nodes[o]? = some x → x.state ≠ some State.DONE →
      ∃ n', starAfterFirst.active.nodes[o]? = some n' ∧
        (n'.state = some State.ACTIVE ∨ n'.state = some State.DISCONNECTED)) ∧
    (∃ n', starAfterFirst.active.nodes[1]? = some n' ∧
      promotedBy starInitial "A" "T1"
        ((badCorrespondence axisGeometry starSource pairTarget "A" "T1").1.take 1) 1 n') ∧
    starInitial.nodes[1]? = some ⟨some State.SLEEP, "B", none⟩ ∧
    starAfterFirst.active.nodes[1]? = some ⟨some State.ACTIVE, "B", some "T2"⟩ ∧
    starAfterFirst.active.nodes[2]? = some ⟨some State.DISCONNECTED, "C", none⟩ ∧
    starAfterFirst.active.nodes[3]? = some ⟨some State.DISCONNECTED, "D", none⟩ ∧
    (∃ n', starAfterFirst.active.nodes[0]? = some n' ∧ n'.state = some State.DONE) :=
  have h := stage1Body_link_abundance axisGeometry starSource pairTarget
    ⟨starInitial, [], 0⟩ starAfterFirst 0 ⟨some State.ACTIVE, "A", some "T1"⟩ _ 1
    (by decide!) (by decide!) rfl (by decide!) (by decide!) (by decide!)
  ⟨h.1, h.2.1, h.2.2.1, h.2.2.2.1, h.2.2.2.2.1, h.2.2.2.2.2.1, h.2.2.2.2.2.2.1,
    h.2.2.2.2.2.2.2.1 (((1 : ℚ) : WithTop ℚ), (link "A" "B" 0, some (link "T1" "T2" 1)))
      (by decide!) 1 ⟨some State.SLEEP, "B", none⟩ (by decide!) (by decide) (by decide!)
      (by decide) (by decide) (by decide!),
    by decide!, by decide!, by decide!, by decide!, h.2.2.2.2.2.2.2.2⟩

/-- A stage 1 iteration on a picked node with as many source links as target links
marks the node `DONE` and raises `step`. -/
theorem stage1Body_equal_counts (geo : Geometry) (g1 g2 : Graph) (s : BlendState)
    (a : Nat) (n : SimpleNode)
    (ha : s.active.nodeIndex (fun n => n.state = some State.ACTIVE) = some a)
    (hn : s.active.nodes[a]? = some n)
    (hd : (g1.linksCoords n.original).length = (g2.linksCoords n.strCorrespond).length) :
    stage1Body geo g1 g2 s = .ok
      { active := s.active.setState a State.DONE, needLink := s.needLink, step := s.step + 1 } := by
  unfold stage1Body
  rw [ha]
  simp only [hn]
  unfold reconcile
  simp only [badCorrespondence, hd, sub_self, lt_self_iff_false, if_false]

/-! ## C15: the iteration with equal link counts -/

/-- C15: a stage 1 iteration on the picked node `a` whose source part and target part
have the same number of links returns the blend state with `a` marked `DONE` and
`step` raised by one, and nothing else changed: the edges and `needLink` are the same,
every other node record is the same, and the record of `a` differs in `state` only. -/
theorem stage1Body_same_link_count (geo : Geometry) (g1 g2 : Graph) (s : BlendState)
    (a : Nat) (n : SimpleNode)
    (ha : s.active.nodeIndex (fun n => n.state = some State.ACTIVE) = some a)
    (hn : s.active.nodes[a]? = some n)
    (hd : (g1.linksCoords n.original).length = (g2.linksCoords n.strCorrespond).length) :
    stage1Body geo g1 g2 s = .ok
      { active := s.active.setState a State.DONE, needLink := s.needLink, step := s.step + 1 } ∧
    (s.active.setState a State.DONE).edges = s.active.edges ∧
    (∀ j, j ≠ a → (s.active.setState a State.DONE).nodes[j]? = s.active.nodes[j]?) ∧
    (s.active.setState a State.DONE).nodes[a]? = some { n with state := some State.DONE } := by
  refine ⟨stage1Body_equal_counts geo g1 g2 s a n ha hn hd, ?_, ?_, ?_⟩
  · unfold DynamicGraph.setState
    rw [DynamicGraph.modifyNode_edges]
  · intro j hj
    exact setState_getElem?_ne _ _ _ _ hj
  · unfold DynamicGraph.setState
    rw [DynamicGraph.modifyNode_getElem?, if_pos rfl, hn]
    rfl

/-- C15, witness: the second iteration of the run on `forkSource` and `fanTarget`,
which picks `B`: one source link `A - B`, one target link `T1 - T2`. -/
theorem stage1Body_same_link_count_witness :
    stage1Body axisGeometry forkSource fanTarget forkAfterFirst = .ok
      { active := forkAfterFirst.active.setState 1 State.DONE,
        needLink := forkAfterFirst.needLink, step := forkAfterFirst.step + 1 } ∧
    (forkAfterFirst.active.setState 1 State.DONE).edges = forkAfterFirst.active.edges ∧
    (∀ j, j ≠ 1 →
      (forkAfterFirst.active.setState 1 State.DONE).nodes[j]? = forkAfterFirst.active.nodes[j]?) ∧
    (forkAfterFirst.active.setState 1 State.DONE).nodes[1]? =
      some { (⟨some State.ACTIVE, "B", some "T2"⟩ : SimpleNode) with state := some State.DONE } :=
  stage1Body_same_link_count axisGeometry forkSource fanTarget forkAfterFirst 1
    ⟨some State.ACTIVE, "B", some "T2"⟩ (by decide!) (by decide!) (by decide!)

/-! ## Stage 1, link deficiency -/

theorem IntMap.get_set_self (k : Nat) (v : Int) (m : IntMap) :
    (IntMap.set k v m).get k = v := by
  induction m with
  | nil => simp [IntMap.set, IntMap.get]
  | cons kv rest ih =>
    unfold IntMap.set
    split
    · simp [IntMap.get]
    · split
      · simp [IntMap.get]
      · rename_i h1 h2
        have hne : ¬ kv.1 = k := fun h => h2 h.symm
        unfold IntMap.get at ih ⊢
        simp only [List.find?_cons, hne, decide_False]
        exact ih

theorem IntMap.get_set_ne (k k' : Nat) (v : Int) (m : IntMap) (h : k' ≠ k) :
    (IntMap.set k v m).get k' = m.get k' := by
  induction m with
  | nil => simp [IntMap.set, IntMap.get, Ne.symm h]
  | cons kv rest ih =>
    unfold IntMap.set
    split
    · simp [IntMap.get, List.find?_cons, Ne.symm h]
    · split
      · rename_i h1 h2
        have hne : ¬ kv.1 = k' := fun h' => h (h'.symm.trans h2.symm)
        simp [IntMap.get, List.find?_cons, Ne.symm h, hne]
      · unfold IntMap.get at ih ⊢
        by_cases hkv : kv.1 = k'
        · simp [List.find?_cons, hkv]
        · simp only [List.find?_cons, hkv, decide_False]
          exact ih

/-- The under-linked propagation leaves the records of `DONE` and `DISCONNECTED`
nodes as they are. -/
theorem propagateDeficiency_frozen (id tid : String) (l : List ScalarLinksPair)
    (g g' : DynamicGraph) (h : propagateDeficiency id tid l g = .ok g') (o : Nat)
    (x : SimpleNode) (hx : g.nodes[o]? = some x)
    (hs : x.state = some State.DONE ∨ x.state = some State.DISCONNECTED) :
    g'.nodes[o]? = some x := by
  induction l generalizing g with
  | nil =>
    simp only [propagateDeficiency, Except.ok.injEq] at h
    exact h ▸ hx
  | cons sp rest ih =>
    unfold propagateDeficiency at h
    simp only at h
    split at h
    · cases h
    · rename_i k hk
      split at h
      · cases h
      · rename_i other hother
        split at h
        · rename_i hc
          split at h
          · cases h
          · rw [deficiency_update] at h
            apply ih _ h
            rw [DynamicGraph.modifyNode_getElem?]
            by_cases hko : k = o
            · subst hko
              rw [hother] at hx
              injection hx with hx
              subst hx
              rcases hs with hs | hs
              · exact absurd hs hc.1
              · exact absurd hs hc.2
            · rw [if_neg hko]
              exact hx
        · exact ih _ h hx

/-- The under-linked propagation promotes every pending far endpoint of a listed
entry, and keeps what it has promoted. -/
theorem propagateDeficiency_assigns (g0 : DynamicGraph) (id tid : String)
    (full l : List ScalarLinksPair) (g g' : DynamicGraph) (hsub : ∀ sp ∈ l, sp ∈ full)
    (hidx : ∀ sp : ScalarLinksPair,
      g.nodeIndex (fun n => n.original = sp.2.1.otherNode id) =
        g0.nodeIndex (fun n => n.original = sp.2.1.otherNode id))
    (h : propagateDeficiency id tid l g = .ok g') :
    (∀ o x, g.nodes[o]? = some x → promotedBy g0 id tid full o x →
      ∃ x', g'.nodes[o]? = some x' ∧ promotedBy g0 id tid full o x') ∧
    (∀ sp ∈ l, ∀ o x, g0.nodeIndex (fun n => n.original = sp.2.1.otherNode id) = some o →
      g.nodes[o]? = some x → x.state ≠ some State.DONE → x.state ≠ some State.DISCONNECTED →
      ∃ x', g'.nodes[o]? = some x' ∧ promotedBy g0 id tid full o x') := by
  induction l generalizing g with
  | nil =>
    simp only [propagateDeficiency, Except.ok.injEq] at h
    subst h
    exact ⟨fun o x hx hp => ⟨x, hx, hp⟩, fun sp hsp => absurd hsp (List.not_mem_nil _)⟩
  | cons sp rest ih =>
    unfold propagateDeficiency at h
    simp only at h
    split at h
    · cases h
    · rename_i k hk
      split at h
      · cases h
      · rename_i other hother
        have hrest : ∀ sp' ∈ rest, sp' ∈ full := fun sp' hsp' =>
          hsub sp' (List.mem_cons_of_mem _ hsp')
        split at h
        · rename_i hc
          split at h
          · cases h
          · rename_i linkTarget hlt
            rw [deficiency_update] at h
            have hmove : List.Forall₂ Stage1Move g.nodes (g.modifyNode k (fun n =>
                { n with state := some State.ACTIVE,
                         correspond := some (linkTarget.otherNode tid) })).nodes := by
              apply DynamicGraph.modifyNode_forall2 Stage1Move.refl
              intro n hn
              rw [hother] at hn
              injection hn with hn
              subst hn
              refine ⟨rfl, fun _ => rfl, ?_⟩
              rcases State.pending_cases _ hc.1 hc.2 with hs | hs
              · exact Or.inr (Or.inr ⟨rfl, hs, rfl⟩)
              · exact Or.inl hs.symm
            have hidx' : ∀ sp' : ScalarLinksPair,
                (g.modifyNode k (fun n =>
                  { n with state := some State.ACTIVE,
                           correspond := some (linkTarget.otherNode tid) })).nodeIndex
                  (fun n => n.original = sp'.2.1.otherNode id) =
                g0.nodeIndex (fun n => n.original = sp'.2.1.otherNode id) := by
              intro sp'
              rw [nodeIndex_original_of_moves hmove]
              exact hidx sp'
            obtain ⟨ih1, ih2⟩ := ih _ hrest hidx' h
            have hk0 : g0.nodeIndex (fun n => n.original = sp.2.1.otherNode id) = some k := by
              rw [← hidx sp]
              exact hk
            have hnew : ∀ y, g.nodes[k]? = some y →
                promotedBy g0 id tid full k
                  { y with state := some State.ACTIVE,
                           correspond := some (linkTarget.otherNode tid) } :=
              fun y _ => ⟨rfl, sp, hsub sp (List.mem_cons_self _ _), linkTarget, hk0, hlt, rfl⟩
            refine ⟨?_, ?_⟩
            · intro o x hx hp
              by_cases hko : k = o
              · subst hko
                exact ih1 k _ (by rw [DynamicGraph.modifyNode_getElem?, if_pos rfl, hx]; rfl)
                  (hnew x hx)
              · exact ih1 o x (by rw [DynamicGraph.modifyNode_getElem?, if_neg hko]; exact hx) hp
            · intro sp0 hsp0 o x ho hx hnd hndc
              rcases List.mem_cons.1 hsp0 with hsp0 | hsp0
              · subst hsp0
                rw [hk0] at ho
                injection ho with ho
                subst ho
                exact ih1 k _ (by rw [DynamicGraph.modifyNode_getElem?, if_pos rfl, hx]; rfl)
                  (hnew x hx)
              · by_cases hko : k = o
                · subst hko
                  exact ih1 k _ (by rw [DynamicGraph.modifyNode_getElem?, if_pos rfl, hx]; rfl)
                    (hnew x hx)
                · exact ih2 sp0 hsp0 o x ho
                    (by rw [DynamicGraph.modifyNode_getElem?, if_neg hko]; exact hx) hnd hndc
        · rename_i hc
          obtain ⟨ih1, ih2⟩ := ih _ hrest hidx h
          refine ⟨ih1, ?_⟩
          intro sp0 hsp0 o x ho hx hnd hndc
          rcases List.mem_cons.1 hsp0 with hsp0 | hsp0
          · subst hsp0
            rw [← hidx sp0, hk] at ho
            injection ho with ho
            subst ho
            rw [hother] at hx
            injection hx with hx
            subst hx
            exact absurd ⟨hnd, hndc⟩ hc
          · exact ih2 sp0 hsp0 o x ho hx hnd hndc

/-- The shape of a completed under-linked stage 1 iteration on the picked node `a`. -/
theorem stage1Body_deficiency_ok (geo : Geometry) (g1 g2 : Graph) (s s' : BlendState)
    (a : Nat) (n : SimpleNode)
    (ha : s.active.nodeIndex (fun n => n.state = some State.ACTIVE) = some a)
    (hn : s.active.nodes[a]? = some n)
    (hd : (g1.linksCoords n.original).length < (g2.linksCoords n.strCorrespond).length)
    (h : stage1Body geo g1 g2 s = .ok s') :
    ∃ g' : DynamicGraph,
      propagateDeficiency n.original n.strCorrespond
        (badCorrespondence geo g1 g2 n.original n.strCorrespond).1 s.active = .ok g' ∧
      s' = { active := g'.setState a State.DONE,
             needLink := IntMap.set a
               (((g2.linksCoords n.strCorrespond).length -
                 (g1.linksCoords n.original).length : ℕ) : ℤ) s.needLink,
             step := s.step + 1 } := by
  unfold stage1Body at h
  rw [ha] at h
  simp only [hn] at h
  split at h
  · cases h
  · rename_i s1 hrec
    simp only [Except.ok.injEq] at h
    subst h
    unfold reconcile at hrec
    simp only [badCorrespondence] at hrec ⊢
    have hneg : ((g1.linksCoords n.original).length : ℤ) -
        ((g2.linksCoords n.strCorrespond).length : ℤ) < 0 := by omega
    rw [if_neg (by omega), if_pos hneg] at hrec
    split at hrec
    · cases hrec
    · rename_i g' hprop
      simp only [Except.ok.injEq] at hrec
      subst hrec
      refine ⟨g', hprop, ?_⟩
      have habs : |((g1.linksCoords n.original).length : ℤ) -
          ((g2.linksCoords n.strCorrespond).length : ℤ)| =
          (((g2.linksCoords n.strCorrespond).length -
            (g1.linksCoords n.original).length : ℕ) : ℤ) := by
        rw [abs_of_neg hneg]
        omega
      simp only [habs]

/-! ## C11: the under-linked iteration -/

/-- C11: in a completed stage 1 iteration on the picked node `a` whose source part
has fewer links than its target part, the deficit recorded for `a` is the number of
target links minus the number of source links and no other entry of `needLink`
changes; the edges of the working graph are unchanged; every far endpoint (other
than `a`) of a link of `a` that was neither `DONE` nor `DISCONNECTED` is `ACTIVE`
after the iteration, with `correspond` the far endpoint of the closest target link of
a link leading to it; the records of the other `DONE` and `DISCONNECTED` nodes are
unchanged; and `a` is `DONE`. -/
theorem stage1Body_link_deficiency (geo : Geometry) (g1 g2 : Graph) (s s' : BlendState)
    (a : Nat) (n : SimpleNode) (corresp : List ScalarLinksPair)
    (ha : s.active.nodeIndex (fun n => n.state = some State.ACTIVE) = some a)
    (hn : s.active.nodes[a]? = some n)
    (hc : corresp = (badCorrespondence geo g1 g2 n.original n.strCorrespond).1)
    (hd : (g1.linksCoords n.original).length < (g2.linksCoords n.strCorrespond).length)
    (h : stage1Body geo g1 g2 s = .ok s') :
    s'.needLink.get a = (((g2.linksCoords n.strCorrespond).length -
      (g1.linksCoords n.original).length : ℕ) : ℤ) ∧
    (∀ k, k ≠ a → s'.needLink.get k = s.needLink.get k) ∧
    s'.active.edges = s.active.edges ∧
    (∀ sp ∈ corresp, ∀ o x,
      s.active.nodeIndex (fun y => y.original = sp.2.1.otherNode n.original) = some o →
      o ≠ a → s.active.nodes[o]? = some x →
      x.state ≠ some State.DONE → x.state ≠ some State.DISCONNECTED →
      ∃ x', s'.active.nodes[o]? = some x' ∧
        promotedBy s.active n.original n.strCorrespond corresp o x') ∧
    (∀ o x, o ≠ a → s.active.nodes[o]? = some x →
      (x.state = some State.DONE ∨ x.state = some State.DISCONNECTED) → s'.active.nodes[o]? = some x) ∧
    (∃ x', s'.active.nodes[a]? = some x' ∧ x'.state = some State.DONE) := by
  obtain ⟨g', hprop, hs'⟩ := stage1Body_deficiency_ok geo g1 g2 s s' a n ha hn hd h
  rw [← hc] at hprop
  subst hs'
  obtain ⟨_, hassign⟩ := propagateDeficiency_assigns s.active n.original n.strCorrespond
    corresp corresp s.active g' (fun _ hsp => hsp) (fun _ => rfl) hprop
  have hmoves := propagateDeficiency_moves _ _ _ _ _ hprop
  refine ⟨IntMap.get_set_self _ _ _, fun k hk => IntMap.get_set_ne _ _ _ _ hk, ?_, ?_, ?_, ?_⟩
  · simp only [DynamicGraph.setState, DynamicGraph.modifyNode_edges, hmoves.2]
  · intro sp hsp o x ho hoa hx hnd hndc
    simp only [setState_getElem?_ne _ _ _ _ hoa]
    exact hassign sp hsp o x ho hx hnd hndc
  · intro o x hoa hx hst
    simp only [setState_getElem?_ne _ _ _ _ hoa]
    exact propagateDeficiency_frozen _ _ _ _ _ hprop o x hx hst
  · obtain ⟨y, hy, _⟩ := forall2_getElem? hmoves.1 a n hn
    refine ⟨{ y with state := some State.DONE }, ?_, rfl⟩
    simp only [DynamicGraph.setState]
    rw [DynamicGraph.modifyNode_getElem?, if_pos rfl, hy]
    rfl

/-- C11, witness: the scenario with 1 source link and 3 target links, the first
iteration of the run on `twigSource` and `fanTarget`: the recorded deficit is 2 and
the neighbour `B` is promoted. -/
theorem stage1Body_link_deficiency_witness :
    twigAfterFirst.needLink.get 0 = (((fanTarget.linksCoords "T1").length -
      (twigSource.linksCoords "A").length : ℕ) : ℤ) ∧
    (∀ k, k ≠ 0 → twigAfterFirst.needLink.get k = IntMap.get [] k) ∧
    twigAfterFirst.active.edges = twigInitial.edges ∧
    (∀ sp ∈ (badCorrespondence axisGeometry twigSource fanTarget "A" "T1").1, ∀ o x,
      twigInitial.nodeIndex (fun y => y.original = sp.2.1.otherNode "A") = some o →
      o ≠ 0 → twigInitial.nodes[o]? = some x →
      x.state ≠ some State.DONE → x.state ≠ some State.DISCONNECTED →
      ∃ x', twigAfterFirst.active.nodes[o]? = some x' ∧
        promotedBy twigInitial "A" "T1"
          (badCorrespondence axisGeometry twigSource fanTarget "A" "T1").1 o x') ∧
    (∀ o x, o ≠ 0 → twigInitial.nodes[o]? = some x →
      (x.state = some State.DONE ∨ x.state = some State.DISCONNECTED) →
      twigAfterFirst.active.nodes[o]? = some x) ∧
    (∃ x', twigAfterFirst.active.nodes[0]? = some x' ∧ x'.state = some State.DONE) :=
  stage1Body_link_deficiency axisGeometry twigSource fanTarget ⟨twigInitial, [], 0⟩
    twigAfterFirst 0 ⟨some State.ACTIVE, "A", some "T1"⟩ _ (by decide!) (by decide!) rfl
    (by decide!) (by decide!)

/-! ## C5: the count of `DONE` nodes -/

/-- C5, counterexample: in the run on `chainSource` and `pairTarget` the second
stage 1 iteration is completed with as many `DONE` nodes after it as before it (one),
and the node `A`, `DONE` before the iteration, is `DISCONNECTED` after it. -/
theorem stage1Body_done_count_stalls :
    stage1Body axisGeometry chainSource pairTarget ⟨chainInitial, [], 0⟩ = .ok chainAfterFirst ∧
    stage1Guard (DynamicGraph.ofGraph pairTarget) chainAfterFirst = true ∧
    stage1Body axisGeometry chainSource pairTarget chainAfterFirst = .ok chainAfterSecond ∧
    chainAfterFirst.active.count State.DONE = 1 ∧
    chainAfterSecond.active.count State.DONE = 1 ∧
    chainAfterFirst.active.nodes[0]? = some ⟨some State.DONE, "A", some "T1"⟩ ∧
    chainAfterSecond.active.nodes[0]? = some ⟨some State.DISCONNECTED, "A", some "T1"⟩ := by
  decide!

theorem valence_filter_zero (g g' : DynamicGraph) (p : SimpleEdge → Bool)
    (h : g'.edges = g.edges.filter p) (o : Nat) (hv : g.valence o = 0) : g'.valence o = 0 := by
  unfold DynamicGraph.valence at hv ⊢
  rw [List.countP_eq_zero] at hv ⊢
  intro e he
  rw [h] at he
  exact hv e (List.mem_of_mem_filter he)

theorem detach_disconnects (g : DynamicGraph) (a x o : Nat) (n n' : SimpleNode)
    (hn : g.nodes[o]? = some n) (hn' : (detach g a x).nodes[o]? = some n')
    (hs : n.state ≠ some State.DISCONNECTED) (hs' : n'.state = some State.DISCONNECTED) :
    o = x ∧ (detach g a x).valence x = 0 := by
  by_cases hox : o = x
  · refine ⟨hox, ?_⟩
    subst hox
    by_contra hv
    rw [detach_valence] at hv
    unfold detach at hn'
    simp only [hv, if_false] at hn'
    rw [DynamicGraph.removeEdge_nodes, hn] at hn'
    injection hn' with e
    subst e
    exact hs hs'
  · rw [detach_getElem?_ne _ _ _ _ hox, hn] at hn'
    injection hn' with e
    subst e
    exact absurd hs' hs

theorem removeExcess_disconnects (id : String) (a k : Nat)
    (corresp rest : List ScalarLinksPair) (g g' : DynamicGraph)
    (h : removeExcess id a k corresp g = .ok (rest, g')) (o : Nat) (n n' : SimpleNode)
    (hn : g.nodes[o]? = some n) (hn' : g'.nodes[o]? = some n')
    (hs : n.state ≠ some State.DISCONNECTED) (hs' : n'.state = some State.DISCONNECTED) :
    g'.valence o = 0 ∧ ∃ sp ∈ corresp.drop (corresp.length - k),
      g.nodeIndex (fun n => n.original = sp.2.1.otherNode id) = some o := by
  induction k generalizing corresp g n with
  | zero =>
    simp only [removeExcess, Except.ok.injEq, Prod.mk.injEq] at h
    rw [← h.2, hn] at hn'
    injection hn' with e
    subst e
    exact absurd hs' hs
  | succ k ih =>
    unfold removeExcess at h
    split at h
    · cases h
    · rename_i last hlast
      simp only at h
      split at h
      · cases h
      · rename_i x hx
        obtain ⟨init, rfl⟩ := List.getLast?_eq_some_iff.1 hlast
        rw [List.dropLast_concat] at h
        have hspec := removeExcess_spec id a k _ rest _ g' h
        have hk := hspec.1
        have e1 : (init ++ [last]).length - (k + 1) = init.length - k := by
          simp
        rw [e1, List.drop_append_of_le_length (by omega)]
        obtain ⟨m, hm, _⟩ := forall2_getElem? (detach_moves g a x) o n hn
        by_cases hmd : m.state = some State.DISCONNECTED
        · obtain ⟨hox, hv⟩ := detach_disconnects g a x o n m hn hm hs hmd
          subst hox
          exact ⟨valence_filter_zero _ _ _ hspec.2.2 o hv, last,
            List.mem_append_right _ (List.mem_singleton_self _), hx⟩
        · obtain ⟨hv, sp, hsp, hidx⟩ := ih _ _ h m hm hmd
          refine ⟨hv, sp, List.mem_append_left _ hsp, ?_⟩
          rw [← nodeIndex_original_of_moves (detach_moves g a x)]
          exact hidx

theorem propagateAbundance_frozen (id tid : String) (l : List ScalarLinksPair)
    (g g' : DynamicGraph) (h : propagateAbundance id tid l g = .ok g') (o : Nat)
    (x : SimpleNode) (hx : g.nodes[o]? = some x)
    (hs : x.state = some State.DONE ∨ x.state = some State.DISCONNECTED) :
    ∃ x', g'.nodes[o]? = some x' ∧ x'.state = x.state := by
  induction l generalizing g x with
  | nil =>
    simp only [propagateAbundance, Except.ok.injEq] at h
    subst h
    exact ⟨x, hx, rfl⟩
  | cons sp rest ih =>
    unfold propagateAbundance at h
    simp only at h
    split at h
    · cases h
    · rename_i k hk
      split at h
      · cases h
      · rename_i other hother
        split at h
        · cases h
        · rename_i linkTarget hlt
          rw [abundance_update g k other _ hother] at h
          have hnot : ¬ (x.state ≠ some State.DONE ∧ x.state ≠ some State.DISCONNECTED) := by
            rcases hs with hs | hs <;> simp [hs]
          by_cases hko : k = o
          · subst hko
            obtain ⟨x', hx', hst⟩ := ih _ h
              { x with
                state := if x.state ≠ some State.DONE ∧ x.state ≠ some State.DISCONNECTED
                  then some State.ACTIVE else x.state,
                correspond := some (linkTarget.otherNode tid) }
              (by rw [DynamicGraph.modifyNode_getElem?, if_pos rfl, hx]; rfl)
              (by rw [if_neg hnot]; exact hs)
            exact ⟨x', hx', by rw [hst, if_neg hnot]⟩
          · exact ih _ h x (by rw [DynamicGraph.modifyNode_getElem?, if_neg hko]; exact hx) hs

/-- A node that is `DONE` before a completed stage 1 iteration and not `DONE` after
it: the iteration is over-linked and processes another node, one of its removed
entries leads to the node, and the node is `DISCONNECTED` and without an edge after
the iteration. -/
theorem stage1Body_done_leaves (geo : Geometry) (g1 g2 : Graph) (s s' : BlendState) (a : Nat)
    (n : SimpleNode) (ha : s.active.nodeIndex (fun n => n.state = some State.ACTIVE) = some a)
    (hn : s.active.nodes[a]? = some n) (h : stage1Body geo g1 g2 s = .ok s')
    (j : Nat) (x x' : SimpleNode) (hx : s.active.nodes[j]? = some x)
    (hx' : s'.active.nodes[j]? = some x') (hd : x.state = some State.DONE)
    (hd' : x'.state ≠ some State.DONE) :
    x'.state = some State.DISCONNECTED ∧ j ≠ a ∧
    (g2.linksCoords n.strCorrespond).length < (g1.linksCoords n.original).length ∧
    s'.active.valence j = 0 ∧
    ∃ sp ∈ (badCorrespondence geo g1 g2 n.original n.strCorrespond).1.drop
        (g2.linksCoords n.strCorrespond).length,
      s.active.nodeIndex (fun y => y.original = sp.2.1.otherNode n.original) = some j := by
  have hja : j ≠ a := by
    intro hja
    obtain ⟨mid, hm, hs', _⟩ := stage1Body_moves geo g1 g2 s s' a ha h
    obtain ⟨m, hmid, _⟩ := forall2_getElem? hm a n hn
    rw [hja, hs'] at hx'
    unfold DynamicGraph.setState at hx'
    rw [DynamicGraph.modifyNode_getElem?, if_pos rfl, hmid] at hx'
    simp only [Option.map_some', Option.some.injEq] at hx'
    subst hx'
    exact hd' rfl
  rcases Nat.lt_trichotomy (g2.linksCoords n.strCorrespond).length
    (g1.linksCoords n.original).length with hlt | heq | hgt
  · rcases stage1Body_cases geo g1 g2 s s' a n ha hn h with
      ⟨_, rest, mid, g', hrem, hprop, hs'⟩ | ⟨hno, _⟩
    swap
    · exact absurd hlt hno
    have hlen := badCorrespondence_length geo g1 g2 n.original n.strCorrespond
    have e : (badCorrespondence geo g1 g2 n.original n.strCorrespond).1.length -
        ((g1.linksCoords n.original).length - (g2.linksCoords n.strCorrespond).length) =
        (g2.linksCoords n.strCorrespond).length := by
      rw [hlen]
      omega
    have hpm := propagateAbundance_moves _ _ _ _ _ hprop
    rw [hs', setState_getElem?_ne _ _ _ _ hja] at hx'
    obtain ⟨y, hy, hxy⟩ := forall2_getElem? (removeExcess_moves _ _ _ _ _ _ _ hrem) j x hx
    have hyc : y.state = some State.DONE ∨ y.state = some State.DISCONNECTED := by
      rcases hxy.2.2 with hst | hst | ⟨_, hst, _⟩
      · exact Or.inl (hst.trans hd)
      · exact Or.inr hst
      · rw [hd] at hst
        rcases hst with hst | hst <;> cases hst
    obtain ⟨z, hz, hzs⟩ := propagateAbundance_frozen _ _ _ _ _ hprop j y hy hyc
    rw [hz] at hx'
    injection hx' with e2
    subst e2
    have hyd : y.state = some State.DISCONNECTED := by
      rcases hyc with hyc | hyc
      · exact absurd (hzs.trans hyc) hd'
      · exact hyc
    obtain ⟨hv, sp, hsp, hidx⟩ := removeExcess_disconnects _ _ _ _ _ _ _ hrem j x y hx hy
      (by rw [hd]; simp) hyd
    refine ⟨hzs.trans hyd, hja, hlt, ?_, sp, ?_, hidx⟩
    · rw [hs', setState_valence, valence_congr hpm.2]
      exact hv
    · rw [e] at hsp
      exact hsp
  · exfalso
    rw [stage1Body_equal_counts geo g1 g2 s a n ha hn heq.symm] at h
    simp only [Except.ok.injEq] at h
    subst h
    rw [setState_getElem?_ne _ _ _ _ hja, hx] at hx'
    injection hx' with e
    subst e
    exact hd' hd
  · exfalso
    obtain ⟨g', hprop, hs'⟩ := stage1Body_deficiency_ok geo g1 g2 s s' a n ha hn hgt h
    subst hs'
    rw [setState_getElem?_ne _ _ _ _ hja,
      propagateDeficiency_frozen _ _ _ _ _ hprop j x hx (Or.inl hd)] at hx'
    injection hx' with e
    subst e
    exact hd' hd

/-- C5, as amended: a completed stage 1 iteration leaves the picked node `a` in state
`DONE`; a node that was `DONE` before the iteration is `DONE` or `DISCONNECTED` after
it, and `DISCONNECTED` only when the iteration is over-linked (the source part of `a`
has more links than its target part), the node is another node than `a`, one of the
removed entries of the sorted list leads to it and it has no edge after the
iteration; and the number of nodes in state `SLEEP` or `ACTIVE` is strictly smaller
after the iteration than before it. -/
theorem stage1Body_done (geo : Geometry) (g1 g2 : Graph) (s s' : BlendState) (a : Nat)
    (n : SimpleNode) (ha : s.active.nodeIndex (fun n => n.state = some State.ACTIVE) = some a)
    (hn : s.active.nodes[a]? = some n) (h : stage1Body geo g1 g2 s = .ok s') :
    (∃ n', s'.active.nodes[a]? = some n' ∧ n'.state = some State.DONE) ∧
    (∀ (j : Nat) (x x' : SimpleNode), s.active.nodes[j]? = some x →
      s'.active.nodes[j]? = some x' → x.state = some State.DONE →
      x'.state = some State.DONE ∨
      (x'.state = some State.DISCONNECTED ∧ j ≠ a ∧
        (g2.linksCoords n.strCorrespond).length < (g1.linksCoords n.original).length ∧
        s'.active.valence j = 0 ∧
        ∃ sp ∈ (badCorrespondence geo g1 g2 n.original n.strCorrespond).1.drop
            (g2.linksCoords n.strCorrespond).length,
          s.active.nodeIndex (fun y => y.original = sp.2.1.otherNode n.original) = some j)) ∧
    s'.active.pendingCount < s.active.pendingCount := by
  obtain ⟨mid, hm, hs', _⟩ := stage1Body_moves geo g1 g2 s s' a ha h
  obtain ⟨m, hmid, _⟩ := forall2_getElem? hm a n hn
  refine ⟨⟨{ m with state := some State.DONE }, ?_, rfl⟩, ?_,
    stage1Body_pending geo g1 g2 s s' a ha h⟩
  · rw [hs']
    unfold DynamicGraph.setState
    rw [DynamicGraph.modifyNode_getElem?, if_pos rfl, hmid]
    rfl
  · intro j x x' hx hx' hd
    by_cases hd' : x'.state = some State.DONE
    · exact Or.inl hd'
    · exact Or.inr (stage1Body_done_leaves geo g1 g2 s s' a n ha hn h j x x' hx hx' hd hd')

/-- C5, witness: the amended claim at the second iteration of the run on
`chainSource` and `pairTarget`, which picks the node `B` with 2 source links against
1 target link: the removed entry is the link `A - B`, and the node `A`, `DONE` before
the iteration, is `DISCONNECTED` and without an edge after it. -/
theorem stage1Body_done_witness :
    ((∃ n', chainAfterSecond.active.nodes[1]? = some n' ∧ n'.state = some State.DONE) ∧
    (∀ (j : Nat) (x x' : SimpleNode), chainAfterFirst.active.nodes[j]? = some x →
      chainAfterSecond.active.nodes[j]? = some x' → x.state = some State.DONE →
      x'.state = some State.DONE ∨
      (x'.state = some State.DISCONNECTED ∧ j ≠ 1 ∧
        (pairTarget.linksCoords "T2").length < (chainSource.linksCoords "B").length ∧
        chainAfterSecond.active.valence j = 0 ∧
        ∃ sp ∈ (badCorrespondence axisGeometry chainSource pairTarget "B" "T2").1.drop
            (pairTarget.linksCoords "T2").length,
          chainAfterFirst.active.nodeIndex
            (fun y => y.original = sp.2.1.otherNode "B") = some j)) ∧
    chainAfterSecond.active.pendingCount < chainAfterFirst.active.pendingCount) ∧
    chainAfterFirst.active.nodes[0]? = some ⟨some State.DONE, "A", some "T1"⟩ ∧
    chainAfterSecond.active.nodes[0]? = some ⟨some State.DISCONNECTED, "A", some "T1"⟩ ∧
    chainAfterFirst.active.valence 0 = 1 ∧ chainAfterSecond.active.valence 0 = 0 :=
  ⟨stage1Body_done axisGeometry chainSource pairTarget chainAfterFirst chainAfterSecond 1
    ⟨some State.ACTIVE, "B", some "T2"⟩ (by decide!) (by decide!) (by decide!),
    by decide!, by decide!, by decide!, by decide!⟩

/-! ## C13: two graphs of one part each -/

/-- C13, counterexample: on two graphs of one curve each (area 1, same centre, no
link) the stage 1 loop test holds on the working graph of Phase 0, the loop does not
return with 0 iterations, it returns after one iteration with the counter `step` at
1, and `blend` returns with `step` at 2, after the `++step` of line 376: one
reconciliation step is performed, not zero. -/
theorem blend_single_parts_one_step :
    bestPartialCorrespondence axisGeometry soloSource soloTarget = .ok soloInitial ∧
    stage1Guard (DynamicGraph.ofGraph soloTarget) ⟨soloInitial, [], 0⟩ = true ∧
    stage1 axisGeometry soloSource soloTarget (DynamicGraph.ofGraph soloTarget) 0
      ⟨soloInitial, [], 0⟩ = .error Stop.fuel ∧
    stage1 axisGeometry soloSource soloTarget (DynamicGraph.ofGraph soloTarget) 1
      ⟨soloInitial, [], 0⟩ = .ok soloAfterStage1 ∧
    soloAfterStage1.step = 1 ∧
    blend axisGeometry soloSource soloTarget 1 = .ok soloFinal ∧
    soloFinal.step = 2 := by
  decide!

theorem score_unit_parts (geo : Geometry) (hnorm : geo.norm3 (0, 0, 0) = 0) (a t : Node)
    (haa : a.area = 1) (hta : t.area = 1) (hcen : a.center = t.center) :
    score geo a t = 1 := by
  unfold score inverse
  rw [haa, hta, hcen]
  have h0 : t.center - t.center = (0, 0, 0) := sub_self _
  rw [h0, hnorm]
  simp

/-- C13, as amended: for two graphs of one part each, of the same type, of area 1,
with the same centre and without links (and a norm that is 0 on the zero vector), the
score of the pair is exactly 1, Phase 0 matches the two parts, the stage 1 loop
performs exactly one iteration (with 0 iterations it does not return, with 1 it
does, leaving `step` at 1), and `blend` returns the sole node `DONE`, corresponding
to the target part, with no deficit recorded and `step` at 2, after the `++step` of
line 376. -/
theorem blend_single_parts (geo : Geometry) (hnorm : geo.norm3 (0, 0, 0) = 0) (a t : Node)
    (fuel : Nat) (htype : a.type = t.type) (haa : a.area = 1) (hta : t.area = 1)
    (hcen : a.center = t.center) (hfuel : 1 ≤ fuel) :
    score geo a t = 1 ∧
    bestPartialCorrespondence geo ⟨[a], []⟩ ⟨[t], []⟩ =
      .ok ⟨[⟨some State.ACTIVE, a.id, some t.id⟩], []⟩ ∧
    stage1 geo ⟨[a], []⟩ ⟨[t], []⟩ (DynamicGraph.ofGraph ⟨[t], []⟩) 0
      ⟨⟨[⟨some State.ACTIVE, a.id, some t.id⟩], []⟩, [], 0⟩ = .error Stop.fuel ∧
    stage1 geo ⟨[a], []⟩ ⟨[t], []⟩ (DynamicGraph.ofGraph ⟨[t], []⟩) 1
      ⟨⟨[⟨some State.ACTIVE, a.id, some t.id⟩], []⟩, [], 0⟩ =
      .ok ⟨⟨[⟨some State.DONE, a.id, some t.id⟩], []⟩, [], 1⟩ ∧
    blend geo ⟨[a], []⟩ ⟨[t], []⟩ fuel =
      .ok ⟨⟨[⟨some State.DONE, a.id, some t.id⟩], []⟩, [], 2⟩ := by
  have hscore := score_unit_parts geo hnorm a t haa hta hcen
  have hlt : score geo a t < ((DBL_MAX : ℚ) : WithTop ℚ) := by
    rw [hscore]
    decide!
  have hcs : computeScores geo ⟨[a], []⟩ ⟨[t], []⟩ = [(score geo a t, (a, t))] := by
    simp [computeScores, scoreRow, htype, ScoreMap.insert]
  have h0 : bestPartialCorrespondence geo ⟨[a], []⟩ ⟨[t], []⟩ =
      .ok ⟨[⟨some State.ACTIVE, a.id, some t.id⟩], []⟩ := by
    obtain ⟨k, n, hk, _, heq⟩ :=
      bestPartialCorrespondence_of_head geo ⟨[a], []⟩ ⟨[t], []⟩ _ [] hcs hlt
    have hk0 : k = 0 := by
      cases k with
      | zero => rfl
      | succ k => simp at hk
    subst hk0
    rw [heq]
    simp [DynamicGraph.ofGraph, DynamicGraph.flagNodes, DynamicGraph.setCorrespond,
      DynamicGraph.setState, DynamicGraph.modifyNode]
  have hguard : stage1Guard (DynamicGraph.ofGraph ⟨[t], []⟩)
      ⟨⟨[⟨some State.ACTIVE, a.id, some t.id⟩], []⟩, [], 0⟩ = true := by
    simp [stage1Guard, DynamicGraph.count, DynamicGraph.flags, DynamicGraph.ofGraph]
  have hguard' : stage1Guard (DynamicGraph.ofGraph ⟨[t], []⟩)
      ⟨⟨[⟨some State.DONE, a.id, some t.id⟩], []⟩, [], 1⟩ = false := by
    simp [stage1Guard, DynamicGraph.count, DynamicGraph.flags, DynamicGraph.ofGraph]
  have hbody : stage1Body geo ⟨[a], []⟩ ⟨[t], []⟩
      ⟨⟨[⟨some State.ACTIVE, a.id, some t.id⟩], []⟩, [], 0⟩ =
      .ok ⟨⟨[⟨some State.DONE, a.id, some t.id⟩], []⟩, [], 1⟩ := by
    have := stage1Body_equal_counts geo ⟨[a], []⟩ ⟨[t], []⟩
      ⟨⟨[⟨some State.ACTIVE, a.id, some t.id⟩], []⟩, [], 0⟩ 0 ⟨some State.ACTIVE, a.id, some t.id⟩
      (by simp [DynamicGraph.nodeIndex]) (by simp) (by simp [Graph.linksCoords])
    rw [this]
    simp [DynamicGraph.setState, DynamicGraph.modifyNode]
  have hs1 : ∀ f, stage1 geo ⟨[a], []⟩ ⟨[t], []⟩ (DynamicGraph.ofGraph ⟨[t], []⟩) (f + 1)
      ⟨⟨[⟨some State.ACTIVE, a.id, some t.id⟩], []⟩, [], 0⟩ =
      .ok ⟨⟨[⟨some State.DONE, a.id, some t.id⟩], []⟩, [], 1⟩ := by
    intro f
    unfold stage1
    rw [if_pos hguard, hbody]
    simp only
    cases f with
    | zero =>
      unfold stage1
      simp [hguard']
    | succ f =>
      unfold stage1
      simp [hguard']
  refine ⟨hscore, h0, ?_, hs1 0, ?_⟩
  · unfold stage1
    rw [if_pos hguard]
  · obtain ⟨f, rfl⟩ : ∃ f, fuel = f + 1 := ⟨fuel - 1, by omega⟩
    unfold blend
    rw [h0]
    simp only [hs1 f]
    simp only [List.map_nil, stage2]
    unfold stage3
    simp [DynamicGraph.flags]

/-- C13, witness: the amended claim at `soloSource` and `soloTarget` with fuel 1. -/
theorem blend_single_parts_witness :
    score axisGeometry (part "A" "CURVE" 1) (part "T" "CURVE" 1) = 1 ∧
    bestPartialCorrespondence axisGeometry soloSource soloTarget = .ok soloInitial ∧
    stage1 axisGeometry soloSource soloTarget (DynamicGraph.ofGraph soloTarget) 0
      ⟨soloInitial, [], 0⟩ = .error Stop.fuel ∧
    stage1 axisGeometry soloSource soloTarget (DynamicGraph.ofGraph soloTarget) 1
      ⟨soloInitial, [], 0⟩ = .ok soloAfterStage1 ∧
    blend axisGeometry soloSource soloTarget 1 = .ok soloFinal :=
  blend_single_parts axisGeometry (by decide!) (part "A" "CURVE" 1) (part "T" "CURVE" 1) 1
    rfl rfl rfl rfl (by decide)

/-! ## `badCorrespondence`: the closest target link -/

/-- The running minimum of lines 87-96 from an arbitrary start `acc`. -/
theorem closestLink_fold (geo : Geometry) (ci : Vec4d) (l : List (Link × Vec4d))
    (acc : WithTop ℚ × Option Link) :
    (∀ j ∈ l, (l.foldl (fun acc j =>
        if geo.norm4 (ci - j.2) < acc.1 then (geo.norm4 (ci - j.2), some j.1) else acc) acc).1 ≤
          geo.norm4 (ci - j.2)) ∧
    (l.foldl (fun acc j =>
        if geo.norm4 (ci - j.2) < acc.1 then (geo.norm4 (ci - j.2), some j.1) else acc) acc).1 ≤
      acc.1 ∧
    ((l.foldl (fun acc j =>
        if geo.norm4 (ci - j.2) < acc.1 then (geo.norm4 (ci - j.2), some j.1) else acc) acc = acc ∧
        ∀ j ∈ l, ¬ geo.norm4 (ci - j.2) < acc.1) ∨
      ∃ j ∈ l, l.foldl (fun acc j =>
        if geo.norm4 (ci - j.2) < acc.1 then (geo.norm4 (ci - j.2), some j.1) else acc) acc =
          (geo.norm4 (ci - j.2), some j.1) ∧ geo.norm4 (ci - j.2) < acc.1) := by
  induction l generalizing acc with
  | nil => exact ⟨fun j hj => absurd hj (List.not_mem_nil _), le_refl _, Or.inl ⟨rfl, fun j hj => absurd hj (List.not_mem_nil _)⟩⟩
  | cons j rest ih =>
    rw [List.foldl_cons]
    by_cases hlt : geo.norm4 (ci - j.2) < acc.1
    · rw [if_pos hlt]
      obtain ⟨h1, h2, h3⟩ := ih (geo.norm4 (ci - j.2), some j.1)
      refine ⟨?_, le_trans h2 (le_of_lt hlt), ?_⟩
      · intro j' hj'
        rcases List.mem_cons.1 hj' with rfl | hj'
        · exact h2
        · exact h1 j' hj'
      · rcases h3 with ⟨heq, _⟩ | ⟨j', hj', heq, hlt'⟩
        · exact Or.inr ⟨j, List.mem_cons_self _ _, heq, hlt⟩
        · exact Or.inr ⟨j', List.mem_cons_of_mem _ hj', heq, lt_trans hlt' hlt⟩
    · rw [if_neg hlt]
      obtain ⟨h1, h2, h3⟩ := ih acc
      refine ⟨?_, h2, ?_⟩
      · intro j' hj'
        rcases List.mem_cons.1 hj' with rfl | hj'
        · exact le_trans h2 (not_lt.1 hlt)
        · exact h1 j' hj'
      · rcases h3 with ⟨heq, hno⟩ | ⟨j', hj', heq, hlt'⟩
        · refine Or.inl ⟨heq, ?_⟩
          intro j' hj'
          rcases List.mem_cons.1 hj' with rfl | hj'
          · exact hlt
          · exact hno j' hj'
        · exact Or.inr ⟨j', List.mem_cons_of_mem _ hj', heq, hlt'⟩

/-- The closest target link: a target link at minimal distance when one lies below
`DBL_MAX`, and `(DBL_MAX, NULL)` otherwise. -/
theorem closestLink_spec (geo : Geometry) (ci : Vec4d) (ct : List (Link × Vec4d)) :
    ((∃ j ∈ ct, geo.norm4 (ci - j.2) < DBL_MAX) →
      ∃ j ∈ ct, (closestLink geo ci ct).2 = some j.1 ∧
        (closestLink geo ci ct).1 = geo.norm4 (ci - j.2) ∧
        ∀ j' ∈ ct, (closestLink geo ci ct).1 ≤ geo.norm4 (ci - j'.2)) ∧
    ((∀ j ∈ ct, ¬ geo.norm4 (ci - j.2) < DBL_MAX) →
      (closestLink geo ci ct).2 = none ∧ (closestLink geo ci ct).1 = DBL_MAX) := by
  obtain ⟨h1, _, h3⟩ := closestLink_fold geo ci ct (DBL_MAX, none)
  have hdef : closestLink geo ci ct = ct.foldl (fun acc j =>
      if geo.norm4 (ci - j.2) < acc.1 then (geo.norm4 (ci - j.2), some j.1) else acc)
      (DBL_MAX, none) := rfl
  rw [hdef]
  refine ⟨?_, ?_⟩
  · rintro ⟨j0, hj0, hlt0⟩
    rcases h3 with ⟨_, hno⟩ | ⟨j, hj, heq, _⟩
    · exact absurd hlt0 (hno j0 hj0)
    · refine ⟨j, hj, by rw [heq], by rw [heq], h1⟩
  · intro hno
    rcases h3 with ⟨heq, _⟩ | ⟨j, hj, _, hlt⟩
    · rw [heq]
      exact ⟨rfl, rfl⟩
    · exact absurd hlt (hno j hj)

theorem mem_sortQMapByValue (dists : List (QPairLink × WithTop ℚ)) (sp : ScalarLinksPair) :
    sp ∈ sortQMapByValue dists ↔ ((sp.2, sp.1) : QPairLink × WithTop ℚ) ∈ dists := by
  unfold sortQMapByValue
  rw [(List.perm_insertionSort _ _).mem_iff, List.mem_map]
  constructor
  · rintro ⟨kv, hkv, rfl⟩
    exact hkv
  · intro h
    exact ⟨_, h, rfl⟩

/-- Every entry of the sorted list comes from a link of the active node with its
closest target link. -/
theorem mem_badCorrespondence (geo : Geometry) (g1 g2 : Graph) (id tid : String)
    (sp : ScalarLinksPair) (h : sp ∈ (badCorrespondence geo g1 g2 id tid).1) :
    ∃ i ∈ g1.linksCoords id, sp.2.1 = i.1 ∧
      sp.2.2 = (closestLink geo i.2 (g2.linksCoords tid)).2 ∧
      sp.1 = (closestLink geo i.2 (g2.linksCoords tid)).1 := by
  unfold badCorrespondence at h
  simp only at h
  rw [mem_sortQMapByValue] at h
  unfold pairDists at h
  obtain ⟨i, hi, heq⟩ := List.mem_map.1 h
  simp only [Prod.mk.injEq] at heq
  obtain ⟨h1, h2⟩ := heq
  exact ⟨i, hi, by rw [← h1], by rw [← h1], h2.symm⟩

/-- Where `norm()` overflows the running minimum keeps `NULL`: every distance from the
link `A - B` of `farSource`, at the coordinate `2^600`, to a link of `T1` is computed
as `+inf`, and the entry has the `NULL` target link and the distance `DBL_MAX`,
although `T1` has two links. -/
theorem badCorrespondence_overflow :
    (originTarget.linksCoords "T1").length = 2 ∧
    (badCorrespondence axisGeometry farSource originTarget "A" "T1").1 =
      [(((DBL_MAX : ℚ) : WithTop ℚ), (link "A" "B" (2 ^ 600), none))] := by
  decide!

/-! ## C14: the list returned by `badCorrespondence` -/

theorem nodeIndex_of_original (g : DynamicGraph) (id : String)
    (h : id ∈ g.nodes.map (fun n => n.original)) :
    ∃ o, g.nodeIndex (fun n => n.original = id) = some o := by
  obtain ⟨n, hn, hid⟩ := List.mem_map.1 h
  exact nodeIndex_of_mem hn (by simp [hid])

theorem linksCoords_mem (g : Graph) (id : String) (i : Link × Vec4d)
    (h : i ∈ g.linksCoords id) : i.1 ∈ g.edges := by
  unfold Graph.linksCoords at h
  obtain ⟨l, hl, rfl⟩ := List.mem_map.1 h
  exact (List.mem_filter.1 hl).1

theorem otherNode_mem (g : Graph) (hwf : g.linksClosed) (l : Link) (hl : l ∈ g.edges)
    (id : String) : l.otherNode id ∈ g.nodes.map (fun n => n.id) := by
  unfold Link.otherNode
  split
  · exact (hwf l hl).2
  · exact (hwf l hl).1

/-- C20, the code at the failing input: in the run on `kiteSource` and `kiteTarget`
the node `A` is `DONE` with `correspond` `T1` after the first iteration; the second
iteration, over-linked on `B`, keeps the link `B - A`, does not promote `A`, and
still assigns `correspond`: `A` is `DONE` with `correspond` `T3` after it. -/
theorem stage1Body_overwrites_done_correspond :
    bestPartialCorrespondence axisGeometry kiteSource kiteTarget = .ok kiteInitial ∧
    stage1Body axisGeometry kiteSource kiteTarget ⟨kiteInitial, [], 0⟩ = .ok kiteAfterFirst ∧
    kiteAfterFirst.active.nodes[0]? = some ⟨some State.DONE, "A", some "T1"⟩ ∧
    stage1Guard (DynamicGraph.ofGraph kiteTarget) kiteAfterFirst = true ∧
    (kiteTarget.linksCoords "T2").length < (kiteSource.linksCoords "B").length ∧
    stage1Body axisGeometry kiteSource kiteTarget kiteAfterFirst = .ok kiteAfterSecond ∧
    kiteAfterSecond.active.nodes[0]? = some ⟨some State.DONE, "A", some "T3"⟩ := by
  decide!

/-! ## C16: the node reconnected by a stage 2 attempt -/

theorem DistMap.item_of_set (k : Scalar) (v : Nat × Vec4d) (m : DistMap) (x : Scalar × (Nat × Vec4d))
    (h : x ∈ DistMap.set k v m) : x = (k, v) ∨ x ∈ m := by
  induction m with
  | nil => simpa [DistMap.set] using h
  | cons y rest ih =>
    unfold DistMap.set at h
    split at h
    · simpa using h
    · split at h
      · rcases List.mem_cons.1 h with h | h
        · exact Or.inl h
        · exact Or.inr (List.mem_cons_of_mem _ h)
      · rcases List.mem_cons.1 h with h | h
        · exact Or.inr (h ▸ List.mem_cons_self _ _)
        · rcases ih h with h | h
          · exact Or.inl h
          · exact Or.inr (List.mem_cons_of_mem _ h)

theorem DistMap.key_set_self (k : Scalar) (v : Nat × Vec4d) (m : DistMap) :
    k ∈ (DistMap.set k v m).map Prod.fst := by
  induction m with
  | nil => simp [DistMap.set]
  | cons y rest ih =>
    unfold DistMap.set
    split
    · simp
    · split
      · simp
      · simp only [List.map_cons, List.mem_cons]
        exact Or.inr ih

theorem DistMap.key_set_of_key (k : Scalar) (v : Nat × Vec4d) (m : DistMap) (x : Scalar)
    (h : x ∈ m.map Prod.fst) : x ∈ (DistMap.set k v m).map Prod.fst := by
  induction m with
  | nil => simp at h
  | cons y rest ih =>
    unfold DistMap.set
    split
    · simp only [List.map_cons, List.mem_cons] at h ⊢
      exact Or.inr h
    · split
      · rename_i hk
        simp only [List.map_cons, List.mem_cons] at h ⊢
        rcases h with h | h
        · exact Or.inl (h.trans hk.symm)
        · exact Or.inr h
      · simp only [List.map_cons, List.mem_cons] at h ⊢
        rcases h with h | h
        · exact Or.inl h
        · exact Or.inr (ih h)

theorem DistMap.set_sorted (k : Scalar) (v : Nat × Vec4d) (m : DistMap)
    (h : m.Pairwise (fun a b => a.1 < b.1)) :
    (DistMap.set k v m).Pairwise (fun a b => a.1 < b.1) := by
  induction m with
  | nil => simp [DistMap.set]
  | cons y rest ih =>
    rw [List.pairwise_cons] at h
    unfold DistMap.set
    split
    · rename_i hk
      rw [List.pairwise_cons]
      refine ⟨?_, List.pairwise_cons.2 h⟩
      intro b hb
      rcases List.mem_cons.1 hb with hb | hb
      · rw [hb]; exact hk
      · exact lt_trans hk (h.1 b hb)
    · split
      · rename_i _ hk
        rw [List.pairwise_cons]
        refine ⟨?_, h.2⟩
        intro b hb
        have := h.1 b hb
        rw [← hk] at this
        exact this
      · rename_i h1 h2
        have hlt : y.1 < k := lt_of_le_of_ne (not_lt.1 h1) (fun e => h2 e.symm)
        rw [List.pairwise_cons]
        refine ⟨?_, ih h.2⟩
        intro b hb
        rcases DistMap.item_of_set k v rest b hb with hb | hb
        · rw [hb]; exact hlt
        · exact h.1 b hb

/-- What `rankExtremities` returns: an ascending map whose items are extremities of
listed nodes and whose keys hold the distance of every extremity of every listed node. -/
theorem rankExtremities_spec (geo : Geometry) (g1 : Graph) (active : DynamicGraph)
    (pos : Vector3) (l : List Nat) (init dists : DistMap)
    (hs : init.Pairwise (fun a b => a.1 < b.1))
    (h : rankExtremities geo g1 active pos l init = .ok dists) :
    dists.Pairwise (fun a b => a.1 < b.1) ∧
    (∀ x ∈ init.map Prod.fst, x ∈ dists.map Prod.fst) ∧
    (∀ e ∈ dists, e ∈ init ∨ ∃ nd n, e.2.1 ∈ l ∧ active.nodes[e.2.1]? = some nd ∧
      g1.getNode nd.original = some n ∧
      ((e.1 = geo.distanceTo pos (geo.position n.id n.minCoord) ∧ e.2.2 = n.minCoord) ∨
       (e.1 = geo.distanceTo pos (geo.position n.id n.maxCoord) ∧ e.2.2 = n.maxCoord))) ∧
    (∀ d ∈ l, ∀ nd n, active.nodes[d]? = some nd → g1.getNode nd.original = some n →
      geo.distanceTo pos (geo.position n.id n.minCoord) ∈ dists.map Prod.fst ∧
      geo.distanceTo pos (geo.position n.id n.maxCoord) ∈ dists.map Prod.fst) := by
  induction l generalizing init with
  | nil =>
    simp only [rankExtremities, Except.ok.injEq] at h
    subst h
    exact ⟨hs, fun x hx => hx, fun e he => Or.inl he, fun d hd => by cases hd⟩
  | cons d rest ih =>
    unfold rankExtremities at h
    split at h
    · cases h
    · rename_i nd hnd
      split at h
      · cases h
      · rename_i n hn
        simp only at h
        obtain ⟨h1, h2, h3, h4⟩ := ih _
          (DistMap.set_sorted _ _ _ (DistMap.set_sorted _ _ _ hs)) h
        refine ⟨h1, ?_, ?_, ?_⟩
        · intro x hx
          exact h2 x (DistMap.key_set_of_key _ _ _ x (DistMap.key_set_of_key _ _ _ x hx))
        · intro e he
          rcases h3 e he with h3 | ⟨nd', n', hmem, hnd', hn', hd⟩
          · rcases DistMap.item_of_set _ _ _ e h3 with h3 | h3
            · right
              refine ⟨nd, n, ?_, ?_, hn, Or.inr ?_⟩
              · rw [h3]; exact List.mem_cons_self _ _
              · rw [h3]; exact hnd
              · rw [h3]; exact ⟨rfl, rfl⟩
            · rcases DistMap.item_of_set _ _ _ e h3 with h3 | h3
              · right
                refine ⟨nd, n, ?_, ?_, hn, Or.inl ?_⟩
                · rw [h3]; exact List.mem_cons_self _ _
                · rw [h3]; exact hnd
                · rw [h3]; exact ⟨rfl, rfl⟩
              · exact Or.inl h3
          · exact Or.inr ⟨nd', n', List.mem_cons_of_mem _ hmem, hnd', hn', hd⟩
        · intro d' hd' nd' n' hnd' hn'
          rcases List.mem_cons.1 hd' with hd' | hd'
          · subst hd'
            rw [hnd] at hnd'
            injection hnd' with hnd'
            subst hnd'
            rw [hn] at hn'
            injection hn' with hn'
            subst hn'
            constructor
            · exact h2 _ (DistMap.key_set_of_key _ _ _ _ (DistMap.key_set_self _ _ _))
            · exact h2 _ (DistMap.key_set_self _ _ _)
          · exact h4 d' hd' nd' n' hnd' hn'

theorem mem_nodesWith {g : DynamicGraph} {st : State} {d : Nat}
    (h : d ∈ g.nodesWith st) : ∃ n, g.nodes[d]? = some n ∧ n.state = st := by
  unfold DynamicGraph.nodesWith at h
  rw [List.mem_filter] at h
  obtain ⟨_, h⟩ := h
  split at h
  · rename_i n hn
    exact ⟨n, hn, by simpa using h⟩
  · cases h

theorem sorted_head_le (m : DistMap) (c : Scalar × (Nat × Vec4d))
    (hs : m.Pairwise (fun a b => a.1 < b.1)) (hc : m.head? = some c) :
    ∀ x ∈ m.map Prod.fst, c.1 ≤ x := by
  cases m with
  | nil => cases hc
  | cons y rest =>
    simp only [List.head?_cons, Option.some.injEq] at hc
    subst hc
    rw [List.pairwise_cons] at hs
    intro x hx
    simp only [List.map_cons, List.mem_cons, List.mem_map] at hx
    rcases hx with hx | ⟨b, hb, hx⟩
    · rw [hx]
    · rw [← hx]; exact le_of_lt (hs.1 b hb)

theorem nodesWith_of {g : DynamicGraph} {st : State} {d : Nat} {n : SimpleNode}
    (hn : g.nodes[d]? = some n) (hst : n.state = st) : d ∈ g.nodesWith st := by
  unfold DynamicGraph.nodesWith
  rw [List.mem_filter]
  refine ⟨List.mem_range.2 ?_, ?_⟩
  · by_contra hlt
    rw [List.getElem?_eq_none (not_lt.1 hlt)] at hn
    cases hn
  · rw [hn]
    simpa using hst

/-- What a reconnection of stage 2 does: the picked node is a `DISCONNECTED` node with
an extremity closest to the link position, it becomes `ACTIVE` with the missing target
neighbour as `correspond`, one edge is added and one deficit counter is decremented. -/
theorem reconnectStep_spec (geo : Geometry) (g1 g2 : Graph) (target : DynamicGraph)
    (index n_target_idx : Nat) (ke : Nat × SimpleEdge) (s s' : BlendState)
    (h : reconnectStep geo g1 g2 target index n_target_idx ke s = .ok (some s')) :
    ∃ (n_active n_target n_targetOther : SimpleNode) (link : Link) (closestIdx : Nat)
      (closest : SimpleNode) (n : Node) (k : Scalar),
      s.active.nodes[index]? = some n_active ∧
      target.nodes[n_target_idx]? = some n_target ∧
      target.nodes[ke.2.otherNode n_target_idx]? = some n_targetOther ∧
      g2.getOriginalLink n_target.original n_targetOther.original = some link ∧
      s.active.nodes[closestIdx]? = some closest ∧
      closest.state = some State.DISCONNECTED ∧
      g1.getNode closest.original = some n ∧
      (k = geo.distanceTo (geo.position n_active.original (link.getCoord n_target.original))
            (geo.position n.id n.minCoord) ∨
       k = geo.distanceTo (geo.position n_active.original (link.getCoord n_target.original))
            (geo.position n.id n.maxCoord)) ∧
      (∀ (d : Nat) (nd : SimpleNode) (m : Node), s.active.nodes[d]? = some nd →
        nd.state = some State.DISCONNECTED → g1.getNode nd.original = some m →
        k ≤ geo.distanceTo (geo.position n_active.original (link.getCoord n_target.original))
            (geo.position m.id m.minCoord) ∧
        k ≤ geo.distanceTo (geo.position n_active.original (link.getCoord n_target.original))
            (geo.position m.id m.maxCoord)) ∧
      s'.active.nodes[closestIdx]? =
        some ⟨some State.ACTIVE, closest.original, some n_targetOther.original⟩ ∧
      (∀ j, j ≠ closestIdx → s'.active.nodes[j]? = s.active.nodes[j]?) ∧
      s'.active.edges = s.active.edges ++ [⟨index, closestIdx⟩] ∧
      s'.active.hasEdge index closestIdx = true ∧
      s'.needLink.get index = s.needLink.get index - 1 ∧
      (∀ j, j ≠ index → s'.needLink.get j = s.needLink.get j) := by
  unfold reconnectStep at h
  split at h
  · rename_i n_active n_target n_targetOther hna hnt hnto
    split at h
    · cases h
    · rename_i link hlink
      simp only at h
      split at h
      · cases h
      · split at h
        · cases h
        · rename_i dists hd
          split at h
          · cases h
          · rename_i c hc
            simp only [Except.ok.injEq, Option.some.injEq] at h
            obtain ⟨hsort, _, hitems, hkeys⟩ := rankExtremities_spec geo g1 s.active _ _ [] dists
              List.Pairwise.nil hd
            have hcmem : c ∈ dists := by
              cases dists with
              | nil => cases hc
              | cons y rest =>
                simp only [List.head?_cons, Option.some.injEq] at hc
                subst hc
                exact List.mem_cons_self _ _
            rcases hitems c hcmem with hnil | ⟨nd, n, hmem, hnd, hn, hk⟩
            · cases hnil
            obtain ⟨nd', hnd', hst⟩ := mem_nodesWith hmem
            rw [hnd] at hnd'
            injection hnd' with hnd'
            subst hnd'
            refine ⟨n_active, n_target, n_targetOther, link, c.2.1, nd, n, c.1, hna, hnt, hnto,
              hlink, hnd, hst, hn, ?_, ?_, ?_, ?_, ?_, ?_, ?_, ?_⟩
            · rcases hk with hk | hk
              · exact Or.inl hk.1
              · exact Or.inr hk.1
            · intro d nd2 m hnd2 hst2 hm
              obtain ⟨k1, k2⟩ := hkeys d (nodesWith_of hnd2 hst2) nd2 m hnd2 hm
              exact ⟨sorted_head_le dists c hsort hc _ k1, sorted_head_le dists c hsort hc _ k2⟩
            · rw [← h]
              simp only [DynamicGraph.addEdge]
              unfold DynamicGraph.setState DynamicGraph.setCorrespond
              rw [DynamicGraph.modifyNode_modifyNode, DynamicGraph.modifyNode_getElem?]
              simp [hnd]
            · intro j hj
              rw [← h]
              simp only [DynamicGraph.addEdge]
              unfold DynamicGraph.setState DynamicGraph.setCorrespond
              rw [DynamicGraph.modifyNode_modifyNode, DynamicGraph.modifyNode_getElem?,
                if_neg (Ne.symm hj)]
            · rw [← h]
              simp only [DynamicGraph.addEdge]
              unfold DynamicGraph.setState DynamicGraph.setCorrespond
              rw [DynamicGraph.modifyNode_modifyNode, DynamicGraph.modifyNode_edges]
            · rw [← h]
              simp [DynamicGraph.addEdge, DynamicGraph.hasEdge, SimpleEdge.joins]
            · rw [← h]
              exact IntMap.get_set_self _ _ _
            · intro j hj
              rw [← h]
              exact IntMap.get_set_ne _ _ _ _ hj
  · cases h

/-- C16: a stage 2 attempt that reconnects a node (it is made while some node is
`DISCONNECTED`) picks a `DISCONNECTED` node `closestIdx` one of whose two extremities
has a distance `k` to the link position that is at most the distance of every
extremity of every `DISCONNECTED` node; afterwards that node is `ACTIVE` with
`correspond` the identifier of the missing target neighbour, the edge
`index - closestIdx` has been added, no other node changed, and the deficit of
`index` is one less while the other deficits are unchanged. -/
theorem reconnectStep_closest (geo : Geometry) (g1 g2 : Graph) (target : DynamicGraph)
    (index n_target_idx : Nat) (ke : Nat × SimpleEdge) (s s' : BlendState)
    (h : reconnectStep geo g1 g2 target index n_target_idx ke s = .ok (some s')) :
    ∃ (n_active n_target n_targetOther : SimpleNode) (link : Link) (closestIdx : Nat)
      (closest : SimpleNode) (n : Node) (k : Scalar),
      s.active.nodes[index]? = some n_active ∧
      target.nodes[n_target_idx]? = some n_target ∧
      target.nodes[ke.2.otherNode n_target_idx]? = some n_targetOther ∧
      g2.getOriginalLink n_target.original n_targetOther.original = some link ∧
      s.active.nodes[closestIdx]? = some closest ∧
      closest.state = some State.DISCONNECTED ∧
      g1.getNode closest.original = some n ∧
      (k = geo.distanceTo (geo.position n_active.original (link.getCoord n_target.original))
            (geo.position n.id n.minCoord) ∨
       k = geo.distanceTo (geo.position n_active.original (link.getCoord n_target.original))
            (geo.position n.id n.maxCoord)) ∧
      (∀ (d : Nat) (nd : SimpleNode) (m : Node), s.active.nodes[d]? = some nd →
        nd.state = some State.DISCONNECTED → g1.getNode nd.original = some m →
        k ≤ geo.distanceTo (geo.position n_active.original (link.getCoord n_target.original))
            (geo.position m.id m.minCoord) ∧
        k ≤ geo.distanceTo (geo.position n_active.original (link.getCoord n_target.original))
            (geo.position m.id m.maxCoord)) ∧
      s'.active.nodes[closestIdx]? =
        some ⟨some State.ACTIVE, closest.original, some n_targetOther.original⟩ ∧
      (∀ j, j ≠ closestIdx → s'.active.nodes[j]? = s.active.nodes[j]?) ∧
      s'.active.edges = s.active.edges ++ [⟨index, closestIdx⟩] ∧
      s'.active.hasEdge index closestIdx = true ∧
      s'.needLink.get index = s.needLink.get index - 1 ∧
      (∀ j, j ≠ index → s'.needLink.get j = s.needLink.get j) :=
  reconnectStep_spec geo g1 g2 target index n_target_idx ke s s' h

/-- C16, witness: the first reconnection of stage 2 in the run on `spokeSource` and
`ringTarget`, for the deficit node `B` and its missing target link `T2 - T4`; of the
two `DISCONNECTED` nodes `D` (extremities at distance 6 and 7) and `E` (1 and 2) the
node `E` is reconnected. -/
theorem reconnectStep_closest_witness :
    ∃ (n_active n_target n_targetOther : SimpleNode) (link : Link) (closestIdx : Nat)
      (closest : SimpleNode) (n : Node) (k : Scalar),
      spokeAfterStage1.active.nodes[1]? = some n_active ∧
      (DynamicGraph.ofGraph ringTarget).nodes[1]? = some n_target ∧
      (DynamicGraph.ofGraph ringTarget).nodes[(⟨1, 3⟩ : SimpleEdge).otherNode 1]? =
        some n_targetOther ∧
      ringTarget.getOriginalLink n_target.original n_targetOther.original = some link ∧
      spokeAfterStage1.active.nodes[closestIdx]? = some closest ∧
      closest.state = some State.DISCONNECTED ∧
      spokeSource.getNode closest.original = some n ∧
      (k = axisGeometry.distanceTo
            (axisGeometry.position n_active.original (link.getCoord n_target.original))
            (axisGeometry.position n.id n.minCoord) ∨
       k = axisGeometry.distanceTo
            (axisGeometry.position n_active.original (link.getCoord n_target.original))
            (axisGeometry.position n.id n.maxCoord)) ∧
      (∀ (d : Nat) (nd : SimpleNode) (m : Node), spokeAfterStage1.active.nodes[d]? = some nd →
        nd.state = some State.DISCONNECTED → spokeSource.getNode nd.original = some m →
        k ≤ axisGeometry.distanceTo
            (axisGeometry.position n_active.original (link.getCoord n_target.original))
            (axisGeometry.position m.id m.minCoord) ∧
        k ≤ axisGeometry.distanceTo
            (axisGeometry.position n_active.original (link.getCoord n_target.original))
            (axisGeometry.position m.id m.maxCoord)) ∧
      spokeAfterRepair.active.nodes[closestIdx]? =
        some ⟨some State.ACTIVE, closest.original, some n_targetOther.original⟩ ∧
      (∀ j, j ≠ closestIdx →
        spokeAfterRepair.active.nodes[j]? = spokeAfterStage1.active.nodes[j]?) ∧
      spokeAfterRepair.active.edges = spokeAfterStage1.active.edges ++ [⟨1, closestIdx⟩] ∧
      spokeAfterRepair.active.hasEdge 1 closestIdx = true ∧
      spokeAfterRepair.needLink.get 1 = spokeAfterStage1.needLink.get 1 - 1 ∧
      (∀ j, j ≠ 1 → spokeAfterRepair.needLink.get j = spokeAfterStage1.needLink.get j) :=
  reconnectStep_closest axisGeometry spokeSource ringTarget (DynamicGraph.ofGraph ringTarget)
    1 1 (2, ⟨1, 3⟩) spokeAfterStage1 spokeAfterRepair (by decide!)

/-! ## C18: the sign of the deficit counters -/

/-- C18, counterexample: in the run on `spokeSource` and `ringTarget` stage 1 records
deficits for the nodes 1 and 2 only, and stage 3 decrements the counters of the nodes
3 and 4, which have none, to -1; in the run on `combSource` and `fanTarget` stage 1
records the deficit 1 for node 0 and stage 2 reconnects two nodes to it, leaving its
counter at -1. -/
theorem blend_deficit_negative :
    (bestPartialCorrespondence axisGeometry spokeSource ringTarget = .ok spokeInitial ∧
      stage1 axisGeometry spokeSource ringTarget (DynamicGraph.ofGraph ringTarget) 10
        ⟨spokeInitial, [], 0⟩ = .ok spokeAfterStage1 ∧
      spokeAfterStage1.needLink = [(1, 1), (2, 1)] ∧
      stage2 axisGeometry spokeSource ringTarget (DynamicGraph.ofGraph ringTarget)
        (spokeAfterStage1.needLink.map Prod.fst) spokeAfterStage1 = .ok spokeAfterStage2 ∧
      stage3 (DynamicGraph.ofGraph ringTarget) 10 spokeAfterStage2 = .ok spokeAfterStage3 ∧
      blend axisGeometry spokeSource ringTarget 10 = .ok spokeFinal ∧
      spokeFinal.needLink.get 3 = -1 ∧ spokeFinal.needLink.get 4 = -1) ∧
    (bestPartialCorrespondence axisGeometry combSource fanTarget = .ok combInitial ∧
      stage1 axisGeometry combSource fanTarget (DynamicGraph.ofGraph fanTarget) 10
        ⟨combInitial, [], 0⟩ = .ok combAfterStage1 ∧
      combAfterStage1.needLink.get 0 = 1 ∧
      stage2 axisGeometry combSource fanTarget (DynamicGraph.ofGraph fanTarget)
        (combAfterStage1.needLink.map Prod.fst) combAfterStage1 = .ok combAfterStage2 ∧
      combAfterStage2.needLink.get 0 = -1) := by
  decide!

theorem stage1Body_deficits_positive (geo : Geometry) (g1 g2 : Graph) (s s' : BlendState)
    (hpos : ∀ kv ∈ s.needLink, 0 < kv.2) (h : stage1Body geo g1 g2 s = .ok s') :
    ∀ kv ∈ s'.needLink, 0 < kv.2 := by
  unfold stage1Body at h
  split at h
  · simp only [Except.ok.injEq] at h
    subst h
    exact hpos
  · simp only at h
    split at h
    · cases h
    · split at h
      · cases h
      · rename_i s1 hrec
        simp only [Except.ok.injEq] at h
        subst h
        simp only
        rcases reconcile_needLink _ _ _ _ _ _ _ hrec with h1 | ⟨hneg, h1⟩
        · rw [h1]; exact hpos
        · rw [h1]
          intro kv hkv
          rcases IntMap.mem_set _ _ _ kv hkv with hkv | hkv
          · rw [hkv]
            exact abs_pos.2 (ne_of_lt hneg)
          · exact hpos kv hkv

theorem stage1_deficits_positive (geo : Geometry) (g1 g2 : Graph) (target : DynamicGraph)
    (fuel : Nat) (s s' : BlendState) (hpos : ∀ kv ∈ s.needLink, 0 < kv.2)
    (h : stage1 geo g1 g2 target fuel s = .ok s') : ∀ kv ∈ s'.needLink, 0 < kv.2 := by
  induction fuel generalizing s with
  | zero =>
    unfold stage1 at h
    split at h
    · cases h
    · simp only [Except.ok.injEq] at h
      exact h ▸ hpos
  | succ fuel ih =>
    unfold stage1 at h
    split at h
    · split at h
      · cases h
      · rename_i s1 hb
        exact ih s1 (stage1Body_deficits_positive geo g1 g2 s s1 hpos hb) h
    · simp only [Except.ok.injEq] at h
      exact h ▸ hpos

theorem reconnect_keys (geo : Geometry) (g1 g2 : Graph) (target : DynamicGraph)
    (index t : Nat) (l : List (Nat × SimpleEdge)) (s s' : BlendState)
    (hidx : index ∈ s.needLink.map Prod.fst)
    (h : reconnect geo g1 g2 target index t l s = .ok s') :
    ∀ k, k ∈ s'.needLink.map Prod.fst ↔ k ∈ s.needLink.map Prod.fst := by
  induction l generalizing s with
  | nil =>
    simp only [reconnect, Except.ok.injEq] at h
    subst h
    exact fun k => Iff.rfl
  | cons ke rest ih =>
    unfold reconnect at h
    split at h
    · cases h
    · simp only [Except.ok.injEq] at h
      subst h
      exact fun k => Iff.rfl
    · rename_i s1 hstep
      obtain ⟨_, _, _, hneed, _⟩ := reconnectStep_ok geo g1 g2 target index t ke s s1 hstep
      have hkeys : ∀ k, k ∈ s1.needLink.map Prod.fst ↔ k ∈ s.needLink.map Prod.fst := by
        intro k
        rw [hneed]
        constructor
        · intro hk
          obtain ⟨kv, hkv, rfl⟩ := List.mem_map.1 hk
          rcases IntMap.mem_set _ _ _ kv hkv with hkv | hkv
          · rw [hkv]; exact hidx
          · exact List.mem_map_of_mem _ hkv
        · exact IntMap.keys_set _ _ _ k
      intro k
      rw [ih s1 ((hkeys index).2 hidx) h k]
      exact hkeys k

theorem repairNode_keys (geo : Geometry) (g1 g2 : Graph) (target : DynamicGraph)
    (index : Nat) (s s' : BlendState) (hidx : index ∈ s.needLink.map Prod.fst)
    (h : repairNode geo g1 g2 target index s = .ok s') :
    ∀ k, k ∈ s'.needLink.map Prod.fst ↔ k ∈ s.needLink.map Prod.fst := by
  unfold repairNode at h
  split at h
  · cases h
  · split at h
    · cases h
    · split at h
      · cases h
      · exact reconnect_keys geo g1 g2 target index _ _ s s' hidx h

theorem stage2_keys (geo : Geometry) (g1 g2 : Graph) (target : DynamicGraph)
    (keys : List Nat) (s s' : BlendState) (hkeys : ∀ x ∈ keys, x ∈ s.needLink.map Prod.fst)
    (h : stage2 geo g1 g2 target keys s = .ok s') :
    ∀ k, k ∈ s'.needLink.map Prod.fst ↔ k ∈ s.needLink.map Prod.fst := by
  induction keys generalizing s with
  | nil =>
    simp only [stage2, Except.ok.injEq] at h
    subst h
    exact fun k => Iff.rfl
  | cons index rest ih =>
    unfold stage2 at h
    split at h
    · cases h
    · rename_i s1 hrep
      have h1 := repairNode_keys geo g1 g2 target index s s1
        (hkeys index (List.mem_cons_self _ _)) hrep
      intro k
      rw [ih s1 (fun x hx => (h1 x).2 (hkeys x (List.mem_cons_of_mem _ hx))) h k]
      exact h1 k

/-- C18, amended: stage 1 keeps every recorded deficit greater than 0 (each iteration
does, so every deficit is greater than 0 when stage 1 returns), and stage 2 changes
the deficit counter only of nodes that had a deficit recorded in stage 1: the nodes
with a counter are the same before and after it. -/
theorem deficits_recorded_positive (geo : Geometry) (g1 g2 : Graph) (fuel : Nat)
    (active : DynamicGraph) (s1 s2 : BlendState)
    (h1 : stage1 geo g1 g2 (DynamicGraph.ofGraph g2) fuel ⟨active, [], 0⟩ = .ok s1)
    (h2 : stage2 geo g1 g2 (DynamicGraph.ofGraph g2) (s1.needLink.map Prod.fst) s1 = .ok s2) :
    (∀ s s', (∀ kv ∈ s.needLink, 0 < kv.2) → stage1Body geo g1 g2 s = .ok s' →
      ∀ kv ∈ s'.needLink, 0 < kv.2) ∧
    (∀ kv ∈ s1.needLink, 0 < kv.2) ∧
    (∀ k, k ∈ s2.needLink.map Prod.fst ↔ k ∈ s1.needLink.map Prod.fst) := by
  refine ⟨stage1Body_deficits_positive geo g1 g2, ?_, ?_⟩
  · exact stage1_deficits_positive geo g1 g2 _ fuel _ s1 (fun kv hkv => by cases hkv) h1
  · exact stage2_keys geo g1 g2 _ _ s1 s2 (fun x hx => hx) h2

/-- C18, witness: the run on `spokeSource` and `ringTarget`, where stage 1 records the
deficit 1 for the nodes 1 and 2 and stage 2 reconnects one node to each. -/
theorem deficits_recorded_positive_witness :
    (∀ s s', (∀ kv ∈ s.needLink, 0 < kv.2) →
      stage1Body axisGeometry spokeSource ringTarget s = .ok s' →
      ∀ kv ∈ s'.needLink, 0 < kv.2) ∧
    (∀ kv ∈ spokeAfterStage1.needLink, 0 < kv.2) ∧
    (∀ k, k ∈ spokeAfterStage2.needLink.map Prod.fst ↔
      k ∈ spokeAfterStage1.needLink.map Prod.fst) :=
  deficits_recorded_positive axisGeometry spokeSource ringTarget 10 spokeInitial
    spokeAfterStage1 spokeAfterStage2 (by decide!) (by decide!)

/-! ## Stage 2: a repair while no node is `DISCONNECTED` -/

theorem ofGraph_nodes (g : Graph) (i : Nat) :
    (DynamicGraph.ofGraph g).nodes[i]? =
      (g.nodes[i]?).map (fun n => (⟨none, n.id, none⟩ : SimpleNode)) := by
  simp [DynamicGraph.ofGraph]

/-- Every edge of the mirror of `g` comes from a link of `g` whose two parts sit at the
edge's two indices. -/
theorem ofGraph_edge (g : Graph) (e : SimpleEdge) (h : e ∈ (DynamicGraph.ofGraph g).edges) :
    ∃ l ∈ g.edges, ∃ na nb, g.nodes[e.n0]? = some na ∧ na.id = l.n1 ∧
      g.nodes[e.n1]? = some nb ∧ nb.id = l.n2 := by
  simp only [DynamicGraph.ofGraph] at h
  obtain ⟨l, hl, hf⟩ := List.mem_filterMap.1 h
  split at hf
  · rename_i a b ha hb
    simp only [Option.some.injEq] at hf
    subst hf
    obtain ⟨hlt1, hp1, _⟩ := List.findIdx?_eq_some_iff_getElem.1 ha
    obtain ⟨hlt2, hp2, _⟩ := List.findIdx?_eq_some_iff_getElem.1 hb
    refine ⟨l, hl, _, _, List.getElem?_eq_getElem hlt1, ?_, List.getElem?_eq_getElem hlt2, ?_⟩
    · simpa using hp1
    · simpa using hp2
  · cases hf

theorem mem_getEdges {g : DynamicGraph} {i : Nat} {ke : Nat × SimpleEdge}
    (h : ke ∈ g.getEdges i) : ke.2 ∈ g.edges ∧ ke.2.touches i = true := by
  unfold DynamicGraph.getEdges at h
  obtain ⟨h1, h2⟩ := List.mem_filter.1 h
  refine ⟨?_, h2⟩
  have h3 : (ke.1, ke.2) ∈ g.edges.enum := h1
  exact List.getElem?_mem (List.mk_mem_enum_iff_getElem?.1 h3)

theorem otherNode_cases (e : SimpleEdge) (i : Nat) :
    e.otherNode i = e.n0 ∨ e.otherNode i = e.n1 := by
  unfold SimpleEdge.otherNode
  split
  · exact Or.inr rfl
  · exact Or.inl rfl

theorem pruneMatched_total (target : DynamicGraph) (t : Nat) (ni : SimpleNode)
    (adj : List (Nat × SimpleEdge))
    (h : ∀ ke ∈ adj, ∃ nj, target.nodes[ke.2.otherNode t]? = some nj) :
    ∃ r, pruneMatched target t ni adj = .ok r ∧ ∀ ke ∈ r, ke ∈ adj := by
  induction adj with
  | nil => exact ⟨[], rfl, fun _ hk => hk⟩
  | cons ke rest ih =>
    obtain ⟨nj, hnj⟩ := h ke (List.mem_cons_self _ _)
    obtain ⟨r, hr, hsub⟩ := ih (fun x hx => h x (List.mem_cons_of_mem _ hx))
    unfold pruneMatched
    simp only [hnj, hr]
    split
    · exact ⟨r, rfl, fun x hx => List.mem_cons_of_mem _ (hsub x hx)⟩
    · refine ⟨ke :: r, rfl, ?_⟩
      intro x hx
      rcases List.mem_cons.1 hx with hx | hx
      · exact hx ▸ List.mem_cons_self _ _
      · exact List.mem_cons_of_mem _ (hsub x hx)

theorem missingEdges_total (active target : DynamicGraph) (index t : Nat)
    (act adj : List (Nat × SimpleEdge))
    (hact : ∀ ke ∈ act, ∃ ni, active.nodes[ke.2.otherNode index]? = some ni)
    (hadj : ∀ ke ∈ adj, ∃ nj, target.nodes[ke.2.otherNode t]? = some nj) :
    ∃ r, missingEdges active target index t act adj = .ok r ∧ ∀ ke ∈ r, ke ∈ adj := by
  induction act generalizing adj with
  | nil => exact ⟨adj, rfl, fun _ hk => hk⟩
  | cons ke rest ih =>
    obtain ⟨ni, hni⟩ := hact ke (List.mem_cons_self _ _)
    obtain ⟨r1, hr1, hsub1⟩ := pruneMatched_total target t ni adj hadj
    obtain ⟨r, hr, hsub⟩ := ih r1 (fun x hx => hact x (List.mem_cons_of_mem _ hx))
      (fun x hx => hadj x (hsub1 x hx))
    unfold missingEdges
    simp only [hni, hr1]
    exact ⟨r, hr, fun x hx => hsub1 x (hsub x hx)⟩

theorem nodesWith_nil {g : DynamicGraph} {st : State} (h : some st ∉ g.flags) :
    g.nodesWith st = [] := by
  rw [List.eq_nil_iff_forall_not_mem]
  intro d hd
  obtain ⟨n, hn, hst⟩ := mem_nodesWith hd
  apply h
  unfold DynamicGraph.flags
  exact List.mem_map.2 ⟨n, List.getElem?_mem hn, hst⟩

theorem IntMap.get_pos (m : IntMap) (k : Nat) (hk : k ∈ m.map Prod.fst)
    (hpos : ∀ kv ∈ m, 0 < kv.2) : 0 < m.get k := by
  unfold IntMap.get
  split
  · rename_i kv hkv
    exact hpos kv (List.mem_of_find?_eq_some hkv)
  · rename_i hnone
    obtain ⟨kv, hkv, rfl⟩ := List.mem_map.1 hk
    have := List.find?_eq_none.1 hnone kv hkv
    simp at this

/-- With no `DISCONNECTED` node a reconnection attempt for an edge of the target
counterpart takes the `break`. -/
theorem reconnectStep_break (geo : Geometry) (g1 g2 : Graph) (index t : Nat)
    (ke : Nat × SimpleEdge) (s : BlendState) (n_active n_target : SimpleNode)
    (hn : s.active.nodes[index]? = some n_active)
    (ht : (DynamicGraph.ofGraph g2).nodes[t]? = some n_target)
    (hke : ke ∈ (DynamicGraph.ofGraph g2).getEdges t)
    (hdis : some State.DISCONNECTED ∉ s.active.flags) :
    reconnectStep geo g1 g2 (DynamicGraph.ofGraph g2) index t ke s = .ok none := by
  obtain ⟨hmem, htouch⟩ := mem_getEdges hke
  obtain ⟨l, hl, na, nb, hna, hida, hnb, hidb⟩ := ofGraph_edge g2 ke.2 hmem
  rw [ofGraph_nodes] at ht
  have hlink : ∃ n_targetOther link,
      (DynamicGraph.ofGraph g2).nodes[ke.2.otherNode t]? = some n_targetOther ∧
      g2.getOriginalLink n_target.original n_targetOther.original = some link := by
    have hfind : ∀ a b : String, ((l.n1 = a ∧ l.n2 = b) ∨ (l.n1 = b ∧ l.n2 = a)) →
        ∃ link, g2.getOriginalLink a b = some link := by
      intro a b hab
      unfold Graph.getOriginalLink
      cases hf : g2.edges.find? (fun l => (l.n1 = a ∧ l.n2 = b) ∨ (l.n1 = b ∧ l.n2 = a)) with
      | some link => exact ⟨link, rfl⟩
      | none =>
        have := List.find?_eq_none.1 hf l hl
        simp only [decide_eq_true_eq] at this
        exact absurd hab this
    simp only [SimpleEdge.touches, Bool.or_eq_true, beq_iff_eq] at htouch
    unfold SimpleEdge.otherNode
    by_cases h0 : ke.2.n0 = t
    · rw [if_pos h0, ofGraph_nodes, hnb]
      rw [← h0, hna] at ht
      simp only [Option.map_some', Option.some.injEq] at ht
      subst ht
      obtain ⟨link, hlk⟩ := hfind na.id nb.id (Or.inl ⟨hida.symm, hidb.symm⟩)
      exact ⟨_, link, rfl, hlk⟩
    · rw [if_neg h0, ofGraph_nodes, hna]
      have h1 : ke.2.n1 = t := by
        rcases htouch with h | h
        · exact absurd h h0
        · exact h
      rw [← h1, hnb] at ht
      simp only [Option.map_some', Option.some.injEq] at ht
      subst ht
      obtain ⟨link, hlk⟩ := hfind nb.id na.id (Or.inr ⟨hida.symm, hidb.symm⟩)
      exact ⟨_, link, rfl, hlk⟩
  obtain ⟨n_targetOther, link, hnto, hlk⟩ := hlink
  have ht' : (DynamicGraph.ofGraph g2).nodes[t]? = some n_target := by
    rw [ofGraph_nodes]; exact ht
  unfold reconnectStep
  simp only [hn, ht', hnto, hlk, nodesWith_nil hdis, List.isEmpty_nil, if_true]

/-- With no `DISCONNECTED` node the repair of a deficit node returns the state
unchanged, when the node's `correspond` names a target node and the edges of the
working graph join nodes of the working graph. -/
theorem repairNode_unchanged (geo : Geometry) (g1 g2 : Graph) (index t : Nat)
    (s : BlendState) (n_active : SimpleNode)
    (hn : s.active.nodes[index]? = some n_active)
    (ht : (DynamicGraph.ofGraph g2).getNode n_active.strCorrespond = some t)
    (hedges : ∀ e ∈ s.active.edges,
      e.n0 < s.active.nodes.length ∧ e.n1 < s.active.nodes.length)
    (hdis : some State.DISCONNECTED ∉ s.active.flags) :
    repairNode geo g1 g2 (DynamicGraph.ofGraph g2) index s = .ok s := by
  obtain ⟨n_target, hnt, _⟩ := nodeIndex_some ht
  have hact : ∀ ke ∈ s.active.getEdges index,
      ∃ ni, s.active.nodes[ke.2.otherNode index]? = some ni := by
    intro ke hke
    obtain ⟨h1, h2⟩ := hedges ke.2 (mem_getEdges hke).1
    rcases otherNode_cases ke.2 index with h | h
    · rw [h]; exact ⟨_, List.getElem?_eq_getElem h1⟩
    · rw [h]; exact ⟨_, List.getElem?_eq_getElem h2⟩
  have hadj : ∀ ke ∈ (DynamicGraph.ofGraph g2).getEdges t,
      ∃ nj, (DynamicGraph.ofGraph g2).nodes[ke.2.otherNode t]? = some nj := by
    intro ke hke
    obtain ⟨l, _, na, nb, hna, _, hnb, _⟩ := ofGraph_edge g2 ke.2 (mem_getEdges hke).1
    rcases otherNode_cases ke.2 t with h | h
    · rw [h, ofGraph_nodes, hna]; exact ⟨_, rfl⟩
    · rw [h, ofGraph_nodes, hnb]; exact ⟨_, rfl⟩
  obtain ⟨adj, hadj1, hsub⟩ := missingEdges_total s.active (DynamicGraph.ofGraph g2) index t
    _ _ hact hadj
  unfold repairNode
  simp only [hn, ht, hadj1]
  cases adj with
  | nil => rfl
  | cons ke rest =>
    unfold reconnect
    rw [reconnectStep_break geo g1 g2 index t ke s n_active n_target hn hnt
      (hsub ke (List.mem_cons_self _ _)) hdis]

/-! ## C17: termination of stage 3 -/

theorem ofGraph_getEdges_valid (g : Graph) (t : Nat) :
    ∀ ke ∈ (DynamicGraph.ofGraph g).getEdges t,
      ∃ nj, (DynamicGraph.ofGraph g).nodes[ke.2.otherNode t]? = some nj := by
  intro ke hke
  obtain ⟨l, _, na, nb, hna, _, hnb, _⟩ := ofGraph_edge g ke.2 (mem_getEdges hke).1
  rcases otherNode_cases ke.2 t with h | h
  · rw [h, ofGraph_nodes, hna]; exact ⟨_, rfl⟩
  · rw [h, ofGraph_nodes, hnb]; exact ⟨_, rfl⟩

theorem applyTargetEdges_total (target : DynamicGraph) (a t : Nat)
    (l : List (Nat × SimpleEdge)) (s : BlendState)
    (h : ∀ ke ∈ l, ∃ nj, target.nodes[ke.2.otherNode t]? = some nj) :
    ∃ s', applyTargetEdges target a t l s = .ok s' := by
  induction l generalizing s with
  | nil => exact ⟨s, rfl⟩
  | cons ke rest ih =>
    obtain ⟨nj, hnj⟩ := h ke (List.mem_cons_self _ _)
    have hrest := fun x hx => h x (List.mem_cons_of_mem _ hx)
    unfold applyTargetEdges
    simp only [hnj]
    split
    · exact ih s hrest
    · split
      · exact ih s hrest
      · exact ih _ hrest

/-- Setting an `ACTIVE` node to `DONE` lowers the number of `ACTIVE` nodes by one. -/
theorem count_setState_done (g : DynamicGraph) (a : Nat) (n : SimpleNode)
    (hn : g.nodes[a]? = some n) (hst : n.state = some State.ACTIVE) :
    (g.setState a State.DONE).count State.ACTIVE + 1 = g.count State.ACTIVE := by
  have hlt : a < g.nodes.length := by
    by_contra hlt
    rw [List.getElem?_eq_none (not_lt.1 hlt)] at hn
    cases hn
  have hget : g.nodes[a] = n := by
    rw [List.getElem?_eq_getElem hlt] at hn
    injection hn
  have hmem : some State.ACTIVE ∈ g.nodes.map (fun n => n.state) :=
    List.mem_map.2 ⟨n, List.getElem?_mem hn, hst⟩
  have hposc := List.count_pos_iff.2 hmem
  unfold DynamicGraph.count DynamicGraph.flags DynamicGraph.setState DynamicGraph.modifyNode
  simp only [hn, List.map_set]
  rw [List.count_set _ _ _ _ (by simpa using hlt)]
  simp only [List.getElem_map, hget, hst, beq_self_eq_true, if_true]
  have : (some State.DONE == some State.ACTIVE) = false := by decide
  simp only [this, Bool.false_eq_true, if_false]
  omega

theorem stage3Body_total (g2 : Graph) (s : BlendState) (a : Nat)
    (ha : s.active.nodeIndex (fun n => n.state = some State.ACTIVE) = some a)
    (hcorr : ∀ n ∈ s.active.nodes, n.state = some State.ACTIVE →
      n.strCorrespond ∈ g2.nodes.map (fun n => n.id)) :
    ∃ s1, stage3Body (DynamicGraph.ofGraph g2) s = .ok s1 ∧
      s1.active.nodes = (s.active.setState a State.DONE).nodes ∧
      s1.active.count State.ACTIVE + 1 = s.active.count State.ACTIVE := by
  obtain ⟨n, hn, hpn⟩ := nodeIndex_some ha
  simp only [decide_eq_true_eq] at hpn
  have hid := hcorr n (List.getElem?_mem hn) hpn
  obtain ⟨t, ht⟩ := nodeIndex_of_original (DynamicGraph.ofGraph g2) n.strCorrespond
    (by simpa [DynamicGraph.ofGraph] using hid)
  obtain ⟨s0, hs0⟩ := applyTargetEdges_total (DynamicGraph.ofGraph g2) a t
    ((DynamicGraph.ofGraph g2).getEdges t) s (ofGraph_getEdges_valid g2 t)
  have hbody : stage3Body (DynamicGraph.ofGraph g2) s =
      .ok { s0 with active := s0.active.setState a State.DONE } := by
    unfold stage3Body
    simp only [ha, hn, ht, hs0]
  obtain ⟨hnodes, _, _⟩ := stage3Body_ok _ s _ a ha hbody
  refine ⟨_, hbody, hnodes, ?_⟩
  have := count_setState_done s.active a n hn hpn
  unfold DynamicGraph.count DynamicGraph.flags at this ⊢
  rw [hnodes]
  exact this

theorem stage3_total (g2 : Graph) (fuel : Nat) (s : BlendState)
    (hcorr : ∀ n ∈ s.active.nodes, n.state = some State.ACTIVE →
      n.strCorrespond ∈ g2.nodes.map (fun n => n.id))
    (hf : s.active.count State.ACTIVE ≤ fuel) :
    ∃ s', stage3 (DynamicGraph.ofGraph g2) fuel s = .ok s' ∧
      some State.ACTIVE ∉ s'.active.flags ∧
      List.Forall₂ (fun x y : SimpleNode => y.original = x.original ∧
        y.correspond = x.correspond ∧
        (y.state = x.state ∨ (x.state = some State.ACTIVE ∧ y.state = some State.DONE)))
        s.active.nodes s'.active.nodes := by
  induction fuel generalizing s with
  | zero =>
    have hno : some State.ACTIVE ∉ s.active.flags := by
      have h0 : s.active.flags.count (some State.ACTIVE) = 0 := Nat.le_zero.1 hf
      exact List.count_eq_zero.1 h0
    refine ⟨s, ?_, hno, forall2_refl_of (fun a => ⟨rfl, rfl, Or.inl rfl⟩) _⟩
    unfold stage3
    rw [if_neg hno]
  | succ fuel ih =>
    by_cases hact : some State.ACTIVE ∈ s.active.flags
    · obtain ⟨a, ha⟩ := active_of_flags hact
      obtain ⟨s1, hb, hnodes, hcount⟩ := stage3Body_total g2 s a ha hcorr
      obtain ⟨n, hn, hpn⟩ := nodeIndex_some ha
      simp only [decide_eq_true_eq] at hpn
      have hmove : List.Forall₂ (fun x y : SimpleNode => y.original = x.original ∧
          y.correspond = x.correspond ∧
          (y.state = x.state ∨ (x.state = some State.ACTIVE ∧ y.state = some State.DONE)))
          s.active.nodes s1.active.nodes := by
        rw [hnodes]
        unfold DynamicGraph.setState
        apply DynamicGraph.modifyNode_forall2 (fun a => ⟨rfl, rfl, Or.inl rfl⟩)
        intro x hx
        rw [hn] at hx
        injection hx with hx
        subst hx
        exact ⟨rfl, rfl, Or.inr ⟨hpn, rfl⟩⟩
      have hcorr1 : ∀ n ∈ s1.active.nodes, n.state = some State.ACTIVE →
          n.strCorrespond ∈ g2.nodes.map (fun n => n.id) := by
        intro y hy hst
        obtain ⟨j, hj⟩ := List.mem_iff_getElem?.1 hy
        obtain ⟨x, hx, hxy⟩ := forall2_getElem?_right hmove j y hj
        have hxs : x.state = some State.ACTIVE := by
          rcases hxy.2.2 with h | h
          · rw [← h]; exact hst
          · exact h.1
        have := hcorr x (List.getElem?_mem hx) hxs
        unfold SimpleNode.strCorrespond at this ⊢
        rw [hxy.2.1]
        exact this
      obtain ⟨s', hs', hno, hm2⟩ := ih s1 hcorr1 (by omega)
      refine ⟨s', ?_, hno, ?_⟩
      · unfold stage3
        rw [if_pos hact]
        simp only [hb]
        exact hs'
      · refine @forall2_trans_of _ (fun x y : SimpleNode => y.original = x.original ∧
          y.correspond = x.correspond ∧
          (y.state = x.state ∨ (x.state = some State.ACTIVE ∧ y.state = some State.DONE))) ?_ _ _ _
          hmove hm2
        intro x y z hxy hyz
        refine ⟨hyz.1.trans hxy.1, hyz.2.1.trans hxy.2.1, ?_⟩
        rcases hxy.2.2 with h1 | h1
        · rcases hyz.2.2 with h2 | h2
          · exact Or.inl (h2.trans h1)
          · exact Or.inr ⟨h1 ▸ h2.1, h2.2⟩
        · rcases hyz.2.2 with h2 | h2
          · exact Or.inr ⟨h1.1, h2.trans h1.2⟩
          · rw [h1.2] at h2
            cases h2.1
    · refine ⟨s, ?_, hact, forall2_refl_of (fun a => ⟨rfl, rfl, Or.inl rfl⟩) _⟩
      unfold stage3
      rw [if_neg hact]

theorem stage3_no_active (target : DynamicGraph) (fuel : Nat) (s s' : BlendState)
    (h : stage3 target fuel s = .ok s') : some State.ACTIVE ∉ s'.active.flags := by
  induction fuel generalizing s with
  | zero =>
    unfold stage3 at h
    split at h
    · cases h
    · rename_i hno
      simp only [Except.ok.injEq] at h
      exact h ▸ hno
  | succ fuel ih =>
    unfold stage3 at h
    split at h
    · split at h
      · cases h
      · exact ih _ h
    · rename_i hno
      simp only [Except.ok.injEq] at h
      exact h ▸ hno

/-- C17: for a working graph in which the `correspond` of every `ACTIVE` node names a
part of the target graph, each stage 3 iteration returns and turns exactly the picked
`ACTIVE` node into `DONE` (one `ACTIVE` node fewer, every other node unchanged); the
stage 3 loop returns within as many iterations as there are `ACTIVE` nodes at its
start, with no node `ACTIVE`, no node made `ACTIVE` and no `original` or `correspond`
changed; and whenever `blend` returns no node is `ACTIVE`. -/
theorem stage3_terminates (geo : Geometry) (g1 g2 : Graph) (fuel : Nat) (s : BlendState)
    (hcorr : ∀ n ∈ s.active.nodes, n.state = some State.ACTIVE →
      n.strCorrespond ∈ g2.nodes.map (fun n => n.id))
    (hf : s.active.count State.ACTIVE ≤ fuel) :
    (∀ a, s.active.nodeIndex (fun n => n.state = some State.ACTIVE) = some a →
      ∃ s1, stage3Body (DynamicGraph.ofGraph g2) s = .ok s1 ∧
        s1.active.nodes = (s.active.setState a State.DONE).nodes ∧
        s1.active.count State.ACTIVE + 1 = s.active.count State.ACTIVE) ∧
    (∃ s', stage3 (DynamicGraph.ofGraph g2) fuel s = .ok s' ∧
      some State.ACTIVE ∉ s'.active.flags ∧
      List.Forall₂ (fun x y : SimpleNode => y.original = x.original ∧
        y.correspond = x.correspond ∧
        (y.state = x.state ∨ (x.state = some State.ACTIVE ∧ y.state = some State.DONE)))
        s.active.nodes s'.active.nodes) ∧
    (∀ fuel' sf, blend geo g1 g2 fuel' = .ok sf → some State.ACTIVE ∉ sf.active.flags) := by
  refine ⟨fun a ha => stage3Body_total g2 s a ha hcorr, stage3_total g2 fuel s hcorr hf, ?_⟩
  intro fuel' sf h
  unfold blend at h
  split at h
  · cases h
  · simp only at h
    split at h
    · cases h
    · split at h
      · cases h
      · split at h
        · cases h
        · rename_i s3 h3
          simp only [Except.ok.injEq] at h
          subst h
          exact stage3_no_active _ _ _ s3 h3

/-- C17, witness: stage 3 of the run on `spokeSource` and `ringTarget`, entered with
the two `ACTIVE` nodes `D` and `E` and run with 2 iterations. -/
theorem stage3_terminates_witness :
    (∀ a, spokeAfterStage2.active.nodeIndex (fun n => n.state = some State.ACTIVE) = some a →
      ∃ s1, stage3Body (DynamicGraph.ofGraph ringTarget) spokeAfterStage2 = .ok s1 ∧
        s1.active.nodes = (spokeAfterStage2.active.setState a State.DONE).nodes ∧
        s1.active.count State.ACTIVE + 1 = spokeAfterStage2.active.count State.ACTIVE) ∧
    (∃ s', stage3 (DynamicGraph.ofGraph ringTarget) 2 spokeAfterStage2 = .ok s' ∧
      some State.ACTIVE ∉ s'.active.flags ∧
      List.Forall₂ (fun x y : SimpleNode => y.original = x.original ∧
        y.correspond = x.correspond ∧
        (y.state = x.state ∨ (x.state = some State.ACTIVE ∧ y.state = some State.DONE)))
        spokeAfterStage2.active.nodes s'.active.nodes) ∧
    (∀ fuel' sf, blend axisGeometry spokeSource ringTarget fuel' = .ok sf →
      some State.ACTIVE ∉ sf.active.flags) :=
  stage3_terminates axisGeometry spokeSource ringTarget 2 spokeAfterStage2 (by decide!)
    (by decide!)

/-! ## Well-formedness of the working graph along a run -/

theorem wellFormed_modifyNode (g2 : Graph) (g : DynamicGraph) (i : Nat)
    (f : SimpleNode → SimpleNode) (h : g.wellFormed g2)
    (hf : ∀ n, (∀ c, n.correspond = some c → c ∈ g2.nodes.map (fun n => n.id)) →
      ∀ c, (f n).correspond = some c → c ∈ g2.nodes.map (fun n => n.id)) :
    (g.modifyNode i f).wellFormed g2 := by
  refine ⟨?_, ?_⟩
  · rw [DynamicGraph.modifyNode_edges, DynamicGraph.modifyNode_length]
    exact h.1
  · intro n hn
    obtain ⟨j, hj⟩ := List.mem_iff_getElem?.1 hn
    rw [DynamicGraph.modifyNode_getElem?] at hj
    split at hj
    · cases hg : g.nodes[j]? with
      | none => rw [hg] at hj; cases hj
      | some m =>
        rw [hg] at hj
        simp only [Option.map_some', Option.some.injEq] at hj
        rw [← hj]
        exact hf m (h.2 m (List.getElem?_mem hg))
    · exact h.2 n (List.getElem?_mem hj)

theorem wellFormed_setState (g2 : Graph) (g : DynamicGraph) (i : Nat) (st : State)
    (h : g.wellFormed g2) : (g.setState i st).wellFormed g2 :=
  wellFormed_modifyNode g2 g i _ h (fun _ hn => hn)

theorem wellFormed_setCorrespond (g2 : Graph) (g : DynamicGraph) (i : Nat) (c : String)
    (h : g.wellFormed g2) (hc : c ∈ g2.nodes.map (fun n => n.id)) :
    (g.setCorrespond i c).wellFormed g2 := by
  apply wellFormed_modifyNode g2 g i _ h
  intro n _ c' hc'
  simp only [Option.some.injEq] at hc'
  exact hc' ▸ hc

theorem wellFormed_removeEdge (g2 : Graph) (g : DynamicGraph) (i j : Nat)
    (h : g.wellFormed g2) : (g.removeEdge i j).wellFormed g2 :=
  ⟨fun e he => h.1 e (List.mem_filter.1 he).1, h.2⟩

theorem wellFormed_addEdge (g2 : Graph) (g : DynamicGraph) (i j : Nat)
    (h : g.wellFormed g2) (hi : i < g.nodes.length) (hj : j < g.nodes.length) :
    (g.addEdge i j).wellFormed g2 := by
  refine ⟨?_, h.2⟩
  intro e he
  simp only [DynamicGraph.addEdge, List.mem_append, List.mem_singleton] at he
  rcases he with he | he
  · exact h.1 e he
  · rw [he]; exact ⟨hi, hj⟩

theorem wellFormed_detach (g2 : Graph) (g : DynamicGraph) (a o : Nat)
    (h : g.wellFormed g2) : (detach g a o).wellFormed g2 := by
  unfold detach
  simp only
  split
  · exact wellFormed_setState g2 _ _ _ (wellFormed_removeEdge g2 g a o h)
  · exact wellFormed_removeEdge g2 g a o h

theorem wellFormed_removeExcess (g2 : Graph) (id : String) (a k : Nat)
    (corresp rest : List ScalarLinksPair) (g g' : DynamicGraph) (hg : g.wellFormed g2)
    (h : removeExcess id a k corresp g = .ok (rest, g')) : g'.wellFormed g2 := by
  induction k generalizing corresp g with
  | zero =>
    simp only [removeExcess, Except.ok.injEq, Prod.mk.injEq] at h
    exact h.2 ▸ hg
  | succ k ih =>
    unfold removeExcess at h
    split at h
    · cases h
    · simp only at h
      split at h
      · cases h
      · exact ih _ _ (wellFormed_detach g2 g a _ hg) h

theorem wellFormed_propagateAbundance (g2 : Graph) (id tid : String)
    (l : List ScalarLinksPair) (g g' : DynamicGraph) (hg : g.wellFormed g2)
    (hl : ∀ sp ∈ l, ∀ lt, sp.2.2 = some lt → lt.otherNode tid ∈ g2.nodes.map (fun n => n.id))
    (h : propagateAbundance id tid l g = .ok g') : g'.wellFormed g2 := by
  induction l generalizing g with
  | nil =>
    simp only [propagateAbundance, Except.ok.injEq] at h
    exact h ▸ hg
  | cons sp rest ih =>
    unfold propagateAbundance at h
    simp only at h
    split at h
    · cases h
    · split at h
      · cases h
      · split at h
        · cases h
        · rename_i lt hlt
          refine ih _ ?_ (fun x hx => hl x (List.mem_cons_of_mem _ hx)) h
          apply wellFormed_setCorrespond
          · split
            · exact wellFormed_setState g2 g _ _ hg
            · exact hg
          · exact hl sp (List.mem_cons_self _ _) lt hlt

theorem wellFormed_propagateDeficiency (g2 : Graph) (id tid : String)
    (l : List ScalarLinksPair) (g g' : DynamicGraph) (hg : g.wellFormed g2)
    (hl : ∀ sp ∈ l, ∀ lt, sp.2.2 = some lt → lt.otherNode tid ∈ g2.nodes.map (fun n => n.id))
    (h : propagateDeficiency id tid l g = .ok g') : g'.wellFormed g2 := by
  induction l generalizing g with
  | nil =>
    simp only [propagateDeficiency, Except.ok.injEq] at h
    exact h ▸ hg
  | cons sp rest ih =>
    have hrest := fun x hx => hl x (List.mem_cons_of_mem _ hx)
    unfold propagateDeficiency at h
    simp only at h
    split at h
    · cases h
    · split at h
      · cases h
      · split at h
        · split at h
          · cases h
          · rename_i lt hlt
            refine ih _ ?_ hrest h
            exact wellFormed_setCorrespond g2 _ _ _ (wellFormed_setState g2 g _ _ hg)
              (hl sp (List.mem_cons_self _ _) lt hlt)
        · exact ih _ hg hrest h

/-- A target link recorded by `badCorrespondence` is a link of the target graph. -/
theorem badCorrespondence_target_link (geo : Geometry) (g1 g2 : Graph) (id tid : String)
    (sp : ScalarLinksPair) (h : sp ∈ (badCorrespondence geo g1 g2 id tid).1) (lt : Link)
    (hlt : sp.2.2 = some lt) : lt ∈ g2.edges := by
  obtain ⟨i, _, _, h2, _⟩ := mem_badCorrespondence geo g1 g2 id tid sp h
  obtain ⟨hsome, hnone⟩ := closestLink_spec geo i.2 (g2.linksCoords tid)
  by_cases hex : ∃ j ∈ g2.linksCoords tid, geo.norm4 (i.2 - j.2) < DBL_MAX
  · obtain ⟨j, hj, hj2, _⟩ := hsome hex
    rw [h2, hj2] at hlt
    injection hlt with hlt
    exact hlt ▸ linksCoords_mem g2 tid j hj
  · have hall : ∀ j ∈ g2.linksCoords tid, ¬ geo.norm4 (i.2 - j.2) < DBL_MAX :=
      fun j hj hlt' => hex ⟨j, hj, hlt'⟩
    rw [h2, (hnone hall).1] at hlt
    cases hlt

theorem wellFormed_stage1Body (geo : Geometry) (g1 g2 : Graph) (hwf : g2.linksClosed)
    (s s' : BlendState) (hs : s.active.wellFormed g2)
    (h : stage1Body geo g1 g2 s = .ok s') : s'.active.wellFormed g2 := by
  unfold stage1Body at h
  split at h
  · simp only [Except.ok.injEq] at h
    exact h ▸ hs
  · rename_i a _
    simp only at h
    split at h
    · cases h
    · rename_i n_active _
      split at h
      · cases h
      · rename_i s1 hrec
        simp only [Except.ok.injEq] at h
        subst h
        simp only
        apply wellFormed_setState
        have hl : ∀ sp ∈ (badCorrespondence geo g1 g2 n_active.original
            n_active.strCorrespond).1, ∀ lt, sp.2.2 = some lt →
            lt.otherNode n_active.strCorrespond ∈ g2.nodes.map (fun n => n.id) :=
          fun sp hsp lt hlt => otherNode_mem g2 hwf lt
            (badCorrespondence_target_link geo g1 g2 _ _ sp hsp lt hlt) _
        unfold reconcile at hrec
        split at hrec
        · split at hrec
          · cases hrec
          · rename_i rest g hrem
            split at hrec
            · cases hrec
            · rename_i g' hprop
              simp only [Except.ok.injEq] at hrec
              subst hrec
              simp only
              obtain ⟨_, hrest, _⟩ := removeExcess_spec _ _ _ _ _ _ _ hrem
              refine wellFormed_propagateAbundance g2 _ _ rest g g'
                (wellFormed_removeExcess g2 _ _ _ _ _ _ _ hs hrem) ?_ hprop
              intro sp hsp
              rw [hrest] at hsp
              exact hl sp (List.mem_of_mem_take hsp)
        · split at hrec
          · split at hrec
            · cases hrec
            · rename_i g' hprop
              simp only [Except.ok.injEq] at hrec
              subst hrec
              simp only
              exact wellFormed_propagateDeficiency g2 _ _ _ _ g' hs hl hprop
          · simp only [Except.ok.injEq] at hrec
            subst hrec
            exact hs

theorem wellFormed_initial (geo : Geometry) (g1 g2 : Graph) (active : DynamicGraph)
    (h : bestPartialCorrespondence geo g1 g2 = .ok active) : active.wellFormed g2 := by
  obtain ⟨kv, rest, k, n, hs, _, _, _, hact⟩ := bestPartialCorrespondence_ok geo g1 g2 active h
  have hmem : kv ∈ computeScores geo g1 g2 := by rw [hs]; exact List.mem_cons_self _ _
  obtain ⟨i, _, j, hj, _, hx⟩ := (computeScores_mem geo g1 g2 kv).1 hmem
  have hid : kv.2.2.id ∈ g2.nodes.map (fun n => n.id) := by
    rw [hx]
    exact List.mem_map.2 ⟨j, hj, rfl⟩
  rw [hact]
  apply wellFormed_setState
  apply wellFormed_setCorrespond _ _ _ _ _ hid
  refine ⟨?_, ?_⟩
  · intro e he
    have he' : e ∈ (DynamicGraph.ofGraph g1).edges := he
    obtain ⟨_, _, na, nb, hna, _, hnb, _⟩ := ofGraph_edge g1 e he'
    have hlen : ((DynamicGraph.ofGraph g1).flagNodes State.SLEEP).nodes.length =
        g1.nodes.length := by rw [flagged_nodes, List.length_map]
    rw [hlen]
    constructor
    · by_contra hlt
      rw [List.getElem?_eq_none (not_lt.1 hlt)] at hna
      cases hna
    · by_contra hlt
      rw [List.getElem?_eq_none (not_lt.1 hlt)] at hnb
      cases hnb
  · intro m hm c hc
    rw [flagged_nodes] at hm
    obtain ⟨x, _, hx⟩ := List.mem_map.1 hm
    rw [← hx] at hc
    cases hc

theorem lt_of_getElem? {α : Type} {l : List α} {i : Nat} {a : α} (h : l[i]? = some a) :
    i < l.length := by
  by_contra hlt
  rw [List.getElem?_eq_none (not_lt.1 hlt)] at h
  cases h

theorem wellFormed_reconnectStep (geo : Geometry) (g1 g2 : Graph) (index t : Nat)
    (ke : Nat × SimpleEdge) (s s' : BlendState) (hs : s.active.wellFormed g2)
    (h : reconnectStep geo g1 g2 (DynamicGraph.ofGraph g2) index t ke s = .ok (some s')) :
    s'.active.wellFormed g2 := by
  have hlen := (reconnectStep_keeps geo g1 g2 _ index t ke s s' h).length_eq
  obtain ⟨n_active, n_target, n_targetOther, link, closestIdx, closest, n, k, hna, _, hnto, _,
    hcl, _, _, _, _, hnew, hother, hedges, _, _, _⟩ :=
    reconnectStep_spec geo g1 g2 _ index t ke s s' h
  refine ⟨?_, ?_⟩
  · intro e he
    rw [hedges] at he
    rw [← hlen]
    simp only [List.mem_append, List.mem_singleton] at he
    rcases he with he | he
    · exact hs.1 e he
    · rw [he]; exact ⟨lt_of_getElem? hna, lt_of_getElem? hcl⟩
  · intro m hm c hc
    obtain ⟨j, hj⟩ := List.mem_iff_getElem?.1 hm
    by_cases hjc : j = closestIdx
    · rw [hjc, hnew] at hj
      injection hj with hj
      rw [← hj] at hc
      simp only [Option.some.injEq] at hc
      rw [ofGraph_nodes] at hnto
      cases hg : g2.nodes[ke.2.otherNode t]? with
      | none => rw [hg] at hnto; cases hnto
      | some x =>
        rw [hg] at hnto
        simp only [Option.map_some', Option.some.injEq] at hnto
        rw [← hc, ← hnto]
        exact List.mem_map.2 ⟨x, List.getElem?_mem hg, rfl⟩
    · rw [hother j hjc] at hj
      exact hs.2 m (List.getElem?_mem hj) c hc

theorem wellFormed_applyTargetEdges (g2 : Graph) (target : DynamicGraph) (a t : Nat)
    (l : List (Nat × SimpleEdge)) (s s' : BlendState) (hs : s.active.wellFormed g2)
    (ha : a < s.active.nodes.length) (h : applyTargetEdges target a t l s = .ok s') :
    s'.active.wellFormed g2 := by
  induction l generalizing s with
  | nil =>
    simp only [applyTargetEdges, Except.ok.injEq] at h
    exact h ▸ hs
  | cons ke rest ih =>
    unfold applyTargetEdges at h
    split at h
    · cases h
    · simp only at h
      split at h
      · exact ih s hs ha h
      · rename_i o ho
        split at h
        · exact ih s hs ha h
        · obtain ⟨x, hx, _⟩ := nodeIndex_some ho
          exact ih ⟨s.active.addEdge a o, IntMap.set a (s.needLink.get a - 1) s.needLink,
            s.step + 1⟩ (wellFormed_addEdge g2 _ _ _ hs ha (lt_of_getElem? hx)) ha h

theorem wellFormed_stage3Body (g2 : Graph) (target : DynamicGraph) (s s' : BlendState)
    (hs : s.active.wellFormed g2) (h : stage3Body target s = .ok s') :
    s'.active.wellFormed g2 := by
  unfold stage3Body at h
  split at h
  · simp only [Except.ok.injEq] at h
    exact h ▸ hs
  · rename_i a ha
    split at h
    · cases h
    · rename_i n hn
      split at h
      · cases h
      · split at h
        · cases h
        · rename_i s1 happ
          simp only [Except.ok.injEq] at h
          subst h
          exact wellFormed_setState g2 _ _ _
            (wellFormed_applyTargetEdges g2 target a _ _ s s1 hs (lt_of_getElem? hn) happ)

/-- Every blend state of a run on a target graph closed under its links has a well
formed working graph. -/
theorem reachable_wellFormed (geo : Geometry) (g1 g2 : Graph) (hwf : g2.linksClosed)
    (s : BlendState) (h : Reachable geo g1 g2 s) : s.active.wellFormed g2 := by
  induction h with
  | phase0 active h0 => exact wellFormed_initial geo g1 g2 active h0
  | phase1 s s' _ _ hb ih => exact wellFormed_stage1Body geo g1 g2 hwf s s' ih hb
  | phase2 s s' index t ke _ _ hb ih =>
    exact wellFormed_reconnectStep geo g1 g2 index t ke s s' ih hb
  | phase3 s s' _ _ hb ih => exact wellFormed_stage3Body g2 _ s s' ih hb
  | final s _ ih => exact ih

/-! ## C12: a deficit node repaired while no node is `DISCONNECTED` -/

theorem IntMap.set_ascending (k : Nat) (v : Int) (m : IntMap)
    (h : m.Pairwise (fun a b => a.1 < b.1)) :
    (IntMap.set k v m).Pairwise (fun a b => a.1 < b.1) := by
  induction m with
  | nil => simp [IntMap.set]
  | cons y rest ih =>
    rw [List.pairwise_cons] at h
    unfold IntMap.set
    split
    · rename_i hk
      rw [List.pairwise_cons]
      refine ⟨?_, List.pairwise_cons.2 h⟩
      intro b hb
      rcases List.mem_cons.1 hb with hb | hb
      · rw [hb]; exact hk
      · exact lt_trans hk (h.1 b hb)
    · split
      · rename_i _ hk
        rw [List.pairwise_cons]
        refine ⟨?_, h.2⟩
        intro b hb
        have := h.1 b hb
        rw [← hk] at this
        exact this
      · rename_i h1 h2
        have hlt : y.1 < k := lt_of_le_of_ne (not_lt.1 h1) (fun e => h2 e.symm)
        rw [List.pairwise_cons]
        refine ⟨?_, ih h.2⟩
        intro b hb
        rcases IntMap.mem_set k v rest b hb with hb | hb
        · rw [hb]; exact hlt
        · exact h.1 b hb

theorem stage1Body_needLink_sorted (geo : Geometry) (g1 g2 : Graph) (s s' : BlendState)
    (hsort : s.needLink.Pairwise (fun a b => a.1 < b.1))
    (h : stage1Body geo g1 g2 s = .ok s') : s'.needLink.Pairwise (fun a b => a.1 < b.1) := by
  unfold stage1Body at h
  split at h
  · simp only [Except.ok.injEq] at h
    exact h ▸ hsort
  · simp only at h
    split at h
    · cases h
    · split at h
      · cases h
      · rename_i s1 hrec
        simp only [Except.ok.injEq] at h
        subst h
        simp only
        rcases reconcile_needLink _ _ _ _ _ _ _ hrec with h1 | ⟨_, h1⟩
        · rw [h1]; exact hsort
        · rw [h1]; exact IntMap.set_ascending _ _ _ hsort

theorem stage1_needLink_sorted (geo : Geometry) (g1 g2 : Graph) (target : DynamicGraph)
    (fuel : Nat) (s s' : BlendState) (hsort : s.needLink.Pairwise (fun a b => a.1 < b.1))
    (h : stage1 geo g1 g2 target fuel s = .ok s') :
    s'.needLink.Pairwise (fun a b => a.1 < b.1) := by
  induction fuel generalizing s with
  | zero =>
    unfold stage1 at h
    split at h
    · cases h
    · simp only [Except.ok.injEq] at h
      exact h ▸ hsort
  | succ fuel ih =>
    unfold stage1 at h
    split at h
    · split at h
      · cases h
      · rename_i s1 hb
        exact ih s1 (stage1Body_needLink_sorted geo g1 g2 s s1 hsort hb) h
    · simp only [Except.ok.injEq] at h
      exact h ▸ hsort

theorem reconnect_get_other (geo : Geometry) (g1 g2 : Graph) (target : DynamicGraph)
    (index t : Nat) (l : List (Nat × SimpleEdge)) (s s' : BlendState)
    (h : reconnect geo g1 g2 target index t l s = .ok s') :
    ∀ j, j ≠ index → s'.needLink.get j = s.needLink.get j := by
  induction l generalizing s with
  | nil =>
    simp only [reconnect, Except.ok.injEq] at h
    subst h
    exact fun _ _ => rfl
  | cons ke rest ih =>
    unfold reconnect at h
    split at h
    · cases h
    · simp only [Except.ok.injEq] at h
      subst h
      exact fun _ _ => rfl
    · rename_i s1 hstep
      obtain ⟨_, _, _, hneed, _⟩ := reconnectStep_ok geo g1 g2 target index t ke s s1 hstep
      intro j hj
      rw [ih s1 h j hj, hneed]
      exact IntMap.get_set_ne _ _ _ _ hj

theorem repairNode_get_other (geo : Geometry) (g1 g2 : Graph) (target : DynamicGraph)
    (index : Nat) (s s' : BlendState) (h : repairNode geo g1 g2 target index s = .ok s') :
    ∀ j, j ≠ index → s'.needLink.get j = s.needLink.get j := by
  unfold repairNode at h
  split at h
  · cases h
  · split at h
    · cases h
    · split at h
      · cases h
      · exact reconnect_get_other geo g1 g2 target index _ _ s s' h

theorem stage2_get_other (geo : Geometry) (g1 g2 : Graph) (target : DynamicGraph)
    (keys : List Nat) (s s' : BlendState) (h : stage2 geo g1 g2 target keys s = .ok s') :
    ∀ j, j ∉ keys → s'.needLink.get j = s.needLink.get j := by
  induction keys generalizing s with
  | nil =>
    simp only [stage2, Except.ok.injEq] at h
    subst h
    exact fun _ _ => rfl
  | cons index rest ih =>
    unfold stage2 at h
    split at h
    · cases h
    · rename_i s1 hrep
      intro j hj
      rw [ih s1 h j (fun hm => hj (List.mem_cons_of_mem _ hm))]
      exact repairNode_get_other geo g1 g2 target index s s1 hrep j
        (fun e => hj (e ▸ List.mem_cons_self _ _))

/-- C12: in a run of `blend` on a target graph closed under its links, let stage 2
reach the deficit node `index` (after the repair of the keys `pre` that come before
it) in a state `s` with no `DISCONNECTED` node.  Then the repair of `index` returns
`s` itself: no edge is added, no state or `correspond` changes, no deficit changes;
and the deficit of `index` is the one recorded in stage 1, greater than 0. -/
theorem repairNode_without_disconnected (geo : Geometry) (g1 g2 : Graph) (fuel : Nat)
    (active : DynamicGraph) (s1 s : BlendState) (pre post : List Nat) (index : Nat)
    (hwf : g2.linksClosed)
    (h0 : bestPartialCorrespondence geo g1 g2 = .ok active)
    (h1 : stage1 geo g1 g2 (DynamicGraph.ofGraph g2) fuel ⟨active, [], 0⟩ = .ok s1)
    (hkeys : s1.needLink.map Prod.fst = pre ++ index :: post)
    (h2 : stage2 geo g1 g2 (DynamicGraph.ofGraph g2) pre s1 = .ok s)
    (hdis : some State.DISCONNECTED ∉ s.active.flags) :
    repairNode geo g1 g2 (DynamicGraph.ofGraph g2) index s = .ok s ∧
    s.needLink.get index = s1.needLink.get index ∧ 0 < s.needLink.get index := by
  have hpre : ∀ x ∈ pre, x ∈ s1.needLink.map Prod.fst := by
    intro x hx
    rw [hkeys]
    exact List.mem_append_left _ hx
  have hidx1 : index ∈ s1.needLink.map Prod.fst := by
    rw [hkeys]
    exact List.mem_append_right _ (List.mem_cons_self _ _)
  have r1 := stage1_reachable geo g1 g2 fuel _ s1 (Reachable.phase0 active h0) h1
  have r := stage2_reachable geo g1 g2 pre s1 s r1 hpre h2
  have hwfs := reachable_wellFormed geo g1 g2 hwf s r
  have hidx : index ∈ s.needLink.map Prod.fst :=
    (stage2_keys geo g1 g2 _ pre s1 s hpre h2 index).2 hidx1
  obtain ⟨kv, hkv, hkvi⟩ := List.mem_map.1 hidx
  obtain ⟨n_active, hn, hcorr⟩ := (reachable_invariant geo g1 g2 s r).2.2 kv hkv
  rw [hkvi] at hn
  obtain ⟨c, hc⟩ := Option.isSome_iff_exists.1 hcorr
  have hcid := hwfs.2 n_active (List.getElem?_mem hn) c hc
  obtain ⟨t, ht⟩ := nodeIndex_of_original (DynamicGraph.ofGraph g2) c
    (by simpa [DynamicGraph.ofGraph] using hcid)
  have hstr : n_active.strCorrespond = c := by
    unfold SimpleNode.strCorrespond
    rw [hc]
    rfl
  have hsorted := stage1_needLink_sorted geo g1 g2 _ fuel _ s1 List.Pairwise.nil h1
  have hnodup : (s1.needLink.map Prod.fst).Nodup := by
    rw [List.Nodup, List.pairwise_map]
    exact hsorted.imp (fun hab => ne_of_lt hab)
  have hnotin : index ∉ pre := by
    rw [hkeys] at hnodup
    intro hmem
    exact (List.disjoint_of_nodup_append hnodup) hmem (List.mem_cons_self _ _)
  have hget := stage2_get_other geo g1 g2 _ pre s1 s h2 index hnotin
  refine ⟨?_, hget, ?_⟩
  · exact repairNode_unchanged geo g1 g2 index t s n_active hn
      (by unfold DynamicGraph.getNode; rw [hstr]; exact ht) hwfs.1 hdis
  · rw [hget]
    exact IntMap.get_pos _ _ hidx1
      (stage1_deficits_positive geo g1 g2 _ fuel _ s1 (fun kv hkv => by cases hkv) h1)

/-- C12, witness: the run on `ringSource` and `ringTarget`; stage 1 records a deficit
for `B` and for `C`, the repair of `B` reconnects `D`, the only `DISCONNECTED` node,
and the repair of `C` finds none: it returns the state unchanged, with the deficit 1
of `C`. -/
theorem repairNode_without_disconnected_witness :
    repairNode axisGeometry ringSource ringTarget (DynamicGraph.ofGraph ringTarget) 2
      ringAfterRepair = .ok ringAfterRepair ∧
    ringAfterRepair.needLink.get 2 = ringAfterStage1.needLink.get 2 ∧
    0 < ringAfterRepair.needLink.get 2 :=
  repairNode_without_disconnected axisGeometry ringSource ringTarget 10 ringInitial
    ringAfterStage1 ringAfterRepair [1] [] 2 (by unfold Graph.linksClosed; decide!)
    (by decide!) (by decide!) (by decide!) (by decide!) (by decide!)

end TopoBlend
